import Mathlib

/-!
# srdwm: a verification development of the window-manager core

The development embeds the platform-independent part of srdwm
(`src/core`, `src/layouts`) and proves properties of it.

Modelling conventions

* C++ `int` values are mathematical integers (`Int`).  Signed overflow is
  undefined behaviour in C++ and is outside the model.  Conversions whose
  result the language defines by reduction modulo a power of two
  (`int` to `size_t`, `size_t` to `int`) are written out with `toSizeT`
  and `toInt32`.
* A `SRDWindow*` is an address (`WindowPtr`); a pointer that may be null is an
  `Option WindowPtr`.  The window objects live in a `Heap`, a total map from
  addresses to window values.
* Output to `std::cout` / `std::cerr` is not part of the state and is left out.
  The operands of an output statement are still evaluated: a statement that
  dereferences a null pointer is undefined behaviour, the call does not return,
  and the function returns `Except.error` with the state at that statement.
-/

namespace SRDWM

/-! ## Machine integers -/

/-- Conversion to C++ `int` (32 bit, two's complement): the value modulo `2^32`
in the range `[-2^31, 2^31)`. -/
@[irreducible]
def toInt32 (z : Int) : Int := (z + 2 ^ 31) % 2 ^ 32 - 2 ^ 31

/-- Conversion to `size_t` (64 bit, unsigned): the value modulo `2^64`. -/
@[irreducible]
def toSizeT (z : Int) : Int := z % 2 ^ 64

/-! ## `core/window.h`, `core/window.cc` -/

/-- The class `SRDWindow` of `core/window.h`: its private data members. -/
structure SRDWindow where
  id_ : Int
  title_ : String
  x_ : Int
  y_ : Int
  width_ : Int
  height_ : Int
  decorated_ : Bool
deriving DecidableEq, Repr

namespace SRDWindow

/-- The constructor `SRDWindow::SRDWindow(int id, const std::string& title)`. -/
def new (id : Int) (title : String) : SRDWindow :=
  { id_ := id, title_ := title, x_ := 0, y_ := 0, width_ := 0, height_ := 0, decorated_ := true }

def getId (w : SRDWindow) : Int := w.id_

def getX (w : SRDWindow) : Int := w.x_

def getY (w : SRDWindow) : Int := w.y_

def getWidth (w : SRDWindow) : Int := w.width_

def getHeight (w : SRDWindow) : Int := w.height_

def setPosition (w : SRDWindow) (x y : Int) : SRDWindow :=
  { w with x_ := x, y_ := y }

def setSize (w : SRDWindow) (width height : Int) : SRDWindow :=
  { w with width_ := width, height_ := height }

def setGeometry (w : SRDWindow) (x y width height : Int) : SRDWindow :=
  { w with x_ := x, y_ := y, width_ := width, height_ := height }

def setDimensions (w : SRDWindow) (x y width height : Int) : SRDWindow :=
  { w with x_ := x, y_ := y, width_ := width, height_ := height }

def setId (w : SRDWindow) (id : Int) : SRDWindow :=
  { w with id_ := id }

end SRDWindow

/-- The address of a window object (a non-null `SRDWindow*`). -/
abbrev WindowPtr := Nat

/-- The window objects, by address. -/
abbrev Heap := WindowPtr → SRDWindow

/-- Write through a pointer: the object at `p` becomes `w`. -/
def Heap.store (heap : Heap) (p : WindowPtr) (w : SRDWindow) : Heap :=
  fun q => if q = p then w else heap q

/-! ## `layouts/layout.h` -/

/-- The struct `Monitor` of `layouts/layout.h`. -/
structure Monitor where
  id : Int
  x : Int
  y : Int
  width : Int
  height : Int
  name : String
  refresh_rate : Int
deriving DecidableEq, Repr

/-! ## `layouts/tiling_layout.cc` -/

namespace TilingLayout

/-- The `for` loop of `TilingLayout::arrange_windows`, from the window at the
head of `windows` on, with the running `current_x`. -/
def arrange_windows_loop (monitor : Monitor) (window_width : Int) :
    List WindowPtr → Int → Heap → Heap
  | [], _, heap => heap
  | window :: rest, current_x, heap =>
      let w1 := (heap window).setPosition current_x monitor.y
      let w2 := w1.setDimensions current_x monitor.y window_width monitor.height
      arrange_windows_loop monitor window_width rest (current_x + window_width)
        (heap.store window w2)

/-- `TilingLayout::arrange_windows`.  `monitor.width / windows.size()` divides
an `int` by a `size_t`: the dividend is converted to `size_t`, the division is
unsigned, and the quotient is converted back to `int`. -/
def arrange_windows (windows : List WindowPtr) (monitor : Monitor) (heap : Heap) : Heap :=
  if windows.isEmpty then heap
  else
    let window_width : Int := toInt32 (toSizeT monitor.width / (windows.length : Int))
    let current_x : Int := monitor.x
    arrange_windows_loop monitor window_width windows current_x heap

end TilingLayout

/-! ## Loops -/

/-- The values taken by `v` in `for (int v = start; v < stop; v += step)`, the
body not assigning to `v`; `fuel` bounds the number of iterations. -/
def forRangeAux : Nat → Int → Int → Int → List Int
  | 0, _, _, _ => []
  | fuel + 1, v, stop, step =>
      if v < stop then v :: forRangeAux fuel (v + step) stop step else []

/-- The values taken by `v` in `for (int v = start; v < stop; v += step)` for a
step of at least one: at most `stop - start` iterations are made. -/
def forRange (start stop step : Int) : List Int :=
  forRangeAux (stop - start).toNat start stop step

/-! ## `layouts/smart_placement.h`, `layouts/smart_placement.cc`

The functions are static and only read the windows they are given, so the
windows are passed by value (the objects the pointers refer to at the call).
The function-local `static int window_counter` of `calculate_grid_position`
is passed in and returned. -/

namespace SmartPlacement

/-- The struct `SmartPlacement::PlacementResult`. -/
structure PlacementResult where
  x : Int
  y : Int
  width : Int
  height : Int
  success : Bool
  reason : String
deriving DecidableEq, Repr

def MIN_WINDOW_WIDTH : Int := 200

def MIN_WINDOW_HEIGHT : Int := 150

def GRID_MARGIN : Int := 10

def CASCADE_OFFSET : Int := 30

/-- `SmartPlacement::is_position_valid`. -/
def is_position_valid (x y width height : Int) (monitor : Monitor) : Bool :=
  decide (x ≥ monitor.x) && decide (y ≥ monitor.y) &&
  decide (x + width ≤ monitor.x + monitor.width) &&
  decide (y + height ≤ monitor.y + monitor.height) &&
  decide (width ≥ MIN_WINDOW_WIDTH) && decide (height ≥ MIN_WINDOW_HEIGHT)

/-- `SmartPlacement::calculate_grid_position`: the pair `(grid_x, grid_y)` and
the new value of the static `window_counter`. -/
def calculate_grid_position (window_counter : Int) : (Int × Int) × Int :=
  let grid_x := Int.tmod window_counter 2
  let grid_y := Int.tdiv window_counter 2
  ((grid_x, grid_y), window_counter + 1)

/-- The value of `static_cast<int>(std::ceil(std::sqrt(n)))` for an `int`
`n > 0` is the least `k` with `n ≤ k * k` (the double-precision square root of
such an `n` is exact on squares and lies strictly between two integers
otherwise).  The search for it, from `k` on, in at most `fuel` steps. -/
def ceil_sqrt_from : Nat → Nat → Nat → Nat
  | 0, k, _ => k
  | fuel + 1, k, n => if n ≤ k * k then k else ceil_sqrt_from fuel (k + 1) n

/-- The least `k` with `n ≤ k * k`, searched upwards from `0`. -/
def ceil_sqrt (n : Nat) : Int := (ceil_sqrt_from n 0 n : Nat)

/-- `SmartPlacement::calculate_optimal_grid_size`. -/
def calculate_optimal_grid_size (_monitor : Monitor) (window_count : Int) : Int :=
  if window_count ≤ 0 then 1
  else
    let grid_size := ceil_sqrt window_count.toNat
    max 1 (min grid_size 4)

/-- `SmartPlacement::place_in_grid`, with the static counter before the call;
returns the result and the counter after the call. -/
def place_in_grid (_window : SRDWindow) (monitor : Monitor)
    (existing_windows : List SRDWindow) (window_counter : Int) : PlacementResult × Int :=
  let result : PlacementResult := ⟨0, 0, 0, 0, false, "Grid placement failed"⟩
  let window_count : Int := toInt32 (toSizeT ((existing_windows.length : Int) + 1))
  let grid_size := calculate_optimal_grid_size monitor window_count
  if grid_size ≤ 0 then
    ({ result with reason := "Invalid grid size" }, window_counter)
  else
    let gp := calculate_grid_position window_counter
    let grid_x := gp.1.1
    let grid_y := gp.1.2
    let cell_width0 := Int.tdiv (monitor.width - (grid_size + 1) * GRID_MARGIN) grid_size
    let cell_height0 := Int.tdiv (monitor.height - (grid_size + 1) * GRID_MARGIN) grid_size
    let cell_width := max cell_width0 MIN_WINDOW_WIDTH
    let cell_height := max cell_height0 MIN_WINDOW_HEIGHT
    let x := monitor.x + GRID_MARGIN + grid_x * (cell_width + GRID_MARGIN)
    let y := monitor.y + GRID_MARGIN + grid_y * (cell_height + GRID_MARGIN)
    if is_position_valid x y cell_width cell_height monitor then
      (⟨x, y, cell_width, cell_height, true, "Grid placement successful"⟩, gp.2)
    else
      (result, gp.2)

/-- `SmartPlacement::snap_to_edge`. -/
def snap_to_edge (_window : SRDWindow) (monitor : Monitor)
    (_existing_windows : List SRDWindow) : PlacementResult :=
  let result : PlacementResult := ⟨0, 0, 0, 0, false, "Snap placement failed"⟩
  let x := monitor.x + Int.tdiv monitor.width 4
  let y := monitor.y + Int.tdiv monitor.height 4
  let width := Int.tdiv monitor.width 2
  let height := Int.tdiv monitor.height 2
  if is_position_valid x y width height monitor then
    ⟨x, y, width, height, true, "Snap placement successful"⟩
  else
    result

/-- The test of the innermost loop of `find_free_spaces`: the minimum footprint
at `(x, y)` meets no existing window. -/
def is_free (existing_windows : List SRDWindow) (x y : Int) : Bool :=
  existing_windows.all fun existing =>
    let ex := existing.getX
    let ey := existing.getY
    let ew := existing.getWidth
    let eh := existing.getHeight
    !(decide (x < ex + ew) && decide (x + MIN_WINDOW_WIDTH > ex) &&
      decide (y < ey + eh) && decide (y + MIN_WINDOW_HEIGHT > ey))

/-- `SmartPlacement::find_free_spaces`. -/
def find_free_spaces (monitor : Monitor) (existing_windows : List SRDWindow) :
    List (Int × Int) :=
  (forRange monitor.x (monitor.x + monitor.width - MIN_WINDOW_WIDTH) 100).foldl
    (fun free_spaces x =>
      (forRange monitor.y (monitor.y + monitor.height - MIN_WINDOW_HEIGHT) 100).foldl
        (fun free_spaces y =>
          if is_free existing_windows x y then free_spaces ++ [(x, y)] else free_spaces)
        free_spaces)
    []

/-- `SmartPlacement::cascade_place`. -/
def cascade_place (_window : SRDWindow) (monitor : Monitor)
    (existing_windows : List SRDWindow) : PlacementResult :=
  let result : PlacementResult := ⟨0, 0, 0, 0, false, "Cascade placement failed"⟩
  match find_free_spaces monitor existing_windows with
  | [] =>
      let x := monitor.x + CASCADE_OFFSET
      let y := monitor.y + CASCADE_OFFSET
      let width := min 800 (monitor.width - 2 * CASCADE_OFFSET)
      let height := min 600 (monitor.height - 2 * CASCADE_OFFSET)
      if is_position_valid x y width height monitor then
        ⟨x, y, width, height, true, "Default cascade placement"⟩
      else
        result
  | (x, y) :: _ =>
      let width := min 800 (monitor.width - x - CASCADE_OFFSET)
      let height := min 600 (monitor.height - y - CASCADE_OFFSET)
      if is_position_valid x y width height monitor then
        ⟨x, y, width, height, true, "Cascade placement in free space"⟩
      else
        result

/-- `SmartPlacement::windows_overlap`. -/
def windows_overlap (w1 w2 : SRDWindow) : Bool :=
  let x1 := w1.getX
  let y1 := w1.getY
  let w1_width := w1.getWidth
  let w1_height := w1.getHeight
  let x2 := w2.getX
  let y2 := w2.getY
  let w2_width := w2.getWidth
  let w2_height := w2.getHeight
  !(decide (x1 + w1_width ≤ x2) || decide (x2 + w2_width ≤ x1) ||
    decide (y1 + w1_height ≤ y2) || decide (y2 + w2_height ≤ y1))

/-- `SmartPlacement::calculate_overlap_score`. -/
def calculate_overlap_score (window : SRDWindow) (_monitor : Monitor)
    (existing_windows : List SRDWindow) : Int :=
  existing_windows.foldl
    (fun score existing => if windows_overlap window existing then score - 10 else score + 1)
    0

/-- The local variables `best_score`, `best_x`, `best_y`, `best_width`,
`best_height` of `smart_tile`. -/
structure Best where
  best_score : Int
  best_x : Int
  best_y : Int
  best_width : Int
  best_height : Int
deriving DecidableEq, Repr

/-- The body of the inner loop of `smart_tile` at the candidate origin `(x, y)`. -/
def smart_tile_body (window : SRDWindow) (monitor : Monitor)
    (existing_windows : List SRDWindow) (best : Best) (x y : Int) : Best :=
  let width := min 800 (monitor.width - x)
  let height := min 600 (monitor.height - y)
  if is_position_valid x y width height monitor then
    let score := calculate_overlap_score window monitor existing_windows
    if score > best.best_score then ⟨score, x, y, width, height⟩ else best
  else
    best

/-- The two nested loops of `smart_tile`. -/
def smart_tile_scan (window : SRDWindow) (monitor : Monitor)
    (existing_windows : List SRDWindow) (best : Best) : Best :=
  (forRange monitor.x (monitor.x + monitor.width - MIN_WINDOW_WIDTH) 50).foldl
    (fun best x =>
      (forRange monitor.y (monitor.y + monitor.height - MIN_WINDOW_HEIGHT) 50).foldl
        (fun best y => smart_tile_body window monitor existing_windows best x y)
        best)
    best

/-- `SmartPlacement::smart_tile`. -/
def smart_tile (window : SRDWindow) (monitor : Monitor)
    (existing_windows : List SRDWindow) : PlacementResult :=
  let result : PlacementResult := ⟨0, 0, 0, 0, false, "Smart tile placement failed"⟩
  let best0 : Best :=
    ⟨-1, monitor.x, monitor.y, Int.tdiv monitor.width 2, Int.tdiv monitor.height 2⟩
  let best := smart_tile_scan window monitor existing_windows best0
  if best.best_score ≥ 0 then
    ⟨best.best_x, best.best_y, best.best_width, best.best_height, true,
      "Smart tile placement successful"⟩
  else
    result

/-- `SmartPlacement::place_window`, with the static counter threaded. -/
def place_window (window : SRDWindow) (monitor : Monitor)
    (existing_windows : List SRDWindow) (window_counter : Int) : PlacementResult × Int :=
  let grid_result := place_in_grid window monitor existing_windows window_counter
  if grid_result.1.success then grid_result
  else (cascade_place window monitor existing_windows, grid_result.2)

end SmartPlacement

/-! ## `std::map` -/

/-- A `std::map<K, V>`: the value stored under each key, if any. -/
abbrev StdMap (κ ν : Type) := κ → Option ν

namespace StdMap

/-- The empty map. -/
def empty {κ ν : Type} : StdMap κ ν := fun _ => none

/-- The result of `m.find(k)`: `none` stands for `m.end()`. -/
def find {κ ν : Type} (m : StdMap κ ν) (k : κ) : Option ν := m k

/-- The map after `m[k] = v`. -/
def assign {κ ν : Type} [DecidableEq κ] (m : StdMap κ ν) (k : κ) (v : ν) : StdMap κ ν :=
  fun k' => if k' = k then some v else m k'

/-- The map after `m.erase(k)`. -/
def erase {κ ν : Type} [DecidableEq κ] (m : StdMap κ ν) (k : κ) : StdMap κ ν :=
  fun k' => if k' = k then none else m k'

end StdMap

/-! ## `layouts/layout_engine.h`, `layouts/layout_engine.cc` -/

/-- The enum `LayoutType`. -/
inductive LayoutType where
  | TILING
  | DYNAMIC
  | FLOATING
deriving DecidableEq, Repr

/-- The data members of `LayoutEngine` that hold monitors, windows and the
active layouts (`tiling_layout_` and `dynamic_layout_` have no state). -/
structure LayoutEngine where
  monitors_ : List Monitor
  windows_ : List WindowPtr
  active_layouts_ : StdMap Int LayoutType

namespace LayoutEngine

/-- The constructor `LayoutEngine::LayoutEngine()`. -/
def new : LayoutEngine :=
  { monitors_ := [], windows_ := [], active_layouts_ := StdMap.empty }

/-- `LayoutEngine::string_to_layout_type`. -/
def string_to_layout_type (name : String) : LayoutType :=
  if name = "tiling" then LayoutType.TILING
  else if name = "dynamic" then LayoutType.DYNAMIC
  else if name = "floating" then LayoutType.FLOATING
  else LayoutType.DYNAMIC

/-- `LayoutEngine::layout_type_to_string`. -/
def layout_type_to_string (type : LayoutType) : String :=
  match type with
  | LayoutType.TILING => "tiling"
  | LayoutType.DYNAMIC => "dynamic"
  | LayoutType.FLOATING => "floating"

/-- The overload `LayoutEngine::set_layout(int monitor_id, LayoutType layout_type)`:
the returned flag and the engine afterwards. -/
def set_layout_type (e : LayoutEngine) (monitor_id : Int) (layout_type : LayoutType) :
    Bool × LayoutEngine :=
  (true, { e with active_layouts_ := e.active_layouts_.assign monitor_id layout_type })

/-- The overload
`LayoutEngine::set_layout(int monitor_id, const std::string& layout_name)`:
the returned flag and the engine afterwards. -/
def set_layout (e : LayoutEngine) (monitor_id : Int) (layout_name : String) :
    Bool × LayoutEngine :=
  let layout_type := string_to_layout_type layout_name
  if layout_type ≠ LayoutType.TILING ∧ layout_type ≠ LayoutType.DYNAMIC ∧
      layout_type ≠ LayoutType.FLOATING then
    (false, e)
  else
    e.set_layout_type monitor_id layout_type

/-- `LayoutEngine::get_layout`. -/
def get_layout (e : LayoutEngine) (monitor_id : Int) : LayoutType :=
  match e.active_layouts_.find monitor_id with
  | some layout_type => layout_type
  | none => LayoutType.DYNAMIC

/-- `LayoutEngine::get_layout_name`. -/
def get_layout_name (e : LayoutEngine) (monitor_id : Int) : String :=
  layout_type_to_string (e.get_layout monitor_id)

/-- `LayoutEngine::add_window`. -/
def add_window (e : LayoutEngine) (window : Option WindowPtr) : LayoutEngine :=
  match window with
  | none => e
  | some p => if p ∉ e.windows_ then { e with windows_ := e.windows_ ++ [p] } else e

/-- `LayoutEngine::remove_window`: `std::find` and `erase` of the first
occurrence. -/
def remove_window (e : LayoutEngine) (window : Option WindowPtr) : LayoutEngine :=
  match window with
  | none => e
  | some p => if p ∈ e.windows_ then { e with windows_ := e.windows_.erase p } else e

end LayoutEngine

/-! ## `core/window_manager.h`, `core/window_manager.cc` -/

/-- The struct `Workspace`. -/
structure Workspace where
  id : Int
  name : String
  windows : List WindowPtr
  layout : String
  visible : Bool
deriving DecidableEq, Repr

/-- The constructor `Workspace::Workspace(int id, const std::string& name)`. -/
def Workspace.new (id : Int) (name : String) : Workspace :=
  { id := id, name := name, windows := [], layout := "tiling", visible := false }

/-- The data members of `SRDWindowManager` for windows, focus, workspaces, the
drag and resize sessions and the key bindings.  `layout_engine_` is a pointer
to the engine: `none` is the null pointer, and the state of the engine pointed
to is kept here.  The actions of `key_bindings_` are `std::function<void()>`
objects; an action is given by a number that names it. -/
structure SRDWindowManager where
  windows_ : List WindowPtr
  focused_window_ : Option WindowPtr
  layout_engine_ : Option LayoutEngine
  workspaces_ : List Workspace
  current_workspace_ : Int
  next_workspace_id_ : Int
  dragging_window_ : Option WindowPtr
  resizing_window_ : Option WindowPtr
  drag_start_x_ : Int
  drag_start_y_ : Int
  drag_start_window_x_ : Int
  drag_start_window_y_ : Int
  resize_start_x_ : Int
  resize_start_y_ : Int
  resize_start_width_ : Int
  resize_start_height_ : Int
  resize_edge_ : Int
  key_bindings_ : StdMap String Nat
  pressed_keys_ : StdMap Int Int
  monitors_ : List Monitor

/-- The manager as a call leaves it: on return (`Except.ok`), or at the
statement at which the execution of the call stops (`Except.error`). -/
def state_at_end : Except SRDWindowManager SRDWindowManager → SRDWindowManager
  | Except.ok wm => wm
  | Except.error wm => wm

namespace SRDWindowManager

/-- The constructor `SRDWindowManager::SRDWindowManager()` with the default
member initialisers of the class. -/
def new : SRDWindowManager :=
  { windows_ := [], focused_window_ := none, layout_engine_ := none, workspaces_ := [],
    current_workspace_ := 0, next_workspace_id_ := 1, dragging_window_ := none,
    resizing_window_ := none, drag_start_x_ := 0, drag_start_y_ := 0,
    drag_start_window_x_ := 0, drag_start_window_y_ := 0, resize_start_x_ := 0,
    resize_start_y_ := 0, resize_start_width_ := 0, resize_start_height_ := 0,
    resize_edge_ := 0, key_bindings_ := StdMap.empty, pressed_keys_ := StdMap.empty,
    monitors_ := [] }

/-- `SRDWindowManager::set_layout_engine`. -/
def set_layout_engine (wm : SRDWindowManager) (engine : Option LayoutEngine) :
    SRDWindowManager :=
  { wm with layout_engine_ := engine }

/-- `SRDWindowManager::add_window`.  The argument is the pointer held by the
`std::unique_ptr`.  After `window.release()` the `unique_ptr` holds null; that
is what `window.get()` passes on to the layout engine, and that is what the log
statement at the end of the block dereferences with `window->getId()`.  The
dereference of the null pointer is undefined behaviour: the call does not
return, and `Except.error` carries the manager as it is at that statement. -/
def add_window (wm : SRDWindowManager) (window : Option WindowPtr) :
    Except SRDWindowManager SRDWindowManager :=
  match window with
  | none => Except.ok wm
  | some p =>
      let wm1 := { wm with windows_ := wm.windows_ ++ [p] }
      let window_after_release : Option WindowPtr := none
      let wm2 :=
        match wm1.layout_engine_ with
        | some engine =>
            { wm1 with layout_engine_ := some (engine.add_window window_after_release) }
        | none => wm1
      match window_after_release with
      | none => Except.error wm2
      | some _ => Except.ok wm2

/-- `SRDWindowManager::remove_window`. -/
def remove_window (wm : SRDWindowManager) (window : Option WindowPtr) : SRDWindowManager :=
  match window with
  | none => wm
  | some p =>
      if p ∈ wm.windows_ then
        let wm1 := { wm with windows_ := wm.windows_.erase p }
        match wm1.layout_engine_ with
        | some engine => { wm1 with layout_engine_ := some (engine.remove_window (some p)) }
        | none => wm1
      else wm

/-- `SRDWindowManager::focus_window`. -/
def focus_window (wm : SRDWindowManager) (window : Option WindowPtr) : SRDWindowManager :=
  { wm with focused_window_ := window }

/-- `SRDWindowManager::get_focused_window`. -/
def get_focused_window (wm : SRDWindowManager) : Option WindowPtr := wm.focused_window_

/-- `SRDWindowManager::get_windows`. -/
def get_windows (wm : SRDWindowManager) : List WindowPtr := wm.windows_

/-- `SRDWindowManager::is_dragging`. -/
def is_dragging (wm : SRDWindowManager) : Bool := wm.dragging_window_.isSome

/-- `SRDWindowManager::is_resizing`. -/
def is_resizing (wm : SRDWindowManager) : Bool := wm.resizing_window_.isSome

/-- `SRDWindowManager::start_window_drag`. -/
def start_window_drag (wm : SRDWindowManager) (heap : Heap) (window : Option WindowPtr)
    (start_x start_y : Int) : SRDWindowManager :=
  match window with
  | none => wm
  | some p =>
      if wm.dragging_window_.isSome then wm
      else
        { wm with
          dragging_window_ := some p
          drag_start_x_ := start_x
          drag_start_y_ := start_y
          drag_start_window_x_ := (heap p).getX
          drag_start_window_y_ := (heap p).getY }

/-- `SRDWindowManager::start_window_resize`. -/
def start_window_resize (wm : SRDWindowManager) (heap : Heap) (window : Option WindowPtr)
    (start_x start_y edge : Int) : SRDWindowManager :=
  match window with
  | none => wm
  | some p =>
      if wm.resizing_window_.isSome then wm
      else
        { wm with
          resizing_window_ := some p
          resize_start_x_ := start_x
          resize_start_y_ := start_y
          resize_start_width_ := (heap p).getWidth
          resize_start_height_ := (heap p).getHeight
          resize_edge_ := edge }

/-- `SRDWindowManager::end_window_drag`. -/
def end_window_drag (wm : SRDWindowManager) : SRDWindowManager :=
  if wm.dragging_window_.isSome then { wm with dragging_window_ := none } else wm

/-- `SRDWindowManager::end_window_resize`. -/
def end_window_resize (wm : SRDWindowManager) : SRDWindowManager :=
  if wm.resizing_window_.isSome then { wm with resizing_window_ := none } else wm

/-- `SRDWindowManager::add_workspace`.  The vector receives a copy of the local
`workspace`; the later assignment `workspace.visible = true` is made to the
local object. -/
def add_workspace (wm : SRDWindowManager) (name : String) : SRDWindowManager :=
  let workspace : Workspace := Workspace.new wm.next_workspace_id_ name
  let wm1 := { wm with
    next_workspace_id_ := wm.next_workspace_id_ + 1
    workspaces_ := wm.workspaces_ ++ [workspace] }
  if wm1.workspaces_.length = 1 then
    let _workspace : Workspace := { workspace with visible := true }
    { wm1 with current_workspace_ := workspace.id }
  else wm1

/-- `SRDWindowManager::get_current_workspace`. -/
def get_current_workspace (wm : SRDWindowManager) : Int := wm.current_workspace_

/-- `SRDWindowManager::get_workspaces`. -/
def get_workspaces (wm : SRDWindowManager) : List Workspace := wm.workspaces_

end SRDWindowManager

/-- A call of `add_window` or `remove_window` with its argument. -/
inductive WindowOp where
  | add (window : Option WindowPtr)
  | remove (window : Option WindowPtr)
deriving DecidableEq, Repr

/-- One call: the manager on return, or the manager at the statement at which
the call stops. -/
def WindowOp.apply (wm : SRDWindowManager) :
    WindowOp → Except SRDWindowManager SRDWindowManager
  | WindowOp.add window => wm.add_window window
  | WindowOp.remove window => Except.ok (wm.remove_window window)

/-- The ids of the windows of the collection, in order. -/
def window_ids (heap : Heap) (wm : SRDWindowManager) : List Int :=
  wm.get_windows.map fun p => (heap p).getId

/-! ## `core/event_system.h`, `core/event_system.cc`

A handler is a `std::function<void(const Event&)>`.  What matters of a handler
for the event system is which calls it makes back into the event system and how
it completes, so a handler is given by the steps it takes on an event.
Handlers that change the handler registry while it is iterated are not
modelled.  The interpreter `exec` follows the calls with a bound on the number
of nested steps (`fuel`); `none` means that the bound was reached. -/

/-- The enum `EventType`. -/
inductive EventType where
  | WINDOW_CREATED
  | WINDOW_DESTROYED
  | WINDOW_MOVED
  | WINDOW_RESIZED
  | WINDOW_FOCUSED
  | WINDOW_UNFOCUSED
  | WINDOW_MINIMIZED
  | WINDOW_MAXIMIZED
  | WINDOW_RESTORED
  | MONITOR_ADDED
  | MONITOR_REMOVED
  | MONITOR_CHANGED
  | KEY_PRESSED
  | KEY_RELEASED
  | MOUSE_MOVED
  | MOUSE_PRESSED
  | MOUSE_RELEASED
  | MOUSE_WHEEL
  | CUSTOM_EVENT
deriving DecidableEq, Repr

/-- The class `Event`: the base class has the one data member `type`.  (The
queue of the event system stores copies of the base sub-object.) -/
structure Event where
  type : EventType
deriving DecidableEq, Repr

/-- One step of a handler. -/
inductive HandlerStep where
  /-- The handler calls `g_event_system.emit_event(e)`. -/
  | emit (e : Event)
  /-- The handler calls `g_event_system.process_events()`. -/
  | process
  /-- The handler throws an exception of a class derived from `std::exception`. -/
  | throw_std
  /-- The handler throws an object of any other type. -/
  | throw_other
deriving DecidableEq, Repr

/-- A handler: a name that identifies it in traces, and the steps it takes when
called with an event. -/
structure Handler where
  name : Nat
  body : Event → List HandlerStep

/-- The data members of `EventSystem`. -/
structure EventSystem where
  handlers : StdMap EventType (List Handler)
  event_queue : List Event
  processing_events : Bool

/-- How a call ends: it returns, or an exception leaves it. -/
inductive Completion where
  | normal
  | thrown_std
  | thrown_other
deriving DecidableEq, Repr

/-- What is observed of a run: a handler is entered with an event, a handler is
left (by return or by exception). -/
inductive TraceEntry where
  | enter (handler : Nat) (e : Event)
  | leave (handler : Nat)
deriving DecidableEq, Repr

/-- The outcome of a run: how it ended, the event system afterwards, and the
handler calls in the order they happened. -/
structure Outcome where
  completion : Completion
  es : EventSystem
  trace : List TraceEntry

/-- The pieces of code the interpreter runs. -/
inductive Call where
  /-- `EventSystem::emit_event(e)`. -/
  | emit_event (e : Event)
  /-- The `for` loop of `emit_event` over the handlers still to be called. -/
  | dispatch (hs : List Handler) (e : Event)
  /-- The rest of the body of a handler. -/
  | handler_body (steps : List HandlerStep)
  /-- `EventSystem::process_events()`. -/
  | process_events
  /-- The `while` loop of `process_events`. -/
  | drain

namespace EventSystem

/-- The constructor `EventSystem::EventSystem()`. -/
def new : EventSystem :=
  { handlers := StdMap.empty, event_queue := [], processing_events := false }

/-- `EventSystem::register_handler`: `handlers[type].push_back(handler)`. -/
def register_handler (es : EventSystem) (type : EventType) (handler : Handler) : EventSystem :=
  { es with handlers := es.handlers.assign type (((es.handlers.find type).getD []) ++ [handler]) }

/-- `EventSystem::unregister_handler`: `handlers[type]` makes the entry, and the
predicate given to `remove_if` is constantly false. -/
def unregister_handler (es : EventSystem) (type : EventType) (_handler : Handler) : EventSystem :=
  { es with handlers := es.handlers.assign type ((es.handlers.find type).getD []) }

/-- `EventSystem::clear_handlers`. -/
def clear_handlers (es : EventSystem) : EventSystem :=
  { es with handlers := StdMap.empty }

/-- The interpreter.

* `emit_event`: with `processing_events` set the event is appended to the queue;
  otherwise the handlers found for the type of the event are called in order.
* `dispatch`: a handler is called inside `try`; `catch (const std::exception&)`
  ends a `std::exception` and the loop goes on; any other exception leaves the
  loop and `emit_event`.
* `process_events`: returns at once if `processing_events` is set; otherwise sets
  it, runs the `while` loop and clears it.
* `drain`: while the queue is not empty, the front event is taken off the queue
  and passed to `emit_event`. -/
def exec : Nat → Call → EventSystem → Option Outcome
  | 0, _, _ => none
  | fuel + 1, Call.emit_event e, es =>
      if es.processing_events then
        some ⟨Completion.normal, { es with event_queue := es.event_queue ++ [e] }, []⟩
      else
        match es.handlers.find e.type with
        | none => some ⟨Completion.normal, es, []⟩
        | some hs => exec fuel (Call.dispatch hs e) es
  | _ + 1, Call.dispatch [] _, es => some ⟨Completion.normal, es, []⟩
  | fuel + 1, Call.dispatch (h :: hs) e, es =>
      match exec fuel (Call.handler_body (h.body e)) es with
      | none => none
      | some r1 =>
          if r1.completion = Completion.thrown_other then
            some ⟨Completion.thrown_other, r1.es,
              TraceEntry.enter h.name e :: (r1.trace ++ [TraceEntry.leave h.name])⟩
          else
            match exec fuel (Call.dispatch hs e) r1.es with
            | none => none
            | some r2 =>
                some ⟨r2.completion, r2.es,
                  TraceEntry.enter h.name e :: (r1.trace ++ [TraceEntry.leave h.name]) ++ r2.trace⟩
  | _ + 1, Call.handler_body [], es => some ⟨Completion.normal, es, []⟩
  | _ + 1, Call.handler_body (HandlerStep.throw_std :: _), es =>
      some ⟨Completion.thrown_std, es, []⟩
  | _ + 1, Call.handler_body (HandlerStep.throw_other :: _), es =>
      some ⟨Completion.thrown_other, es, []⟩
  | fuel + 1, Call.handler_body (HandlerStep.emit e :: rest), es =>
      match exec fuel (Call.emit_event e) es with
      | none => none
      | some r1 =>
          if r1.completion = Completion.normal then
            match exec fuel (Call.handler_body rest) r1.es with
            | none => none
            | some r2 => some ⟨r2.completion, r2.es, r1.trace ++ r2.trace⟩
          else some r1
  | fuel + 1, Call.handler_body (HandlerStep.process :: rest), es =>
      match exec fuel Call.process_events es with
      | none => none
      | some r1 =>
          if r1.completion = Completion.normal then
            match exec fuel (Call.handler_body rest) r1.es with
            | none => none
            | some r2 => some ⟨r2.completion, r2.es, r1.trace ++ r2.trace⟩
          else some r1
  | fuel + 1, Call.process_events, es =>
      if es.processing_events then some ⟨Completion.normal, es, []⟩
      else
        match exec fuel Call.drain { es with processing_events := true } with
        | none => none
        | some r =>
            if r.completion = Completion.normal then
              some ⟨Completion.normal, { r.es with processing_events := false }, r.trace⟩
            else some r
  | fuel + 1, Call.drain, es =>
      match es.event_queue with
      | [] => some ⟨Completion.normal, es, []⟩
      | event :: queue =>
          match exec fuel (Call.emit_event event) { es with event_queue := queue } with
          | none => none
          | some r1 =>
              if r1.completion = Completion.normal then
                match exec fuel Call.drain r1.es with
                | none => none
                | some r2 => some ⟨r2.completion, r2.es, r1.trace ++ r2.trace⟩
              else some r1

/-- `EventSystem::emit_event` called from outside any handler. -/
def emit_event (fuel : Nat) (es : EventSystem) (e : Event) : Option Outcome :=
  exec fuel (Call.emit_event e) es

/-- `EventSystem::process_events` called from outside any handler. -/
def process_events (fuel : Nat) (es : EventSystem) : Option Outcome :=
  exec fuel Call.process_events es

end EventSystem

/-- What is compared of an outcome: completion, queue, flag and trace. -/
def Outcome.observed (r : Outcome) : Completion × List Event × Bool × List TraceEntry :=
  (r.completion, r.es.event_queue, r.es.processing_events, r.trace)

/-- The handler calls made at nesting depth `0` of a trace read from nesting
depth `depth` on: the calls made by the outermost dispatch loop itself, not
those made by calls nested in a handler. -/
def direct_calls_from : Nat → List TraceEntry → List (Nat × Event)
  | _, [] => []
  | 0, TraceEntry.enter h e :: rest => (h, e) :: direct_calls_from 1 rest
  | depth + 1, TraceEntry.enter _ _ :: rest => direct_calls_from (depth + 2) rest
  | depth, TraceEntry.leave _ :: rest => direct_calls_from (depth - 1) rest

/-- The handler calls made by the outermost dispatch loop of a trace. -/
def direct_calls (trace : List TraceEntry) : List (Nat × Event) :=
  direct_calls_from 0 trace

/-- A handler that makes no call into the event system and throws nothing but
a `std::exception`, whatever the event. -/
def Handler.plain (h : Handler) : Prop :=
  ∀ e : Event, ∀ step ∈ h.body e, step = HandlerStep.throw_std

/-- The manager of the examples: windows 1, 2, 3 in the collection, window 2
focused, and a layout engine connected that holds windows 2 and 3. -/
def example_manager : SRDWindowManager :=
  { SRDWindowManager.new with
    windows_ := [1, 2, 3]
    focused_window_ := some 2
    layout_engine_ := some ⟨[], [2, 3], StdMap.empty⟩ }

/-- A trace that, read inside a handler, contributes no call at depth `0` and
ends at the depth at which it started. -/
def TraceNested (trace : List TraceEntry) : Prop :=
  ∀ (depth : Nat) (rest : List TraceEntry),
    direct_calls_from (depth + 1) (trace ++ rest) = direct_calls_from (depth + 1) rest

/-- The event system of the examples: handler 1 (throws a `std::exception`) and
handler 2 (returns) registered for `KEY_PRESSED`, handler 3 for `MOUSE_MOVED`. -/
def example_event_system : EventSystem :=
  ((EventSystem.new.register_handler EventType.KEY_PRESSED
      ⟨1, fun _ => [HandlerStep.throw_std]⟩).register_handler EventType.KEY_PRESSED
      ⟨2, fun _ => []⟩).register_handler EventType.MOUSE_MOVED ⟨3, fun _ => []⟩

/-! ## `layouts/dynamic_layout.cc` and the arrangement functions of the engine -/

namespace DynamicLayout

/-- `DynamicLayout::arrange_windows`: the windows are read and none is changed. -/
def arrange_windows (_windows : List WindowPtr) (_monitor : Monitor) (heap : Heap) : Heap :=
  heap

end DynamicLayout

namespace LayoutEngine

/-- `LayoutEngine::is_window_on_monitor`. -/
def is_window_on_monitor (heap : Heap) (window : Option WindowPtr) (monitor : Monitor) : Bool :=
  match window with
  | none => false
  | some p =>
      let window_center_x := (heap p).getX + Int.tdiv (heap p).getWidth 2
      let window_center_y := (heap p).getY + Int.tdiv (heap p).getHeight 2
      decide (window_center_x ≥ monitor.x) &&
      decide (window_center_x < monitor.x + monitor.width) &&
      decide (window_center_y ≥ monitor.y) &&
      decide (window_center_y < monitor.y + monitor.height)

/-- `LayoutEngine::get_windows_on_monitor`. -/
def get_windows_on_monitor (e : LayoutEngine) (heap : Heap) (monitor_id : Int) :
    List WindowPtr :=
  match e.monitors_.find? (fun m => decide (m.id = monitor_id)) with
  | none => []
  | some monitor => e.windows_.filter fun window => is_window_on_monitor heap (some window) monitor

/-- `LayoutEngine::arrange_on_monitor`: the window objects afterwards (the engine
is not changed). -/
def arrange_on_monitor (e : LayoutEngine) (monitor : Monitor) (heap : Heap) : Heap :=
  match e.active_layouts_.find monitor.id with
  | none => heap
  | some current_layout_type =>
      let windows_on_monitor := e.get_windows_on_monitor heap monitor.id
      match current_layout_type with
      | LayoutType.TILING => TilingLayout.arrange_windows windows_on_monitor monitor heap
      | LayoutType.DYNAMIC => DynamicLayout.arrange_windows windows_on_monitor monitor heap
      | LayoutType.FLOATING => heap

/-- `LayoutEngine::arrange_all_monitors`. -/
def arrange_all_monitors (e : LayoutEngine) (heap : Heap) : Heap :=
  e.monitors_.foldl (fun h monitor => e.arrange_on_monitor monitor h) heap

/-- `LayoutEngine::add_monitor`. -/
def add_monitor (e : LayoutEngine) (monitor : Monitor) : LayoutEngine :=
  match e.monitors_.find? (fun m => decide (m.id = monitor.id)) with
  | none =>
      { e with
        monitors_ := e.monitors_ ++ [monitor]
        active_layouts_ := e.active_layouts_.assign monitor.id LayoutType.DYNAMIC }
  | some _ => e

end LayoutEngine

/-! ## `config/lua_manager.cc`: the layout functions of `LuaManager` -/

/-- The data member `layout_engine_` of `LuaManager` (a pointer to the engine,
`none` for null; the state of the engine pointed to is kept here). -/
structure LuaManager where
  layout_engine_ : Option LayoutEngine

namespace LuaManager

/-- A `LuaManager` after construction and `initialize()`: no layout engine is
connected. -/
def new : LuaManager := { layout_engine_ := none }

/-- `LuaManager::set_layout_engine`. -/
def set_layout_engine (_lm : LuaManager) (engine : Option LayoutEngine) : LuaManager :=
  { layout_engine_ := engine }

/-- `LuaManager::set_layout`: the returned flag and the manager afterwards. -/
def set_layout (lm : LuaManager) (monitor_id : Int) (layout_name : String) :
    Bool × LuaManager :=
  match lm.layout_engine_ with
  | some engine =>
      ((engine.set_layout monitor_id layout_name).1,
        { layout_engine_ := some (engine.set_layout monitor_id layout_name).2 })
  | none => (true, lm)

/-- `LuaManager::get_layout_name`. -/
def get_layout_name (lm : LuaManager) (monitor_id : Int) : String :=
  match lm.layout_engine_ with
  | some engine => engine.get_layout_name monitor_id
  | none => "dynamic"

end LuaManager

/-! ## `core/window_manager.cc`: workspaces, focus cycling, key bindings -/

/-- Assignment through a `Workspace*` that `get_workspace(workspace_id)` returned:
the first workspace with that id is replaced by its image under `f`; nothing
changes when there is none. -/
def modify_workspace (workspace_id : Int) (f : Workspace → Workspace) :
    List Workspace → List Workspace
  | [] => []
  | w :: rest =>
      if w.id = workspace_id then f w :: rest
      else w :: modify_workspace workspace_id f rest

/-- The loop "Remove from current workspace" of `move_window_to_workspace`: the
first workspace whose list holds the window loses the first occurrence of it. -/
def remove_from_first_workspace (window : WindowPtr) : List Workspace → List Workspace
  | [] => []
  | w :: rest =>
      if window ∈ w.windows then { w with windows := w.windows.erase window } :: rest
      else w :: remove_from_first_workspace window rest

/-- `workspaces_.erase(it)` for the iterator that `find_if` returned for
`workspace_id`: the first workspace with that id is removed. -/
def erase_workspace (workspace_id : Int) : List Workspace → List Workspace
  | [] => []
  | w :: rest =>
      if w.id = workspace_id then rest else w :: erase_workspace workspace_id rest

namespace SRDWindowManager

/-- `SRDWindowManager::get_workspace`: the workspace the returned pointer refers
to, `none` for `nullptr`. -/
def get_workspace (wm : SRDWindowManager) (workspace_id : Int) : Option Workspace :=
  wm.workspaces_.find? fun w => decide (w.id = workspace_id)

/-- `SRDWindowManager::move_window_to_workspace`. -/
def move_window_to_workspace (wm : SRDWindowManager) (window : Option WindowPtr)
    (workspace_id : Int) : SRDWindowManager :=
  match window with
  | none => wm
  | some p =>
      match wm.get_workspace workspace_id with
      | none => wm
      | some _ =>
          let removed := remove_from_first_workspace p wm.workspaces_
          { wm with
            workspaces_ := modify_workspace workspace_id
              (fun w => { w with windows := w.windows ++ [p] }) removed }

/-- `SRDWindowManager::arrange_workspace_windows`: the window objects afterwards. -/
def arrange_workspace_windows (wm : SRDWindowManager) (heap : Heap) (workspace_id : Int) :
    Heap :=
  match wm.get_workspace workspace_id, wm.layout_engine_ with
  | some workspace, some engine =>
      match wm.monitors_ with
      | monitor :: _ =>
          if workspace.windows ≠ [] then engine.arrange_on_monitor monitor heap else heap
      | [] => heap
  | _, _ => heap

/-- `SRDWindowManager::switch_to_workspace`: the manager and the window objects
afterwards. -/
def switch_to_workspace (wm : SRDWindowManager) (heap : Heap) (workspace_id : Int) :
    SRDWindowManager × Heap :=
  match wm.get_workspace workspace_id with
  | none => (wm, heap)
  | some _ =>
      let hidden := modify_workspace wm.current_workspace_
        (fun w => { w with visible := false }) wm.workspaces_
      let shown := modify_workspace workspace_id (fun w => { w with visible := true }) hidden
      let wm1 := { wm with workspaces_ := shown, current_workspace_ := workspace_id }
      (wm1, wm1.arrange_workspace_windows heap workspace_id)

/-- `SRDWindowManager::remove_workspace`.  The range-`for` runs over
`it->windows` while `move_window_to_workspace` erases from and appends to
workspace lists; the model calls `move_window_to_workspace` once for each window
the list held when the loop started. -/
def remove_workspace (wm : SRDWindowManager) (workspace_id : Int) : SRDWindowManager :=
  match wm.get_workspace workspace_id with
  | none => wm
  | some workspace =>
      let wm1 :=
        if workspace_id = wm.current_workspace_ then
          workspace.windows.foldl
            (fun m window => m.move_window_to_workspace (some window) m.current_workspace_) wm
        else wm
      { wm1 with workspaces_ := erase_workspace workspace_id wm1.workspaces_ }

/-- `SRDWindowManager::focus_next_window`.  `List.indexOf` is the position
`std::find` returns, the length of the list for `end()`. -/
def focus_next_window (wm : SRDWindowManager) : SRDWindowManager :=
  match wm.windows_ with
  | [] => wm
  | first :: _ =>
      match wm.focused_window_ with
      | none => wm.focus_window (some first)
      | some focused =>
          let it := wm.windows_.indexOf focused
          if it = wm.windows_.length then wm.focus_window (some first)
          else
            let next := if it + 1 = wm.windows_.length then 0 else it + 1
            wm.focus_window (wm.windows_.get? next)

/-- `SRDWindowManager::focus_previous_window`. -/
def focus_previous_window (wm : SRDWindowManager) : SRDWindowManager :=
  match wm.windows_ with
  | [] => wm
  | _ :: _ =>
      match wm.focused_window_ with
      | none => wm.focus_window wm.windows_.getLast?
      | some focused =>
          let it := wm.windows_.indexOf focused
          if it = wm.windows_.length then wm.focus_window wm.windows_.getLast?
          else
            let previous := if it = 0 then wm.windows_.length - 1 else it - 1
            wm.focus_window (wm.windows_.get? previous)

/-- The test `(modifiers & mask)` of `key_code_to_string`, on two's complement. -/
def modifier_set (modifiers : Int) (mask : Nat) : Bool :=
  decide (Int.land modifiers (mask : Int) ≠ 0)

/-- The part of the result of `key_code_to_string` that comes from the
modifiers. -/
def modifier_chars (ctrl shift alt mod4 : Bool) : List Char :=
  (if ctrl then "Ctrl+".data else []) ++ (if shift then "Shift+".data else []) ++
  (if alt then "Alt+".data else []) ++ (if mod4 then "Mod4+".data else [])

/-- The part of the result of `key_code_to_string` that comes from the key:
the character with code `key_code` for `'A'..'Z'` and `'0'..'9'`, and
`"Key" + std::to_string(key_code)` otherwise. -/
def key_chars (key_code : Int) : List Char :=
  if 65 ≤ key_code ∧ key_code ≤ 90 then [Char.ofNat key_code.toNat]
  else if 48 ≤ key_code ∧ key_code ≤ 57 then [Char.ofNat key_code.toNat]
  else "Key".data ++ (toString key_code).data

/-- `SRDWindowManager::key_code_to_string`. -/
def key_code_to_string (key_code modifiers : Int) : String :=
  String.mk (modifier_chars (modifier_set modifiers 0x01) (modifier_set modifiers 0x02)
      (modifier_set modifiers 0x04) (modifier_set modifiers 0x08) ++ key_chars key_code)

/-- `SRDWindowManager::bind_key`. -/
def bind_key (wm : SRDWindowManager) (key_combination : String) (action : Nat) :
    SRDWindowManager :=
  { wm with key_bindings_ := wm.key_bindings_.assign key_combination action }

/-- `SRDWindowManager::unbind_key`. -/
def unbind_key (wm : SRDWindowManager) (key_combination : String) : SRDWindowManager :=
  match wm.key_bindings_.find key_combination with
  | some _ => { wm with key_bindings_ := wm.key_bindings_.erase key_combination }
  | none => wm

/-- `SRDWindowManager::handle_key_press(int key_code, int modifiers)`: the
manager after the key is recorded, and the action that is called (`none` when
no binding is found).  What the action itself does is not part of the model. -/
def handle_key_press (wm : SRDWindowManager) (key_code modifiers : Int) :
    SRDWindowManager × Option Nat :=
  let key_string := key_code_to_string key_code modifiers
  let wm1 := { wm with pressed_keys_ := wm.pressed_keys_.assign key_code modifiers }
  (wm1, wm1.key_bindings_.find key_string)

end SRDWindowManager

/-- A call of one of the four workspace operations with its arguments. -/
inductive WorkspaceOp where
  | add (name : String)
  | remove (workspace_id : Int)
  | switch (workspace_id : Int)
  | move (window : Option WindowPtr) (workspace_id : Int)
deriving DecidableEq, Repr

/-- The manager and the window objects after one workspace operation. -/
def WorkspaceOp.apply (state : SRDWindowManager × Heap) :
    WorkspaceOp → SRDWindowManager × Heap
  | WorkspaceOp.add name => (state.1.add_workspace name, state.2)
  | WorkspaceOp.remove workspace_id => (state.1.remove_workspace workspace_id, state.2)
  | WorkspaceOp.switch workspace_id => state.1.switch_to_workspace state.2 workspace_id
  | WorkspaceOp.move window workspace_id =>
      (state.1.move_window_to_workspace window workspace_id, state.2)

/-- The manager and the window objects after a sequence of workspace operations on
a fresh manager, first call first. -/
def run_workspace_ops (heap : Heap) (ops : List WorkspaceOp) : SRDWindowManager × Heap :=
  ops.foldl WorkspaceOp.apply (SRDWindowManager.new, heap)

/-- The windows of all workspaces, workspace after workspace. -/
def workspace_windows (workspaces : List Workspace) : List WindowPtr :=
  (workspaces.map fun w => w.windows).flatten

/-- What holds of the workspaces in the states the operations of the manager
reach: the ids are pairwise distinct and below `next_workspace_id_`, a visible
workspace has the id `current_workspace_`, and no window occurs twice in the
workspace lists. -/
def WorkspacesInv (wm : SRDWindowManager) : Prop :=
  (wm.workspaces_.map fun w => w.id).Nodup ∧
  (∀ w ∈ wm.workspaces_, w.id < wm.next_workspace_id_) ∧
  (∀ w ∈ wm.workspaces_, w.visible = true → w.id = wm.current_workspace_) ∧
  (workspace_windows wm.workspaces_).Nodup

/-! ## `core/window_manager.cc`: the updates of a drag or resize session -/

namespace SRDWindowManager

/-- `SRDWindowManager::update_window_drag`: the window objects afterwards (the
manager is not changed; `update_layout_for_window` ends in
`LayoutEngine::update_window`, which only writes a log line). -/
def update_window_drag (wm : SRDWindowManager) (heap : Heap) (x y : Int) : Heap :=
  match wm.dragging_window_ with
  | none => heap
  | some p =>
      let delta_x := x - wm.drag_start_x_
      let delta_y := y - wm.drag_start_y_
      let new_x0 := wm.drag_start_window_x_ + delta_x
      let new_y0 := wm.drag_start_window_y_ + delta_y
      let new_x := max 0 (min new_x0 (1920 - (heap p).getWidth))
      let new_y := max 0 (min new_y0 (1080 - (heap p).getHeight))
      heap.store p ((heap p).setPosition new_x new_y)

/-- The `switch (resize_edge_)` of `update_window_resize`: the values of
`new_width`, `new_height`, `new_x`, `new_y` after it, from their values before
it. -/
def resize_by_edge (wm : SRDWindowManager) (delta_x delta_y : Int)
    (new_width new_height new_x new_y : Int) : Int × Int × Int × Int :=
  if wm.resize_edge_ = 1 then
    let new_width1 := max 100 (wm.resize_start_width_ - delta_x)
    (new_width1, new_height, wm.resize_start_x_ + wm.resize_start_width_ - new_width1, new_y)
  else if wm.resize_edge_ = 2 then
    (max 100 (wm.resize_start_width_ + delta_x), new_height, new_x, new_y)
  else if wm.resize_edge_ = 3 then
    let new_height1 := max 100 (wm.resize_start_height_ - delta_y)
    (new_width, new_height1, new_x, wm.resize_start_y_ + wm.resize_start_height_ - new_height1)
  else if wm.resize_edge_ = 4 then
    (new_width, max 100 (wm.resize_start_height_ + delta_y), new_x, new_y)
  else if wm.resize_edge_ = 5 then
    (max 100 (wm.resize_start_width_ + delta_x), max 100 (wm.resize_start_height_ + delta_y),
      new_x, new_y)
  else
    (new_width, new_height, new_x, new_y)

/-- `SRDWindowManager::update_window_resize`: the window objects afterwards. -/
def update_window_resize (wm : SRDWindowManager) (heap : Heap) (x y : Int) : Heap :=
  match wm.resizing_window_ with
  | none => heap
  | some p =>
      let delta_x := x - wm.resize_start_x_
      let delta_y := y - wm.resize_start_y_
      let edged := wm.resize_by_edge delta_x delta_y wm.resize_start_width_
        wm.resize_start_height_ (heap p).getX (heap p).getY
      let new_x := edged.2.2.1
      let new_y := edged.2.2.2
      let new_width := max 100 (min edged.1 (1920 - new_x))
      let new_height := max 100 (min edged.2.1 (1080 - new_y))
      heap.store p (((heap p).setPosition new_x new_y).setSize new_width new_height)

end SRDWindowManager

/-- A call of a public operation of the manager with its arguments: the
workspace operations, and the operations on windows, focus, sessions, the layout
engine connection and key bindings, and the updates of a drag or resize
session. -/
inductive ManagerOp where
  | workspace (op : WorkspaceOp)
  | add_window (window : Option WindowPtr)
  | remove_window (window : Option WindowPtr)
  | focus_window (window : Option WindowPtr)
  | focus_next_window
  | focus_previous_window
  | start_window_drag (window : Option WindowPtr) (start_x start_y : Int)
  | start_window_resize (window : Option WindowPtr) (start_x start_y edge : Int)
  | update_window_drag (x y : Int)
  | update_window_resize (x y : Int)
  | end_window_drag
  | end_window_resize
  | set_layout_engine (engine : Option LayoutEngine)
  | bind_key (key_combination : String) (action : Nat)
  | unbind_key (key_combination : String)
  | handle_key_press (key_code modifiers : Int)

/-- The manager and the window objects after one operation.  A call of
`add_window` that stops at its log statement is followed by the next operation
on the manager as it is at that statement, so the states considered are those of
the executions of the program and, beyond them, those that would follow if the
log statement returned. -/
def ManagerOp.apply (state : SRDWindowManager × Heap) : ManagerOp → SRDWindowManager × Heap
  | ManagerOp.workspace op => op.apply state
  | ManagerOp.add_window window => (state_at_end (state.1.add_window window), state.2)
  | ManagerOp.remove_window window => (state.1.remove_window window, state.2)
  | ManagerOp.focus_window window => (state.1.focus_window window, state.2)
  | ManagerOp.focus_next_window => (state.1.focus_next_window, state.2)
  | ManagerOp.focus_previous_window => (state.1.focus_previous_window, state.2)
  | ManagerOp.start_window_drag window x y => (state.1.start_window_drag state.2 window x y, state.2)
  | ManagerOp.start_window_resize window x y edge =>
      (state.1.start_window_resize state.2 window x y edge, state.2)
  | ManagerOp.update_window_drag x y => (state.1, state.1.update_window_drag state.2 x y)
  | ManagerOp.update_window_resize x y => (state.1, state.1.update_window_resize state.2 x y)
  | ManagerOp.end_window_drag => (state.1.end_window_drag, state.2)
  | ManagerOp.end_window_resize => (state.1.end_window_resize, state.2)
  | ManagerOp.set_layout_engine engine => (state.1.set_layout_engine engine, state.2)
  | ManagerOp.bind_key key_combination action => (state.1.bind_key key_combination action, state.2)
  | ManagerOp.unbind_key key_combination => (state.1.unbind_key key_combination, state.2)
  | ManagerOp.handle_key_press key_code modifiers =>
      ((state.1.handle_key_press key_code modifiers).1, state.2)

/-- The manager and the window objects after a sequence of operations on a fresh
manager, first call first. -/
def run_manager_ops (heap : Heap) (ops : List ManagerOp) : SRDWindowManager × Heap :=
  ops.foldl ManagerOp.apply (SRDWindowManager.new, heap)

/-! ## Scan order and sequences of event system calls -/

/-- The origins `(x, y)` that the two nested loops of `find_free_spaces`
(`step = 100`) and of `smart_tile` (`step = 50`) visit, in the order in which
they visit them: `x` in the outer loop, `y` in the inner loop. -/
def scan_origins (monitor : Monitor) (step : Int) : List (Int × Int) :=
  ((forRange monitor.x (monitor.x + monitor.width - SmartPlacement.MIN_WINDOW_WIDTH) step).map
    fun x =>
      (forRange monitor.y (monitor.y + monitor.height - SmartPlacement.MIN_WINDOW_HEIGHT)
        step).map fun y => (x, y)).flatten

/-- The test `smart_tile` makes of a candidate origin: the rectangle at `(x, y)`
of size `min(800, monitor.width - x)` by `min(600, monitor.height - y)` is valid. -/
def SmartPlacement.candidate_valid (monitor : Monitor) (origin : Int × Int) : Bool :=
  SmartPlacement.is_position_valid origin.1 origin.2 (min 800 (monitor.width - origin.1))
    (min 600 (monitor.height - origin.2)) monitor

/-- A call of the event system from outside any handler. -/
inductive EventOp where
  | register_handler (type : EventType) (handler : Handler)
  | emit_event (e : Event)
  | process_events

/-- The event system after one call from outside, `none` when the call does not
return within `fuel` nested steps.  An exception that leaves the call is
caught by the caller, which goes on with the event system as it is then. -/
def EventOp.apply (fuel : Nat) (es : EventSystem) : EventOp → Option EventSystem
  | EventOp.register_handler type handler => some (es.register_handler type handler)
  | EventOp.emit_event e => (EventSystem.emit_event fuel es e).map fun r => r.es
  | EventOp.process_events => (EventSystem.process_events fuel es).map fun r => r.es

/-- The event system after a sequence of calls from outside, first call first;
`none` when one of the calls does not return. -/
def run_event_ops (fuel : Nat) : EventSystem → List EventOp → Option EventSystem
  | es, [] => some es
  | es, op :: rest =>
      match op.apply fuel es with
      | none => none
      | some es1 => run_event_ops fuel es1 rest

/-- The window objects of the drag and resize examples: the window
`(100, 100, 400, 300)` at every address. -/
def example_heap : Heap := fun _ => ⟨1, "w", 100, 100, 400, 300, true⟩

/-- One window object of width 2000 and height 1200 at every address. -/
def large_window_heap : Heap := fun _ => ⟨1, "w", 0, 0, 2000, 1200, true⟩

/-- A layout engine with one monitor `{0, 0, 1920, 1080}` (id 0) whose layout is
Tiling, holding the windows 1 and 2. -/
def tiling_engine : LayoutEngine :=
  ((((LayoutEngine.new.add_monitor ⟨0, 0, 0, 1920, 1080, "", 60⟩).set_layout_type 0
    LayoutType.TILING).2).add_window (some 1)).add_window (some 2)

/-- A fresh manager connected to `tiling_engine`. -/
def tiling_manager : SRDWindowManager :=
  SRDWindowManager.new.set_layout_engine (some tiling_engine)

/-- Successive calls of `place_in_grid` on one monitor, each with its window and
its list of existing windows, first call first: the results.  The static counter
of `calculate_grid_position` has the value `window_counter` before the first of
the calls (it is initialised to `0`) and is carried from each call to the next. -/
def place_in_grid_calls (monitor : Monitor) :
    List (SRDWindow × List SRDWindow) → Int → List SmartPlacement.PlacementResult
  | [], _ => []
  | call :: rest, window_counter =>
      (SmartPlacement.place_in_grid call.1 monitor call.2 window_counter).1 ::
        place_in_grid_calls monitor rest
          (SmartPlacement.place_in_grid call.1 monitor call.2 window_counter).2

/-- The five existing windows of the fixture of `tests/test_smart_placement.cc`:
400 by 300 at `(100 + 50 i, 100 + 50 i)` for `i = 0..4`. -/
def test_windows : List SRDWindow :=
  [⟨1, "Test Window 1", 100, 100, 400, 300, true⟩,
    ⟨2, "Test Window 2", 150, 150, 400, 300, true⟩,
    ⟨3, "Test Window 3", 200, 200, 400, 300, true⟩,
    ⟨4, "Test Window 4", 250, 250, 400, 300, true⟩,
    ⟨5, "Test Window 5", 300, 300, 400, 300, true⟩]

/-- The monitor of the fixture of `tests/test_smart_placement.cc`. -/
def test_monitor : Monitor := ⟨1, 0, 0, 1920, 1080, "Test Monitor", 60⟩

/-- A sequence of calls for the examples: a handler for `KEY_PRESSED` that emits
a `MOUSE_MOVED` event and then calls `process_events` is registered, a handler
for `MOUSE_MOVED` that throws is registered, then a `KEY_PRESSED` event is
emitted and `process_events` is called. -/
def example_event_ops : List EventOp :=
  [EventOp.register_handler EventType.KEY_PRESSED
      ⟨1, fun _ => [HandlerStep.emit ⟨EventType.MOUSE_MOVED⟩, HandlerStep.process]⟩,
    EventOp.register_handler EventType.MOUSE_MOVED ⟨2, fun _ => [HandlerStep.throw_std]⟩,
    EventOp.emit_event ⟨EventType.KEY_PRESSED⟩,
    EventOp.process_events]

/-- A manager state with window 1 in the collection and focused, and a layout
engine connected that holds window 1. -/
def focused_manager : SRDWindowManager :=
  { SRDWindowManager.new with
    windows_ := [1]
    focused_window_ := some 1
    layout_engine_ := some (LayoutEngine.new.add_window (some 1)) }

theorem toInt32_of_range (z : Int) (h0 : -(2 ^ 31) ≤ z) (h1 : z < 2 ^ 31) : toInt32 z = z := by
  unfold toInt32
  have h : (z + 2 ^ 31) % 2 ^ 32 = z + 2 ^ 31 := by
    apply Int.emod_eq_of_lt <;> omega
  omega

theorem toSizeT_of_nonneg (z : Int) (h0 : 0 ≤ z) (h1 : z < 2 ^ 31) : toSizeT z = z := by
  unfold toSizeT
  apply Int.emod_eq_of_lt <;> omega

theorem Heap.store_same (heap : Heap) (p : WindowPtr) (w : SRDWindow) :
    heap.store p w p = w := by
  simp [Heap.store]

theorem Heap.store_other (heap : Heap) (p q : WindowPtr) (w : SRDWindow) (h : q ≠ p) :
    heap.store p w q = heap q := by
  simp [Heap.store, h]

/-! ## Tiling -/

theorem TilingLayout.loop_untouched (monitor : Monitor) (ww : Int) (windows : List WindowPtr) :
    ∀ (cx : Int) (heap : Heap) (p : WindowPtr), p ∉ windows →
      TilingLayout.arrange_windows_loop monitor ww windows cx heap p = heap p := by
  induction windows with
  | nil => intro cx heap p _; rfl
  | cons a rest ih =>
    intro cx heap p hp
    have hpa : p ≠ a := fun h => hp (by simp [h])
    have hpr : p ∉ rest := fun h => hp (by simp [h])
    simp only [TilingLayout.arrange_windows_loop]
    rw [ih _ _ p hpr, Heap.store_other _ _ _ _ hpa]

theorem TilingLayout.loop_column (monitor : Monitor) (ww : Int) (windows : List WindowPtr) :
    ∀ (cx : Int) (heap : Heap), windows.Nodup →
      ∀ (i : Nat) (hi : i < windows.length),
        (TilingLayout.arrange_windows_loop monitor ww windows cx heap (windows.get ⟨i, hi⟩)).getWidth = ww ∧
        (TilingLayout.arrange_windows_loop monitor ww windows cx heap (windows.get ⟨i, hi⟩)).getHeight
          = monitor.height ∧
        (TilingLayout.arrange_windows_loop monitor ww windows cx heap (windows.get ⟨i, hi⟩)).getX
          = cx + (i : Int) * ww ∧
        (TilingLayout.arrange_windows_loop monitor ww windows cx heap (windows.get ⟨i, hi⟩)).getY
          = monitor.y := by
  induction windows with
  | nil => intro cx heap _ i hi; simp at hi
  | cons a rest ih =>
    intro cx heap hnd i hi
    have hnd' := List.nodup_cons.mp hnd
    cases i with
    | zero =>
      have e : (a :: rest).get ⟨0, hi⟩ = a := rfl
      rw [e]
      simp only [TilingLayout.arrange_windows_loop]
      rw [TilingLayout.loop_untouched _ _ _ _ _ _ hnd'.1, Heap.store_same]
      simp [SRDWindow.setDimensions, SRDWindow.setPosition, SRDWindow.getWidth,
        SRDWindow.getHeight, SRDWindow.getX, SRDWindow.getY]
    | succ j =>
      have hj : j < rest.length := by simpa using hi
      have h := ih (cx + ww) (heap.store a (((heap a).setPosition cx monitor.y).setDimensions cx
        monitor.y ww monitor.height)) hnd'.2 j hj
      have e : (a :: rest).get ⟨j + 1, hi⟩ = rest.get ⟨j, hj⟩ := rfl
      rw [e]
      simp only [TilingLayout.arrange_windows_loop]
      refine ⟨h.1, h.2.1, ?_, h.2.2.2⟩
      rw [h.2.2.1]
      push_cast
      ring

/-- C1. `TilingLayout::arrange_windows` on a monitor `(x0, y0, W, H)` with
`0 ≤ W` (and `W` an `int`) and a list of `n` distinct windows: afterwards the
`i`-th window in input order has width `floor(W/n)`, height `H`,
`x = x0 + i * floor(W/n)` and `y = y0`; with `n = 0` the window objects are
unchanged. -/
theorem tiling_arrange_windows_columns (heap : Heap) (monitor : Monitor)
    (windows : List WindowPtr) (hW0 : 0 ≤ monitor.width) (hW : monitor.width < 2 ^ 31)
    (hnd : windows.Nodup) :
    (∀ (i : Nat) (hi : i < windows.length),
      (TilingLayout.arrange_windows windows monitor heap (windows.get ⟨i, hi⟩)).getWidth
          = monitor.width / (windows.length : Int) ∧
      (TilingLayout.arrange_windows windows monitor heap (windows.get ⟨i, hi⟩)).getHeight
          = monitor.height ∧
      (TilingLayout.arrange_windows windows monitor heap (windows.get ⟨i, hi⟩)).getX
          = monitor.x + (i : Int) * (monitor.width / (windows.length : Int)) ∧
      (TilingLayout.arrange_windows windows monitor heap (windows.get ⟨i, hi⟩)).getY
          = monitor.y) ∧
    (windows.length = 0 → TilingLayout.arrange_windows windows monitor heap = heap) := by
  constructor
  · intro i hi
    have hne : windows.isEmpty = false := by
      cases windows with
      | nil => simp at hi
      | cons a rest => rfl
    have hn : (0 : Int) < (windows.length : Int) := by
      have : 0 < windows.length := by omega
      exact_mod_cast this
    have hq0 : 0 ≤ monitor.width / (windows.length : Int) := Int.ediv_nonneg hW0 (le_of_lt hn)
    have hq1 : monitor.width / (windows.length : Int) ≤ monitor.width :=
      Int.ediv_le_self _ hW0
    have hww : toInt32 (toSizeT monitor.width / (windows.length : Int))
        = monitor.width / (windows.length : Int) := by
      rw [toSizeT_of_nonneg _ hW0 hW]
      apply toInt32_of_range <;> omega
    simp only [TilingLayout.arrange_windows, hne, hww, Bool.false_eq_true, if_false]
    exact TilingLayout.loop_column monitor _ windows monitor.x heap hnd i hi
  · intro h0
    have : windows = [] := List.length_eq_zero.mp h0
    subst this
    rfl

/-- The scenario of C1: monitor width 1920 at `x0 = 0`, three windows: widths
`[640, 640, 640]`, x-offsets `[0, 640, 1280]`. -/
theorem tiling_arrange_windows_columns_witness :
    let monitor : Monitor := ⟨0, 0, 0, 1920, 1080, "", 60⟩
    let heap : Heap := fun _ => SRDWindow.new 0 ""
    let heap' := TilingLayout.arrange_windows [1, 2, 3] monitor heap
    ([1, 2, 3].map fun p => (heap' p).getWidth) = [640, 640, 640] ∧
    ([1, 2, 3].map fun p => (heap' p).getX) = [0, 640, 1280] ∧
    ([1, 2, 3].map fun p => (heap' p).getHeight) = [1080, 1080, 1080] := by
  intro monitor heap heap'
  have h := (tiling_arrange_windows_columns heap monitor [1, 2, 3] (by decide) (by decide)
    (by decide)).1
  have h0 := h 0 (by decide)
  have h1 := h 1 (by decide)
  have h2 := h 2 (by decide)
  have e : (1920 : Int) / ((3 : Nat) : Int) = 640 := by decide
  simp only [List.length_cons, List.length_nil, List.get] at h0 h1 h2
  refine ⟨?_, ?_, ?_⟩
  · simp only [List.map]
    rw [h0.1, h1.1, h2.1]
    decide
  · simp only [List.map]
    rw [h0.2.2.1, h1.2.2.1, h2.2.2.1]
    decide
  · simp only [List.map]
    rw [h0.2.1, h1.2.1, h2.2.1]

/-! ## Smart placement -/

theorem foldl_invariant {α β : Type} (P : β → Prop) (f : β → α → β)
    (hf : ∀ b a, P b → P (f b a)) : ∀ (l : List α) (b : β), P b → P (l.foldl f b) := by
  intro l
  induction l with
  | nil => intro b hb; exact hb
  | cons a rest ih => intro b hb; exact ih (f b a) (hf b a hb)

theorem SmartPlacement.is_position_valid_iff (x y width height : Int) (monitor : Monitor) :
    SmartPlacement.is_position_valid x y width height monitor = true ↔
      (x ≥ monitor.x ∧ y ≥ monitor.y ∧ x + width ≤ monitor.x + monitor.width ∧
        y + height ≤ monitor.y + monitor.height ∧ width ≥ 200 ∧ height ≥ 150) := by
  simp [SmartPlacement.is_position_valid, SmartPlacement.MIN_WINDOW_WIDTH,
    SmartPlacement.MIN_WINDOW_HEIGHT, and_assoc]

theorem SmartPlacement.smart_tile_body_valid (window : SRDWindow) (monitor : Monitor)
    (existing_windows : List SRDWindow) (best b : SmartPlacement.Best) (x y : Int)
    (h : best.best_score ≥ 0 →
      SmartPlacement.is_position_valid best.best_x best.best_y best.best_width best.best_height
        monitor = true)
    (hb : b = SmartPlacement.smart_tile_body window monitor existing_windows best x y) :
    b.best_score ≥ 0 →
      SmartPlacement.is_position_valid b.best_x b.best_y b.best_width b.best_height
        monitor = true := by
  rw [SmartPlacement.smart_tile_body] at hb
  dsimp only at hb
  split_ifs at hb with h1 h2
  · subst hb; intro _; exact h1
  · subst hb; exact h
  · subst hb; exact h

theorem SmartPlacement.smart_tile_scan_valid (window : SRDWindow) (monitor : Monitor)
    (existing_windows : List SRDWindow) (best : SmartPlacement.Best)
    (h : best.best_score ≥ 0 →
      SmartPlacement.is_position_valid best.best_x best.best_y best.best_width best.best_height
        monitor = true) :
    (SmartPlacement.smart_tile_scan window monitor existing_windows best).best_score ≥ 0 →
      SmartPlacement.is_position_valid
        (SmartPlacement.smart_tile_scan window monitor existing_windows best).best_x
        (SmartPlacement.smart_tile_scan window monitor existing_windows best).best_y
        (SmartPlacement.smart_tile_scan window monitor existing_windows best).best_width
        (SmartPlacement.smart_tile_scan window monitor existing_windows best).best_height
        monitor = true := by
  rw [SmartPlacement.smart_tile_scan]
  apply foldl_invariant (fun b : SmartPlacement.Best => b.best_score ≥ 0 →
      SmartPlacement.is_position_valid b.best_x b.best_y b.best_width b.best_height monitor = true)
  · intro b x hb
    apply foldl_invariant (fun b : SmartPlacement.Best => b.best_score ≥ 0 →
      SmartPlacement.is_position_valid b.best_x b.best_y b.best_width b.best_height monitor = true)
    · intro b' y hb'
      exact SmartPlacement.smart_tile_body_valid window monitor existing_windows b' _ x y hb' rfl
    · exact hb
  · exact h

theorem SmartPlacement.place_in_grid_valid (window : SRDWindow) (monitor : Monitor)
    (existing_windows : List SRDWindow) (window_counter : Int)
    (r : SmartPlacement.PlacementResult)
    (hr : r = (SmartPlacement.place_in_grid window monitor existing_windows window_counter).1)
    (hs : r.success = true) :
    SmartPlacement.is_position_valid r.x r.y r.width r.height monitor = true := by
  rw [SmartPlacement.place_in_grid] at hr
  dsimp only at hr
  split_ifs at hr with h1 h2
  · subst hr; simp at hs
  · subst hr; exact h2
  · subst hr; simp at hs

theorem SmartPlacement.snap_to_edge_valid (window : SRDWindow) (monitor : Monitor)
    (existing_windows : List SRDWindow) (r : SmartPlacement.PlacementResult)
    (hr : r = SmartPlacement.snap_to_edge window monitor existing_windows)
    (hs : r.success = true) :
    SmartPlacement.is_position_valid r.x r.y r.width r.height monitor = true := by
  rw [SmartPlacement.snap_to_edge] at hr
  try dsimp only at hr
  split_ifs at hr with h2
  · subst hr; exact h2
  · subst hr; simp at hs

theorem SmartPlacement.cascade_place_valid (window : SRDWindow) (monitor : Monitor)
    (existing_windows : List SRDWindow) (r : SmartPlacement.PlacementResult)
    (hr : r = SmartPlacement.cascade_place window monitor existing_windows)
    (hs : r.success = true) :
    SmartPlacement.is_position_valid r.x r.y r.width r.height monitor = true := by
  rw [SmartPlacement.cascade_place] at hr
  dsimp only at hr
  split at hr
  · split_ifs at hr with h2
    · subst hr; exact h2
    · subst hr; simp at hs
  · split_ifs at hr with h2
    · subst hr; exact h2
    · subst hr; simp at hs

theorem SmartPlacement.smart_tile_valid (window : SRDWindow) (monitor : Monitor)
    (existing_windows : List SRDWindow) (r : SmartPlacement.PlacementResult)
    (hr : r = SmartPlacement.smart_tile window monitor existing_windows)
    (hs : r.success = true) :
    SmartPlacement.is_position_valid r.x r.y r.width r.height monitor = true := by
  rw [SmartPlacement.smart_tile] at hr
  try dsimp only at hr
  split_ifs at hr with hb
  · subst hr
    exact SmartPlacement.smart_tile_scan_valid window monitor existing_windows _
      (fun h => by simp at h) hb
  · subst hr; simp at hs

/-- C2. Placement validity: a result with `success = true` returned by
`place_in_grid` (for any value of the grid cell counter), `cascade_place`,
`snap_to_edge` or `smart_tile` lies within the monitor and has width at least
200 and height at least 150. -/
theorem placement_success_within_monitor (window : SRDWindow) (monitor : Monitor)
    (existing_windows : List SRDWindow) (window_counter : Int)
    (r : SmartPlacement.PlacementResult)
    (hr : r = (SmartPlacement.place_in_grid window monitor existing_windows window_counter).1 ∨
      r = SmartPlacement.cascade_place window monitor existing_windows ∨
      r = SmartPlacement.snap_to_edge window monitor existing_windows ∨
      r = SmartPlacement.smart_tile window monitor existing_windows)
    (hs : r.success = true) :
    r.x ≥ monitor.x ∧ r.y ≥ monitor.y ∧ r.x + r.width ≤ monitor.x + monitor.width ∧
      r.y + r.height ≤ monitor.y + monitor.height ∧ r.width ≥ 200 ∧ r.height ≥ 150 := by
  rw [← SmartPlacement.is_position_valid_iff]
  rcases hr with h | h | h | h
  · exact SmartPlacement.place_in_grid_valid _ _ _ _ r h hs
  · exact SmartPlacement.cascade_place_valid _ _ _ r h hs
  · exact SmartPlacement.snap_to_edge_valid _ _ _ r h hs
  · exact SmartPlacement.smart_tile_valid _ _ _ r h hs

/-- Instances of C2 on the monitor `{0, 0, 1920, 1080}`: each of the four
placements succeeds and its result is within the monitor. -/
theorem placement_success_within_monitor_witness :
    ((SmartPlacement.place_in_grid (SRDWindow.new 3 "") ⟨0, 0, 0, 1920, 1080, "", 60⟩
        [⟨1, "", 100, 100, 400, 300, true⟩, ⟨2, "", 150, 150, 400, 300, true⟩] 0).1.success = true ∧
      (SmartPlacement.place_in_grid (SRDWindow.new 3 "") ⟨0, 0, 0, 1920, 1080, "", 60⟩
        [⟨1, "", 100, 100, 400, 300, true⟩, ⟨2, "", 150, 150, 400, 300, true⟩] 0).1.x +
      (SmartPlacement.place_in_grid (SRDWindow.new 3 "") ⟨0, 0, 0, 1920, 1080, "", 60⟩
        [⟨1, "", 100, 100, 400, 300, true⟩, ⟨2, "", 150, 150, 400, 300, true⟩] 0).1.width
        ≤ 0 + 1920) ∧
    ((SmartPlacement.cascade_place (SRDWindow.new 3 "") ⟨0, 0, 0, 1920, 1080, "", 60⟩
        [⟨1, "", 100, 100, 400, 300, true⟩]).success = true ∧
      (SmartPlacement.cascade_place (SRDWindow.new 3 "") ⟨0, 0, 0, 1920, 1080, "", 60⟩
        [⟨1, "", 100, 100, 400, 300, true⟩]).height ≥ 150) ∧
    ((SmartPlacement.snap_to_edge (SRDWindow.new 3 "") ⟨0, 0, 0, 1920, 1080, "", 60⟩ []).success
        = true ∧
      (SmartPlacement.snap_to_edge (SRDWindow.new 3 "") ⟨0, 0, 0, 1920, 1080, "", 60⟩ []).width
        ≥ 200) ∧
    ((SmartPlacement.smart_tile (SRDWindow.new 3 "") ⟨0, 0, 0, 1920, 1080, "", 60⟩ []).success
        = true ∧
      (SmartPlacement.smart_tile (SRDWindow.new 3 "") ⟨0, 0, 0, 1920, 1080, "", 60⟩ []).y
        ≥ 0) :=
  ⟨⟨by decide!, (placement_success_within_monitor (SRDWindow.new 3 "")
      ⟨0, 0, 0, 1920, 1080, "", 60⟩ _ 0 _ (Or.inl rfl) (by decide!)).2.2.1⟩,
   ⟨by decide!, (placement_success_within_monitor (SRDWindow.new 3 "")
      ⟨0, 0, 0, 1920, 1080, "", 60⟩ _ 0 _ (Or.inr (Or.inl rfl)) (by decide!)).2.2.2.2.2⟩,
   ⟨by decide!, (placement_success_within_monitor (SRDWindow.new 3 "")
      ⟨0, 0, 0, 1920, 1080, "", 60⟩ [] 0 _ (Or.inr (Or.inr (Or.inl rfl))) (by decide!)).2.2.2.2.1⟩,
   ⟨by decide!, (placement_success_within_monitor (SRDWindow.new 3 "")
      ⟨0, 0, 0, 1920, 1080, "", 60⟩ [] 0 _ (Or.inr (Or.inr (Or.inr rfl))) (by decide!)).2.1⟩⟩

/-! ## Window manager: drag and resize sessions -/

/-- C3. `start_window_resize` does not look at the drag session.  On a fresh
manager, after `start_window_drag(w, 150, 110)` the manager is dragging and not
resizing; `start_window_resize(w, 495, 200, 2)` then starts a resize session:
`is_resizing()` becomes true while `is_dragging()` stays true (the drag session
fields are unchanged).  The symmetric call sequence, resize first and drag
second, also ends with both sessions active. -/
theorem start_window_resize_while_dragging :
    (((SRDWindowManager.new.start_window_drag (fun _ => ⟨1, "w", 100, 100, 400, 300, true⟩)
        (some 1) 150 110).is_dragging = true ∧
      (SRDWindowManager.new.start_window_drag (fun _ => ⟨1, "w", 100, 100, 400, 300, true⟩)
        (some 1) 150 110).is_resizing = false) ∧
     (((SRDWindowManager.new.start_window_drag (fun _ => ⟨1, "w", 100, 100, 400, 300, true⟩)
        (some 1) 150 110).start_window_resize (fun _ => ⟨1, "w", 100, 100, 400, 300, true⟩)
        (some 1) 495 200 2).is_resizing = true ∧
      ((SRDWindowManager.new.start_window_drag (fun _ => ⟨1, "w", 100, 100, 400, 300, true⟩)
        (some 1) 150 110).start_window_resize (fun _ => ⟨1, "w", 100, 100, 400, 300, true⟩)
        (some 1) 495 200 2).is_dragging = true ∧
      ((SRDWindowManager.new.start_window_drag (fun _ => ⟨1, "w", 100, 100, 400, 300, true⟩)
        (some 1) 150 110).start_window_resize (fun _ => ⟨1, "w", 100, 100, 400, 300, true⟩)
        (some 1) 495 200 2).dragging_window_ = some 1)) ∧
    (((SRDWindowManager.new.start_window_resize (fun _ => ⟨1, "w", 100, 100, 400, 300, true⟩)
        (some 1) 495 200 2).start_window_drag (fun _ => ⟨1, "w", 100, 100, 400, 300, true⟩)
        (some 1) 150 110).is_dragging = true ∧
     ((SRDWindowManager.new.start_window_resize (fun _ => ⟨1, "w", 100, 100, 400, 300, true⟩)
        (some 1) 495 200 2).start_window_drag (fun _ => ⟨1, "w", 100, 100, 400, 300, true⟩)
        (some 1) 150 110).is_resizing = true) := by
  decide

/-- What `start_window_resize` does in a state with a drag session and no resize
session, for a non-null window: the resize session starts, the drag session is
left as it was. -/
theorem start_window_resize_ignores_drag (wm : SRDWindowManager) (heap : Heap) (p : WindowPtr)
    (x y edge : Int) (hr : wm.is_resizing = false) :
    (wm.start_window_resize heap (some p) x y edge).is_resizing = true ∧
    (wm.start_window_resize heap (some p) x y edge).dragging_window_ = wm.dragging_window_ ∧
    (wm.start_window_resize heap (some p) x y edge).drag_start_x_ = wm.drag_start_x_ ∧
    (wm.start_window_resize heap (some p) x y edge).drag_start_y_ = wm.drag_start_y_ ∧
    (wm.start_window_resize heap (some p) x y edge).drag_start_window_x_
      = wm.drag_start_window_x_ ∧
    (wm.start_window_resize heap (some p) x y edge).drag_start_window_y_
      = wm.drag_start_window_y_ := by
  have h : wm.resizing_window_.isSome = false := hr
  simp [SRDWindowManager.start_window_resize, SRDWindowManager.is_resizing, h]

/-! ## Window manager: workspaces -/

/-- C5. `add_workspace` called once on a fresh manager: `get_current_workspace()`
is `1`, the id of the one stored workspace, and the stored workspace has
`visible = false`: the assignment `workspace.visible = true` is made to the
local object after its copy was stored. -/
theorem add_workspace_once_not_visible :
    (SRDWindowManager.new.add_workspace "Main").get_current_workspace = 1 ∧
    (SRDWindowManager.new.add_workspace "Main").get_workspaces
      = [⟨1, "Main", [], "tiling", false⟩] ∧
    ((SRDWindowManager.new.add_workspace "Main").get_workspaces.filter
      fun w => w.visible) = [] := by
  decide

/-! ## Layout engine: layout names -/

/-- The error branch of `set_layout` is never taken: `string_to_layout_type`
maps every name to one of the three layout types. -/
theorem LayoutEngine.set_layout_returns_true (e : LayoutEngine) (monitor_id : Int)
    (layout_name : String) : (e.set_layout monitor_id layout_name).1 = true := by
  rw [LayoutEngine.set_layout]
  split_ifs with h
  · exfalso
    cases hs : LayoutEngine.string_to_layout_type layout_name <;> simp [hs] at h
  · rfl

/-- C7. `set_layout(0, "smart_placement")` on an engine whose monitor `0` has
the Tiling layout: the name is none of "tiling", "dynamic", "floating", yet the
call returns `true` and `get_layout(0)` changes from Tiling to Dynamic. -/
theorem set_layout_unknown_name_accepted :
    ((LayoutEngine.new.set_layout_type 0 LayoutType.TILING).2.get_layout 0 = LayoutType.TILING) ∧
    (((LayoutEngine.new.set_layout_type 0 LayoutType.TILING).2.set_layout 0
      "smart_placement").1 = true) ∧
    (((LayoutEngine.new.set_layout_type 0 LayoutType.TILING).2.set_layout 0
      "smart_placement").2.get_layout 0 = LayoutType.DYNAMIC) := by
  decide

/-! ## Window manager: the window collection -/

theorem window_ids_remove_sublist (heap : Heap) (wm : SRDWindowManager)
    (window : Option WindowPtr) :
    (window_ids heap (wm.remove_window window)).Sublist (window_ids heap wm) := by
  cases window with
  | none => exact List.Sublist.refl _
  | some p =>
    by_cases hp : p ∈ wm.windows_
    · have hs : ((wm.windows_.erase p).map fun q => (heap q).getId).Sublist
          (wm.windows_.map fun q => (heap q).getId) :=
        (List.erase_sublist p wm.windows_).map _
      cases hle : wm.layout_engine_ <;>
        simpa [window_ids, SRDWindowManager.remove_window, SRDWindowManager.get_windows, hle, hp]
          using hs
    · simp [window_ids, SRDWindowManager.remove_window, SRDWindowManager.get_windows, hp]

theorem SRDWindowManager.add_window_non_null (wm : SRDWindowManager) (p : WindowPtr) :
    (wm.add_window (some p)).isOk = false ∧
    (state_at_end (wm.add_window (some p))).windows_ = wm.windows_ ++ [p] ∧
    (state_at_end (wm.add_window (some p))).layout_engine_ = wm.layout_engine_ := by
  cases hle : wm.layout_engine_ with
  | none => simp [SRDWindowManager.add_window, state_at_end, hle, Except.isOk, Except.toBool]
  | some e =>
    simp [SRDWindowManager.add_window, state_at_end, hle, Except.isOk, Except.toBool,
      LayoutEngine.add_window]

/-- C6, as stated, fails: `remove_window` does not touch the focus.  With a
layout engine connected that holds window 1, window 1 in the collection and
focused: after `remove_window` the window is in neither list, and
`get_focused_window()` still returns it. -/
theorem remove_window_keeps_focus :
    focused_manager.get_windows = [1] ∧
    (focused_manager.layout_engine_.map fun e => e.windows_) = some [1] ∧
    focused_manager.get_focused_window = some 1 ∧
    (focused_manager.remove_window (some 1)).get_windows = [] ∧
    ((focused_manager.remove_window (some 1)).layout_engine_.map fun e => e.windows_)
      = some [] ∧
    (focused_manager.remove_window (some 1)).get_focused_window = some 1 ∧
    (focused_manager.remove_window (some 1)).get_focused_window ≠ none := by
  decide

/-- C6, amended.  In a state in which window `w` occurs once in the window
collection and is the focused window, and a layout engine is connected whose
window list has no duplicates: after `remove_window(w)` the window is no longer
in `get_windows()`, it is no longer in the engine's window list, and the focus
is left as it was, `get_focused_window()` still returns `w`. -/
theorem remove_window_focused (wm : SRDWindowManager) (engine : LayoutEngine) (w : WindowPtr)
    (hmem : w ∈ wm.get_windows) (hnd : wm.get_windows.Nodup)
    (hengine : wm.layout_engine_ = some engine) (hend : engine.windows_.Nodup)
    (hfocus : wm.get_focused_window = some w) :
    w ∉ (wm.remove_window (some w)).get_windows ∧
    (∃ engine', (wm.remove_window (some w)).layout_engine_ = some engine' ∧
      w ∉ engine'.windows_) ∧
    (wm.remove_window (some w)).get_focused_window = some w := by
  have hmem' : w ∈ wm.windows_ := hmem
  have hnd' : wm.windows_.Nodup := hnd
  have hfocus' : wm.focused_window_ = some w := hfocus
  refine ⟨?_, ?_, ?_⟩
  · simp only [SRDWindowManager.remove_window, hmem', if_true, hengine,
      SRDWindowManager.get_windows]
    intro h
    exact ((List.Nodup.mem_erase_iff hnd').mp h).1 rfl
  · refine ⟨engine.remove_window (some w), ?_, ?_⟩
    · simp only [SRDWindowManager.remove_window, hmem', if_true, hengine]
    · simp only [LayoutEngine.remove_window]
      split_ifs with hw
      · intro h
        exact ((List.Nodup.mem_erase_iff hend).mp h).1 rfl
      · exact hw
  · simp only [SRDWindowManager.remove_window, hmem', if_true, hengine,
      SRDWindowManager.get_focused_window, hfocus']

/-- An instance of the amended C6: windows 1, 2, 3 in the collection, 2 and 3 in
the engine, window 2 focused and removed. -/
theorem remove_window_focused_witness :
    (2 ∈ example_manager.get_windows) ∧
    (example_manager.remove_window (some 2)).get_windows
      = [1, 3] ∧
    (2 ∉ (example_manager.remove_window (some 2)).get_windows ∧
     (∃ engine', (example_manager.remove_window
          (some 2)).layout_engine_ = some engine' ∧ 2 ∉ engine'.windows_) ∧
     (example_manager.remove_window
          (some 2)).get_focused_window = some 2) :=
  ⟨by decide, by decide,
    remove_window_focused example_manager ⟨[], [2, 3], StdMap.empty⟩ 2 (by decide) (by decide)
      rfl (by decide) rfl⟩

/-! ## Event system -/

/-- C8. A handler registered for `KEY_PRESSED` that emits a `WINDOW_MOVED` event,
and a handler registered for `WINDOW_MOVED`: `emit_event` of a `KEY_PRESSED`
event never sets `processing_events`, so the nested `emit_event` is dispatched at
once.  Handler 2 runs between the entry and the exit of handler 1, and the
queue stays empty. -/
theorem emit_event_reentrant_not_queued :
    (EventSystem.emit_event 10
      ((EventSystem.new.register_handler EventType.KEY_PRESSED
          ⟨1, fun _ => [HandlerStep.emit ⟨EventType.WINDOW_MOVED⟩]⟩).register_handler
        EventType.WINDOW_MOVED ⟨2, fun _ => []⟩)
      ⟨EventType.KEY_PRESSED⟩).map Outcome.observed
    = some (Completion.normal, [], false,
        [TraceEntry.enter 1 ⟨EventType.KEY_PRESSED⟩, TraceEntry.enter 2 ⟨EventType.WINDOW_MOVED⟩,
          TraceEntry.leave 2, TraceEntry.leave 1]) := by
  decide

theorem EventSystem.emit_event_while_processing (fuel : Nat) (es : EventSystem) (e : Event)
    (hp : es.processing_events = true) :
    EventSystem.exec (fuel + 1) (Call.emit_event e) es
      = some ⟨Completion.normal, { es with event_queue := es.event_queue ++ [e] }, []⟩ := by
  simp [EventSystem.exec, hp]

theorem EventSystem.drain_step (n : Nat) (es : EventSystem) (event : Event) (queue : List Event)
    (h : es.event_queue = event :: queue) :
    EventSystem.exec (n + 1) Call.drain es =
      match EventSystem.exec n (Call.emit_event event) { es with event_queue := queue } with
      | none => none
      | some r1 =>
          if r1.completion = Completion.normal then
            match EventSystem.exec n Call.drain r1.es with
            | none => none
            | some r2 => some ⟨r2.completion, r2.es, r1.trace ++ r2.trace⟩
          else some r1 := by
  simp only [EventSystem.exec, h]

/-- The `while` loop of `process_events` entered with a non-empty queue: every
event taken from the front is put back at the end by `emit_event`, so no bound
on the number of steps is enough. -/
theorem EventSystem.drain_never_returns (fuel : Nat) :
    ∀ es : EventSystem, es.processing_events = true → es.event_queue ≠ [] →
      EventSystem.exec fuel Call.drain es = none := by
  induction fuel with
  | zero => intro es _ _; rfl
  | succ n ih =>
    intro es hp hq
    cases hqe : es.event_queue with
    | nil => exact absurd hqe hq
    | cons event queue =>
      rw [EventSystem.drain_step n es event queue hqe]
      cases n with
      | zero => rfl
      | succ m =>
        rw [EventSystem.emit_event_while_processing m { es with event_queue := queue } event hp]
        have h2 := ih { es with event_queue := queue ++ [event] } hp (by simp)
        simp only [if_true]
        rw [h2]

/-- A state with `processing_events` clear and a non-empty queue does not occur
(see `run_event_ops_idle`); in such a state `process_events` would set the flag
and `emit_event` would put every event taken from the queue back on it. -/
theorem EventSystem.process_events_never_returns (fuel : Nat) (es : EventSystem)
    (hp : es.processing_events = false) (hq : es.event_queue ≠ []) :
    EventSystem.process_events fuel es = none := by
  cases fuel with
  | zero => rfl
  | succ n =>
    have h := EventSystem.drain_never_returns n { es with processing_events := true } rfl hq
    simp [EventSystem.process_events, EventSystem.exec, hp, h]

theorem direct_calls_from_enter_succ (depth h : Nat) (e : Event) (rest : List TraceEntry) :
    direct_calls_from (depth + 1) (TraceEntry.enter h e :: rest)
      = direct_calls_from (depth + 2) rest := by
  simp [direct_calls_from]

theorem direct_calls_from_leave (depth h : Nat) (rest : List TraceEntry) :
    direct_calls_from depth (TraceEntry.leave h :: rest)
      = direct_calls_from (depth - 1) rest := by
  cases depth <;> simp [direct_calls_from]

theorem TraceNested.nil : TraceNested [] := by
  intro depth rest
  rfl

theorem TraceNested.append {t1 t2 : List TraceEntry} (h1 : TraceNested t1)
    (h2 : TraceNested t2) : TraceNested (t1 ++ t2) := by
  intro depth rest
  rw [List.append_assoc, h1 depth, h2 depth]

theorem TraceNested.wrap {t : List TraceEntry} (ht : TraceNested t) (h : Nat) (e : Event) :
    TraceNested (TraceEntry.enter h e :: (t ++ [TraceEntry.leave h])) := by
  intro depth rest
  rw [List.cons_append, direct_calls_from_enter_succ, List.append_assoc, ht (depth + 1)]
  rw [List.singleton_append, direct_calls_from_leave]
  rfl

theorem EventSystem.dispatch_cons_step (n : Nat) (es : EventSystem) (h : Handler)
    (hs : List Handler) (e : Event) :
    EventSystem.exec (n + 1) (Call.dispatch (h :: hs) e) es =
      match EventSystem.exec n (Call.handler_body (h.body e)) es with
      | none => none
      | some r1 =>
          if r1.completion = Completion.thrown_other then
            some ⟨Completion.thrown_other, r1.es,
              TraceEntry.enter h.name e :: (r1.trace ++ [TraceEntry.leave h.name])⟩
          else
            match EventSystem.exec n (Call.dispatch hs e) r1.es with
            | none => none
            | some r2 =>
                some ⟨r2.completion, r2.es,
                  TraceEntry.enter h.name e :: (r1.trace ++ [TraceEntry.leave h.name]) ++ r2.trace⟩ := by
  simp only [EventSystem.exec]

theorem EventSystem.emit_event_step (n : Nat) (es : EventSystem) (e : Event)
    (hp : es.processing_events = false) :
    EventSystem.exec (n + 1) (Call.emit_event e) es =
      match es.handlers.find e.type with
      | none => some ⟨Completion.normal, es, []⟩
      | some hs => EventSystem.exec n (Call.dispatch hs e) es := by
  simp [EventSystem.exec, hp]

theorem EventSystem.body_emit_step (n : Nat) (es : EventSystem) (e : Event)
    (rest : List HandlerStep) :
    EventSystem.exec (n + 1) (Call.handler_body (HandlerStep.emit e :: rest)) es =
      match EventSystem.exec n (Call.emit_event e) es with
      | none => none
      | some r1 =>
          if r1.completion = Completion.normal then
            match EventSystem.exec n (Call.handler_body rest) r1.es with
            | none => none
            | some r2 => some ⟨r2.completion, r2.es, r1.trace ++ r2.trace⟩
          else some r1 := by
  simp only [EventSystem.exec]

theorem EventSystem.body_process_step (n : Nat) (es : EventSystem) (rest : List HandlerStep) :
    EventSystem.exec (n + 1) (Call.handler_body (HandlerStep.process :: rest)) es =
      match EventSystem.exec n Call.process_events es with
      | none => none
      | some r1 =>
          if r1.completion = Completion.normal then
            match EventSystem.exec n (Call.handler_body rest) r1.es with
            | none => none
            | some r2 => some ⟨r2.completion, r2.es, r1.trace ++ r2.trace⟩
          else some r1 := by
  simp only [EventSystem.exec]

theorem EventSystem.process_events_step (n : Nat) (es : EventSystem)
    (hp : es.processing_events = false) :
    EventSystem.exec (n + 1) Call.process_events es =
      match EventSystem.exec n Call.drain { es with processing_events := true } with
      | none => none
      | some r =>
          if r.completion = Completion.normal then
            some ⟨Completion.normal, { r.es with processing_events := false }, r.trace⟩
          else some r := by
  simp [EventSystem.exec, hp]

/-- The trace of every run is nested: calls and returns of handlers are
matched. -/
theorem EventSystem.exec_trace_nested (fuel : Nat) :
    ∀ (call : Call) (es : EventSystem) (r : Outcome),
      EventSystem.exec fuel call es = some r → TraceNested r.trace := by
  induction fuel with
  | zero => intro call es r h; simp [EventSystem.exec] at h
  | succ n ih =>
    intro call es r h
    cases call with
    | emit_event e =>
      cases hp : es.processing_events with
      | true =>
        rw [EventSystem.emit_event_while_processing n es e hp] at h
        cases h
        exact TraceNested.nil
      | false =>
        rw [EventSystem.emit_event_step n es e hp] at h
        cases hf : es.handlers.find e.type with
        | none =>
          simp only [hf] at h
          cases h
          exact TraceNested.nil
        | some hs =>
          simp only [hf] at h
          exact ih _ _ _ h
    | dispatch hs e =>
      cases hs with
      | nil =>
        simp only [EventSystem.exec] at h
        cases h
        exact TraceNested.nil
      | cons hd tl =>
        rw [EventSystem.dispatch_cons_step] at h
        cases h1 : EventSystem.exec n (Call.handler_body (hd.body e)) es with
        | none => simp [h1] at h
        | some r1 =>
          have hn1 := ih _ _ _ h1
          simp only [h1] at h
          split_ifs at h with hc
          · cases h
            exact TraceNested.wrap hn1 _ _
          · cases h2 : EventSystem.exec n (Call.dispatch tl e) r1.es with
            | none => simp [h2] at h
            | some r2 =>
              have hn2 := ih _ _ _ h2
              simp only [h2] at h
              cases h
              exact TraceNested.append (TraceNested.wrap hn1 _ _) hn2
    | handler_body steps =>
      cases steps with
      | nil =>
        simp only [EventSystem.exec] at h
        cases h
        exact TraceNested.nil
      | cons step rest =>
        cases step with
        | throw_std =>
          simp only [EventSystem.exec] at h
          cases h
          exact TraceNested.nil
        | throw_other =>
          simp only [EventSystem.exec] at h
          cases h
          exact TraceNested.nil
        | emit e =>
          rw [EventSystem.body_emit_step] at h
          cases h1 : EventSystem.exec n (Call.emit_event e) es with
          | none => simp [h1] at h
          | some r1 =>
            have hn1 := ih _ _ _ h1
            simp only [h1] at h
            split_ifs at h with hc
            · cases h2 : EventSystem.exec n (Call.handler_body rest) r1.es with
              | none => simp [h2] at h
              | some r2 =>
                have hn2 := ih _ _ _ h2
                simp only [h2] at h
                cases h
                exact TraceNested.append hn1 hn2
            · cases h
              exact hn1
        | process =>
          rw [EventSystem.body_process_step] at h
          cases h1 : EventSystem.exec n Call.process_events es with
          | none => simp [h1] at h
          | some r1 =>
            have hn1 := ih _ _ _ h1
            simp only [h1] at h
            split_ifs at h with hc
            · cases h2 : EventSystem.exec n (Call.handler_body rest) r1.es with
              | none => simp [h2] at h
              | some r2 =>
                have hn2 := ih _ _ _ h2
                simp only [h2] at h
                cases h
                exact TraceNested.append hn1 hn2
            · cases h
              exact hn1
    | process_events =>
      cases hp : es.processing_events with
      | true =>
        simp only [EventSystem.exec, hp, if_true] at h
        cases h
        exact TraceNested.nil
      | false =>
        rw [EventSystem.process_events_step n es hp] at h
        cases h1 : EventSystem.exec n Call.drain { es with processing_events := true } with
        | none => simp [h1] at h
        | some r1 =>
          have hn1 := ih _ _ _ h1
          simp only [h1] at h
          split_ifs at h with hc
          · cases h
            exact hn1
          · cases h
            exact hn1
    | drain =>
      cases hq : es.event_queue with
      | nil =>
        simp only [EventSystem.exec, hq] at h
        cases h
        exact TraceNested.nil
      | cons event queue =>
        rw [EventSystem.drain_step n es event queue hq] at h
        cases h1 : EventSystem.exec n (Call.emit_event event) { es with event_queue := queue } with
        | none => simp [h1] at h
        | some r1 =>
          have hn1 := ih _ _ _ h1
          simp only [h1] at h
          split_ifs at h with hc
          · cases h2 : EventSystem.exec n Call.drain r1.es with
            | none => simp [h2] at h
            | some r2 =>
              have hn2 := ih _ _ _ h2
              simp only [h2] at h
              cases h
              exact TraceNested.append hn1 hn2
          · cases h
            exact hn1

theorem direct_calls_from_enter_zero (h : Nat) (e : Event) (rest : List TraceEntry) :
    direct_calls_from 0 (TraceEntry.enter h e :: rest) = (h, e) :: direct_calls_from 1 rest := by
  simp [direct_calls_from]

theorem EventSystem.dispatch_direct_calls (e : Event) (hs : List Handler) :
    ∀ (fuel : Nat) (es : EventSystem) (r : Outcome),
      EventSystem.exec fuel (Call.dispatch hs e) es = some r →
      r.completion = Completion.normal →
      direct_calls r.trace = hs.map fun h => (h.name, e) := by
  induction hs with
  | nil =>
    intro fuel es r h _
    cases fuel with
    | zero => simp [EventSystem.exec] at h
    | succ n =>
      simp only [EventSystem.exec] at h
      cases h
      rfl
  | cons hd tl ih =>
    intro fuel es r h hc
    cases fuel with
    | zero => simp [EventSystem.exec] at h
    | succ n =>
      rw [EventSystem.dispatch_cons_step] at h
      cases h1 : EventSystem.exec n (Call.handler_body (hd.body e)) es with
      | none => simp [h1] at h
      | some r1 =>
        have hn1 := EventSystem.exec_trace_nested n _ _ _ h1
        simp only [h1] at h
        split_ifs at h with hc1
        · cases h
          simp at hc
        · cases h2 : EventSystem.exec n (Call.dispatch tl e) r1.es with
          | none => simp [h2] at h
          | some r2 =>
            simp only [h2] at h
            cases h
            have ih2 := ih n r1.es r2 h2 hc
            show direct_calls_from 0 (TraceEntry.enter hd.name e ::
              ((r1.trace ++ [TraceEntry.leave hd.name]) ++ r2.trace)) = _
            rw [direct_calls_from_enter_zero, List.append_assoc, hn1 0, List.singleton_append,
              direct_calls_from_leave, List.map_cons]
            exact congrArg _ ih2

theorem EventSystem.plain_body_returns (n : Nat) (es : EventSystem) (steps : List HandlerStep)
    (hplain : ∀ step ∈ steps, step = HandlerStep.throw_std) :
    ∃ c, c ≠ Completion.thrown_other ∧
      EventSystem.exec (n + 1) (Call.handler_body steps) es = some ⟨c, es, []⟩ := by
  cases steps with
  | nil => exact ⟨Completion.normal, by decide, by simp only [EventSystem.exec]⟩
  | cons step rest =>
    have hs : step = HandlerStep.throw_std := hplain step (by simp)
    subst hs
    exact ⟨Completion.thrown_std, by decide, by simp only [EventSystem.exec]⟩

theorem EventSystem.dispatch_plain_returns (e : Event) (es : EventSystem) (hs : List Handler) :
    (∀ h ∈ hs, h.plain) → ∀ fuel : Nat, hs.length + 2 ≤ fuel →
      EventSystem.exec fuel (Call.dispatch hs e) es
        = some ⟨Completion.normal, es,
            (hs.map fun h => [TraceEntry.enter h.name e, TraceEntry.leave h.name]).flatten⟩ := by
  induction hs with
  | nil =>
    intro _ fuel hf
    obtain ⟨n, rfl⟩ : ∃ n, fuel = n + 1 := ⟨fuel - 1, by omega⟩
    simp only [EventSystem.exec, List.map_nil, List.flatten_nil]
  | cons hd tl ih =>
    intro hplain fuel hf
    obtain ⟨n, rfl⟩ : ∃ n, fuel = n + 2 := ⟨fuel - 2, by simp at hf; omega⟩
    have htl : ∀ h ∈ tl, h.plain := fun h hh => hplain h (by simp [hh])
    obtain ⟨c, hc, hbody⟩ := EventSystem.plain_body_returns n es (hd.body e)
      (hplain hd (by simp) e)
    rw [EventSystem.dispatch_cons_step, hbody]
    simp only [hc, if_false]
    rw [ih htl (n + 1) (by simp at hf; omega)]
    simp

/-- C10, as stated, fails: `emit_event` catches `std::exception` only.  With
handler 1 (throws an object that is not a `std::exception`) and handler 2
registered for `KEY_PRESSED`, a top-level `emit_event` calls handler 1, the
exception leaves `emit_event`, and handler 2 is not called. -/
theorem emit_event_other_exception_skips_later_handlers :
    (EventSystem.emit_event 10
      ((EventSystem.new.register_handler EventType.KEY_PRESSED
          ⟨1, fun _ => [HandlerStep.throw_other]⟩).register_handler
        EventType.KEY_PRESSED ⟨2, fun _ => []⟩)
      ⟨EventType.KEY_PRESSED⟩).map Outcome.observed
    = some (Completion.thrown_other, [], false,
        [TraceEntry.enter 1 ⟨EventType.KEY_PRESSED⟩, TraceEntry.leave 1]) := by
  decide

/-- C10, amended.  For handlers `h1, ..., hn` registered for the kind of `e`, in
that order, and a top-level `emit_event(e)`:
when the call returns (no exception leaves it), the handlers it has called are
exactly `h1, ..., hn`, each once, in registration order, each with `e`, and no
other handler is called by it; and when the handlers make no calls into the
event system and throw nothing but `std::exception`s, the call does return,
with every handler entered and left in turn and the event system unchanged. -/
theorem emit_event_calls_registered_handlers (es : EventSystem) (e : Event)
    (hs : List Handler) (htop : es.processing_events = false)
    (hreg : es.handlers.find e.type = some hs) :
    (∀ (fuel : Nat) (r : Outcome), EventSystem.emit_event fuel es e = some r →
      r.completion = Completion.normal →
      direct_calls r.trace = hs.map fun h => (h.name, e)) ∧
    ((∀ h ∈ hs, h.plain) → ∀ fuel : Nat, hs.length + 3 ≤ fuel →
      ∃ r, EventSystem.emit_event fuel es e = some r ∧ r.completion = Completion.normal ∧
        r.trace = (hs.map fun h => [TraceEntry.enter h.name e, TraceEntry.leave h.name]).flatten ∧
        r.es = es) := by
  constructor
  · intro fuel r h hc
    cases fuel with
    | zero => simp [EventSystem.emit_event, EventSystem.exec] at h
    | succ n =>
      rw [EventSystem.emit_event, EventSystem.emit_event_step n es e htop] at h
      simp only [hreg] at h
      exact EventSystem.dispatch_direct_calls e hs n es r h hc
  · intro hplain fuel hf
    obtain ⟨n, rfl⟩ : ∃ n, fuel = n + 1 := ⟨fuel - 1, by omega⟩
    refine ⟨⟨Completion.normal, es,
      (hs.map fun h => [TraceEntry.enter h.name e, TraceEntry.leave h.name]).flatten⟩,
      ?_, rfl, rfl, rfl⟩
    rw [EventSystem.emit_event, EventSystem.emit_event_step n es e htop]
    simp only [hreg]
    exact EventSystem.dispatch_plain_returns e es hs hplain n (by omega)

/-- An instance of the amended C10: handler 1 throws a `std::exception`, handler
2 returns, both registered for `KEY_PRESSED`; handler 3 is registered for
`MOUSE_MOVED`.  A top-level `emit_event` of a `KEY_PRESSED` event enters and
leaves handler 1, then handler 2, and does not call handler 3. -/
theorem emit_event_calls_registered_handlers_witness :
    example_event_system.processing_events = false ∧
    (∃ r, EventSystem.emit_event 5 example_event_system ⟨EventType.KEY_PRESSED⟩ = some r ∧
      r.completion = Completion.normal ∧
      r.trace = [TraceEntry.enter 1 ⟨EventType.KEY_PRESSED⟩, TraceEntry.leave 1,
        TraceEntry.enter 2 ⟨EventType.KEY_PRESSED⟩, TraceEntry.leave 2] ∧
      r.es = example_event_system) :=
  ⟨rfl, (emit_event_calls_registered_handlers example_event_system ⟨EventType.KEY_PRESSED⟩
    [⟨1, fun _ => [HandlerStep.throw_std]⟩, ⟨2, fun _ => []⟩] rfl rfl).2
    (by
      intro h hh e step hstep
      simp only [List.mem_cons, List.mem_singleton, List.not_mem_nil, or_false] at hh
      rcases hh with rfl | rfl
      · simpa using hstep
      · simp at hstep)
    5 (by decide)⟩

/-! ## Window manager: removing the current workspace -/

/-- C11. Fresh manager, `add_workspace("A")`, `add_workspace("B")`,
`move_window_to_workspace(w, 1)`: workspace 1 is current and holds `w`, and
there are two workspaces.  After `remove_workspace(1)` workspace 1 is gone, but
`get_current_workspace()` is still 1, the id of no remaining workspace, and `w`
is a member of no workspace: the loop moves the windows to `current_workspace_`,
which is the workspace being removed. -/
theorem remove_current_workspace_loses_windows :
    ((run_workspace_ops (fun _ => SRDWindow.new 0 "")
        [WorkspaceOp.add "A", WorkspaceOp.add "B", WorkspaceOp.move (some 7) 1]).1.get_workspaces
      = [⟨1, "A", [7], "tiling", false⟩, ⟨2, "B", [], "tiling", false⟩] ∧
     (run_workspace_ops (fun _ => SRDWindow.new 0 "")
        [WorkspaceOp.add "A", WorkspaceOp.add "B",
          WorkspaceOp.move (some 7) 1]).1.get_current_workspace = 1) ∧
    ((run_workspace_ops (fun _ => SRDWindow.new 0 "")
        [WorkspaceOp.add "A", WorkspaceOp.add "B", WorkspaceOp.move (some 7) 1,
          WorkspaceOp.remove 1]).1.get_workspaces
      = [⟨2, "B", [], "tiling", false⟩] ∧
     (run_workspace_ops (fun _ => SRDWindow.new 0 "")
        [WorkspaceOp.add "A", WorkspaceOp.add "B", WorkspaceOp.move (some 7) 1,
          WorkspaceOp.remove 1]).1.get_current_workspace = 1 ∧
     (run_workspace_ops (fun _ => SRDWindow.new 0 "")
        [WorkspaceOp.add "A", WorkspaceOp.add "B", WorkspaceOp.move (some 7) 1,
          WorkspaceOp.remove 1]).1.get_workspace 1 = none) := by
  decide

/-! ## Window manager: focus cycling -/

theorem focus_next_window_index (wm : SRDWindowManager) (i : Nat)
    (hnd : wm.windows_.Nodup) (hi : i < wm.windows_.length)
    (hfocus : wm.focused_window_ = some (wm.windows_.get ⟨i, hi⟩)) :
    (wm.focus_next_window).focused_window_ = wm.windows_.get? ((i + 1) % wm.windows_.length) := by
  have hidx : wm.windows_.indexOf (wm.windows_.get ⟨i, hi⟩) = i :=
    List.indexOf_getElem hnd i hi
  have hne : i ≠ wm.windows_.length := Nat.ne_of_lt hi
  rw [SRDWindowManager.focus_next_window]
  cases hw : wm.windows_ with
  | nil => rw [hw] at hi; simp at hi
  | cons first rest =>
    simp only [hfocus]
    rw [← hw]
    simp only [hidx, hne, if_false, SRDWindowManager.focus_window]
    by_cases hlast : i + 1 = wm.windows_.length
    · simp [hlast]
    · have hlt : i + 1 < wm.windows_.length := by omega
      simp [hlast, Nat.mod_eq_of_lt hlt]

theorem focus_previous_window_index (wm : SRDWindowManager) (i : Nat)
    (hnd : wm.windows_.Nodup) (hi : i < wm.windows_.length)
    (hfocus : wm.focused_window_ = some (wm.windows_.get ⟨i, hi⟩)) :
    (wm.focus_previous_window).focused_window_
      = wm.windows_.get? ((i + wm.windows_.length - 1) % wm.windows_.length) := by
  have hidx : wm.windows_.indexOf (wm.windows_.get ⟨i, hi⟩) = i :=
    List.indexOf_getElem hnd i hi
  have hne : i ≠ wm.windows_.length := Nat.ne_of_lt hi
  rw [SRDWindowManager.focus_previous_window]
  cases hw : wm.windows_ with
  | nil => rw [hw] at hi; simp at hi
  | cons first rest =>
    simp only [hfocus]
    rw [← hw]
    simp only [hidx, hne, if_false, SRDWindowManager.focus_window]
    by_cases hzero : i = 0
    · subst hzero
      have hlt : wm.windows_.length - 1 < wm.windows_.length := by omega
      simp [Nat.mod_eq_of_lt hlt]
    · have he : i + wm.windows_.length - 1 = (i - 1) + wm.windows_.length := by omega
      have hlt : i - 1 < wm.windows_.length := by omega
      simp [hzero, he, Nat.mod_eq_of_lt hlt]

/-- C14. Focus cycling: in a collection of `n ≥ 1` distinct windows with the
focused window at index `i`, `focus_next_window` focuses the window at index
`(i + 1) mod n` and `focus_previous_window` the window at index `(i - 1) mod n`
(written `(i + n - 1) mod n`); both leave the collection as it is.  On an empty
collection both change nothing. -/
theorem focus_cycling (wm : SRDWindowManager) :
    (∀ (i : Nat) (hi : i < wm.get_windows.length), wm.get_windows.Nodup →
      wm.get_focused_window = some (wm.get_windows.get ⟨i, hi⟩) →
      (wm.focus_next_window).get_focused_window
        = wm.get_windows.get? ((i + 1) % wm.get_windows.length) ∧
      (wm.focus_previous_window).get_focused_window
        = wm.get_windows.get? ((i + wm.get_windows.length - 1) % wm.get_windows.length) ∧
      (wm.focus_next_window).get_windows = wm.get_windows ∧
      (wm.focus_previous_window).get_windows = wm.get_windows) ∧
    (wm.get_windows = [] → wm.focus_next_window = wm ∧ wm.focus_previous_window = wm) := by
  constructor
  · intro i hi hnd hfocus
    refine ⟨focus_next_window_index wm i hnd hi hfocus,
      focus_previous_window_index wm i hnd hi hfocus, ?_, ?_⟩
    · rw [SRDWindowManager.focus_next_window]
      simp only [SRDWindowManager.get_windows]
      split
      · rfl
      · split
        · rfl
        · split_ifs <;> rfl
    · rw [SRDWindowManager.focus_previous_window]
      simp only [SRDWindowManager.get_windows]
      split
      · rfl
      · split
        · rfl
        · split_ifs <;> rfl
  · intro hempty
    have h : wm.windows_ = [] := hempty
    constructor
    · rw [SRDWindowManager.focus_next_window]; simp only [h]
    · rw [SRDWindowManager.focus_previous_window]; simp only [h]

/-- The scenario of C14: windows `[A, B, C]` at addresses 1, 2, 3; with the
focus on `C`, `focus_next_window` yields `A`; with the focus on `A`,
`focus_previous_window` yields `C`. -/
theorem focus_cycling_witness :
    ((example_manager.focus_window (some 3)).focus_next_window).get_focused_window = some 1 ∧
    ((example_manager.focus_window (some 1)).focus_previous_window).get_focused_window = some 3 :=
  ⟨((focus_cycling (example_manager.focus_window (some 3))).1 2 (by decide) (by decide) rfl).1,
   ((focus_cycling (example_manager.focus_window (some 1))).1 0 (by decide) (by decide) rfl).2.1⟩

/-! ## Smart placement: the end-to-end grid scenario -/

theorem SmartPlacement.grid_size_six (monitor : Monitor) :
    SmartPlacement.calculate_optimal_grid_size monitor 6 = 3 := by
  simp [SmartPlacement.calculate_optimal_grid_size, SmartPlacement.ceil_sqrt,
    SmartPlacement.ceil_sqrt_from]

/-- C15. Monitor with origin `(0, 0)`, width 1920 and height 1080, any five
existing windows, and `place_in_grid` for a sixth window as the first grid
placement (cell counter `0`): the result has `success = true`, is the cell at
`(10, 10)` and has the cell size of grid size 3: width `(1920 - 4*10)/3 = 626`,
height `(1080 - 4*10)/3 = 346`; the counter becomes `1`. -/
theorem place_in_grid_sixth_window (window : SRDWindow) (monitor : Monitor)
    (existing_windows : List SRDWindow) (hx : monitor.x = 0) (hy : monitor.y = 0)
    (hw : monitor.width = 1920) (hh : monitor.height = 1080)
    (hfive : existing_windows.length = 5) :
    SmartPlacement.place_in_grid window monitor existing_windows 0
      = (⟨10, 10, 626, 346, true, "Grid placement successful"⟩, 1) := by
  have hc : toInt32 (toSizeT ((existing_windows.length : Int) + 1)) = 6 := by
    rw [hfive, toSizeT_of_nonneg _ (by norm_num) (by norm_num),
      toInt32_of_range _ (by norm_num) (by norm_num)]
    norm_num
  have hcw : Int.tdiv (1920 - (3 + 1) * 10) 3 = 626 := by decide
  have hch : Int.tdiv (1080 - (3 + 1) * 10) 3 = 346 := by decide
  have hv : SmartPlacement.is_position_valid 10 10 626 346 monitor = true := by
    rw [SmartPlacement.is_position_valid_iff, hx, hy, hw, hh]
    decide
  rw [SmartPlacement.place_in_grid]
  simp only [hc, SmartPlacement.grid_size_six, SmartPlacement.GRID_MARGIN,
    SmartPlacement.MIN_WINDOW_WIDTH, SmartPlacement.MIN_WINDOW_HEIGHT,
    SmartPlacement.calculate_grid_position, hx, hy, hw, hh, hcw, hch]
  have e1 : max (626 : Int) 200 = 626 := by decide
  have e2 : max (346 : Int) 150 = 346 := by decide
  have e3 : (0 : Int) + 10 + Int.tmod 0 2 * (626 + 10) = 10 := by decide
  have e4 : (0 : Int) + 10 + Int.tdiv 0 2 * (346 + 10) = 10 := by decide
  have e5 : ¬ ((3 : Int) ≤ 0) := by decide
  simp only [e1, e2, e3, e4, e5, if_false, hv, if_true]
  rfl

/-- The scenario of C15 with the five windows of the test fixture. -/
theorem place_in_grid_sixth_window_witness :
    SmartPlacement.place_in_grid ⟨6, "New Window", 0, 0, 400, 300, true⟩
      ⟨0, 0, 0, 1920, 1080, "", 60⟩
      [⟨1, "Window 1", 100, 100, 400, 300, true⟩, ⟨2, "Window 2", 150, 150, 400, 300, true⟩,
        ⟨3, "Window 3", 200, 200, 400, 300, true⟩, ⟨4, "Window 4", 250, 250, 400, 300, true⟩,
        ⟨5, "Window 5", 300, 300, 400, 300, true⟩] 0
      = (⟨10, 10, 626, 346, true, "Grid placement successful"⟩, 1) :=
  place_in_grid_sixth_window _ _ _ rfl rfl rfl rfl rfl

/-! ## Window manager: edge codes -/

/-- C16, as stated, fails: `start_window_resize` does not look at the edge code.
On a fresh (idle) manager, the call with edge code `0`, `6` or `-1` starts a
resize session and stores the code. -/
theorem start_window_resize_accepts_bad_edge :
    ((SRDWindowManager.new.start_window_resize (fun _ => ⟨1, "w", 100, 100, 400, 300, true⟩)
        (some 1) 495 200 0).is_resizing = true ∧
     (SRDWindowManager.new.start_window_resize (fun _ => ⟨1, "w", 100, 100, 400, 300, true⟩)
        (some 1) 495 200 0).resize_edge_ = 0) ∧
    ((SRDWindowManager.new.start_window_resize (fun _ => ⟨1, "w", 100, 100, 400, 300, true⟩)
        (some 1) 495 200 6).is_resizing = true ∧
     (SRDWindowManager.new.start_window_resize (fun _ => ⟨1, "w", 100, 100, 400, 300, true⟩)
        (some 1) 495 200 6).resize_edge_ = 6) ∧
    ((SRDWindowManager.new.start_window_resize (fun _ => ⟨1, "w", 100, 100, 400, 300, true⟩)
        (some 1) 495 200 (-1)).is_resizing = true ∧
     (SRDWindowManager.new.start_window_resize (fun _ => ⟨1, "w", 100, 100, 400, 300, true⟩)
        (some 1) 495 200 (-1)).resize_edge_ = -1) := by
  decide

/-- C16, amended.  In every state without a resize session (in particular every
idle state), for every non-null window, pointer position and edge code, inside
`1..5` or not, `start_window_resize` starts the session: `is_resizing()` becomes
true and the session holds the window, the pointer position, the size of the
window and the edge code as given. -/
theorem start_window_resize_any_edge (wm : SRDWindowManager) (heap : Heap) (w : WindowPtr)
    (x y edge : Int) (hidle : wm.is_resizing = false) :
    (wm.start_window_resize heap (some w) x y edge).is_resizing = true ∧
    (wm.start_window_resize heap (some w) x y edge).resizing_window_ = some w ∧
    (wm.start_window_resize heap (some w) x y edge).resize_start_x_ = x ∧
    (wm.start_window_resize heap (some w) x y edge).resize_start_y_ = y ∧
    (wm.start_window_resize heap (some w) x y edge).resize_start_width_ = (heap w).getWidth ∧
    (wm.start_window_resize heap (some w) x y edge).resize_start_height_ = (heap w).getHeight ∧
    (wm.start_window_resize heap (some w) x y edge).resize_edge_ = edge := by
  have h : wm.resizing_window_.isSome = false := hidle
  simp [SRDWindowManager.start_window_resize, SRDWindowManager.is_resizing, h]

/-- An instance of the amended C16: fresh manager, window of size 400x300, edge
code `6`. -/
theorem start_window_resize_any_edge_witness :
    SRDWindowManager.new.is_resizing = false ∧
    (SRDWindowManager.new.start_window_resize (fun _ => ⟨1, "w", 100, 100, 400, 300, true⟩)
      (some 1) 495 200 6).is_resizing = true ∧
    (SRDWindowManager.new.start_window_resize (fun _ => ⟨1, "w", 100, 100, 400, 300, true⟩)
      (some 1) 495 200 6).resize_edge_ = 6 :=
  ⟨rfl,
    (start_window_resize_any_edge SRDWindowManager.new
      (fun _ => ⟨1, "w", 100, 100, 400, 300, true⟩) 1 495 200 6 rfl).1,
    (start_window_resize_any_edge SRDWindowManager.new
      (fun _ => ⟨1, "w", 100, 100, 400, 300, true⟩) 1 495 200 6 rfl).2.2.2.2.2.2⟩

/-! ## Smart placement: overlap -/

/-- C17. `windows_overlap` is symmetric. -/
theorem windows_overlap_symmetric (a b : SRDWindow) :
    SmartPlacement.windows_overlap a b = SmartPlacement.windows_overlap b a := by
  simp only [SmartPlacement.windows_overlap]
  congr 1
  simp only [Bool.or_assoc, Bool.or_comm, Bool.or_left_comm]

/-! ## Scripting interface: layout names -/

theorem LayoutEngine.get_layout_name_set_layout (e : LayoutEngine) (monitor_id other : Int)
    (name : String) (hname : name = "tiling" ∨ name = "dynamic" ∨ name = "floating") :
    (e.set_layout monitor_id name).2.get_layout_name monitor_id = name ∧
    (other ≠ monitor_id →
      (e.set_layout monitor_id name).2.get_layout_name other = e.get_layout_name other) := by
  rcases hname with rfl | rfl | rfl <;>
    simp [LayoutEngine.set_layout, LayoutEngine.string_to_layout_type,
      LayoutEngine.set_layout_type, LayoutEngine.get_layout_name, LayoutEngine.get_layout,
      LayoutEngine.layout_type_to_string, StdMap.find, StdMap.assign] <;>
    intro h1 <;> simp [h1]

/-- C20. A `LuaManager` with no layout engine connected, as in the test:
`set_layout(0, "tiling")` returns `true` and stores nothing, and
`get_layout_name(0)` answers `"dynamic"`, not `"tiling"`. -/
theorem lua_set_layout_without_engine_not_stored :
    (LuaManager.new.set_layout 0 "tiling").1 = true ∧
    (LuaManager.new.set_layout 0 "tiling").2.get_layout_name 0 = "dynamic" ∧
    (LuaManager.new.set_layout 0 "tiling").2.get_layout_name 0 ≠ "tiling" ∧
    (LuaManager.new.set_layout 0 "floating").2.get_layout_name 0 ≠ "floating" := by
  decide

/-! ## Window manager: key bindings -/

/-- C18. The key-binding table is last-registration-wins and matches the key
string exactly.  After `bind_key(k, a)` and `bind_key(k, b)`: a key press whose
`key_code_to_string` is `k` calls one action, `b`; after `unbind_key(k)` such a
press calls nothing; a key press whose string differs from `k` in any way calls
what it called before the two `bind_key` calls, which is nothing on a fresh
manager. -/
theorem key_binding_last_registration_wins (wm : SRDWindowManager) (k : String) (a b : Nat)
    (key_code modifiers : Int) :
    (SRDWindowManager.key_code_to_string key_code modifiers = k →
      (((wm.bind_key k a).bind_key k b).handle_key_press key_code modifiers).2 = some b ∧
      ((((wm.bind_key k a).bind_key k b).unbind_key k).handle_key_press
        key_code modifiers).2 = none) ∧
    (SRDWindowManager.key_code_to_string key_code modifiers ≠ k →
      (((wm.bind_key k a).bind_key k b).handle_key_press key_code modifiers).2
        = (wm.handle_key_press key_code modifiers).2 ∧
      (((SRDWindowManager.new.bind_key k a).bind_key k b).handle_key_press
        key_code modifiers).2 = none) := by
  constructor
  · intro hk
    simp [SRDWindowManager.handle_key_press, SRDWindowManager.bind_key,
      SRDWindowManager.unbind_key, StdMap.find, StdMap.assign, StdMap.erase, hk]
  · intro hk
    simp [SRDWindowManager.handle_key_press, SRDWindowManager.bind_key,
      SRDWindowManager.new, StdMap.find, StdMap.assign, StdMap.empty, hk]

/-- An instance of C18: `k = "Mod4+T"`, produced by key code 84 (`'T'`) with
modifier mask 8; the press with key code 116 (`'t'`) gives `"Mod4+Key116"`. -/
theorem key_binding_last_registration_wins_witness :
    SRDWindowManager.key_code_to_string 84 8 = "Mod4+T" ∧
    (((SRDWindowManager.new.bind_key "Mod4+T" 1).bind_key "Mod4+T" 2).handle_key_press
      84 8).2 = some 2 ∧
    SRDWindowManager.key_code_to_string 116 8 ≠ "Mod4+T" ∧
    (((SRDWindowManager.new.bind_key "Mod4+T" 1).bind_key "Mod4+T" 2).handle_key_press
      116 8).2 = none :=
  ⟨by decide,
    ((key_binding_last_registration_wins SRDWindowManager.new "Mod4+T" 1 2 84 8).1
      (by decide)).1,
    by decide,
    ((key_binding_last_registration_wins SRDWindowManager.new "Mod4+T" 1 2 116 8).2
      (by decide)).2⟩

theorem SRDWindowManager.key_char_not_lower (key_code : Int)
    (h : (65 ≤ key_code ∧ key_code ≤ 90) ∨ (48 ≤ key_code ∧ key_code ≤ 57)) :
    Char.ofNat key_code.toNat ≠ 'q' ∧ Char.ofNat key_code.toNat ≠ 't' ∧
    Char.ofNat key_code.toNat ≠ 'b' ∧ Char.ofNat key_code.toNat ≠ 'n' := by
  obtain ⟨n, rfl⟩ : ∃ n : Nat, key_code = (n : Int) :=
    ⟨key_code.toNat, (Int.toNat_of_nonneg (by omega)).symm⟩
  simp only [Int.toNat_ofNat]
  rcases h with ⟨h1, h2⟩ | ⟨h1, h2⟩
  · have h1' : 65 ≤ n := by exact_mod_cast h1
    have h2' : n ≤ 90 := by exact_mod_cast h2
    interval_cases n <;> decide
  · have h1' : 48 ≤ n := by exact_mod_cast h1
    have h2' : n ≤ 57 := by exact_mod_cast h2
    interval_cases n <;> decide

/-- C19. No key code and modifier mask make `key_code_to_string` produce
`"Mod4+Shift+q"` (the exit binding of `main`), `"Mod4+Shift+1"`, `"Mod4+Tab"`,
`"Mod4+t"` or `"Mod4+Return"`: the modifiers are written in the order Ctrl,
Shift, Alt, Mod4, and the key is an upper-case letter, a digit or
`Key<code>`.  So `handle_key_press` never finds the actions bound to these
strings. -/
theorem advertised_key_bindings_unreachable (key_code modifiers : Int) :
    SRDWindowManager.key_code_to_string key_code modifiers ≠ "Mod4+Shift+q" ∧
    SRDWindowManager.key_code_to_string key_code modifiers ≠ "Mod4+Shift+1" ∧
    SRDWindowManager.key_code_to_string key_code modifiers ≠ "Mod4+Tab" ∧
    SRDWindowManager.key_code_to_string key_code modifiers ≠ "Mod4+t" ∧
    SRDWindowManager.key_code_to_string key_code modifiers ≠ "Mod4+Return" := by
  have key : ∀ target : String,
      target = "Mod4+Shift+q" ∨ target = "Mod4+Shift+1" ∨ target = "Mod4+Tab" ∨
        target = "Mod4+t" ∨ target = "Mod4+Return" →
      SRDWindowManager.key_code_to_string key_code modifiers ≠ target := by
    intro target ht h
    have hd := congrArg String.data h
    simp only [SRDWindowManager.key_code_to_string] at hd
    generalize SRDWindowManager.modifier_set modifiers 1 = ctrl at hd
    generalize SRDWindowManager.modifier_set modifiers 2 = shift at hd
    generalize SRDWindowManager.modifier_set modifiers 4 = alt at hd
    generalize SRDWindowManager.modifier_set modifiers 8 = mod4 at hd
    rw [SRDWindowManager.key_chars] at hd
    split_ifs at hd with hletter hdigit
    · have hc := SRDWindowManager.key_char_not_lower key_code (Or.inl hletter)
      generalize Char.ofNat key_code.toNat = c at hd hc
      rcases ht with rfl | rfl | rfl | rfl | rfl <;>
        cases ctrl <;> cases shift <;> cases alt <;> cases mod4 <;>
        simp [SRDWindowManager.modifier_chars] at hd <;>
        simp [hd] at hc
    · have hc := SRDWindowManager.key_char_not_lower key_code (Or.inr hdigit)
      generalize Char.ofNat key_code.toNat = c at hd hc
      rcases ht with rfl | rfl | rfl | rfl | rfl <;>
        cases ctrl <;> cases shift <;> cases alt <;> cases mod4 <;>
        simp [SRDWindowManager.modifier_chars] at hd <;>
        simp [hd] at hc
    · generalize (toString key_code).data = digits at hd
      rcases ht with rfl | rfl | rfl | rfl | rfl <;>
        cases ctrl <;> cases shift <;> cases alt <;> cases mod4 <;>
        simp [SRDWindowManager.modifier_chars] at hd
  exact ⟨key _ (Or.inl rfl), key _ (Or.inr (Or.inl rfl)), key _ (Or.inr (Or.inr (Or.inl rfl))),
    key _ (Or.inr (Or.inr (Or.inr (Or.inl rfl)))),
    key _ (Or.inr (Or.inr (Or.inr (Or.inr rfl))))⟩

/-! ## Window manager: the workspace invariant -/

theorem modify_workspace_map_id (workspace_id : Int) (f : Workspace → Workspace)
    (hf : ∀ w, (f w).id = w.id) (workspaces : List Workspace) :
    (modify_workspace workspace_id f workspaces).map (fun w => w.id)
      = workspaces.map fun w => w.id := by
  induction workspaces with
  | nil => rfl
  | cons w0 rest ih =>
    simp only [modify_workspace]
    split_ifs with h
    · simp [hf]
    · simp [ih]

theorem modify_workspace_mem (workspace_id : Int) (f : Workspace → Workspace)
    (hf : ∀ w, (f w).id = w.id) (workspaces : List Workspace)
    (hnd : (workspaces.map fun w => w.id).Nodup) :
    ∀ w' ∈ modify_workspace workspace_id f workspaces,
      (w'.id = workspace_id ∧ ∃ w ∈ workspaces, w.id = workspace_id ∧ w' = f w) ∨
      (w'.id ≠ workspace_id ∧ w' ∈ workspaces) := by
  induction workspaces with
  | nil => intro w' hw'; simp [modify_workspace] at hw'
  | cons w0 rest ih =>
    intro w' hw'
    have hnd' := List.nodup_cons.mp hnd
    simp only [modify_workspace] at hw'
    split_ifs at hw' with h
    · rcases List.mem_cons.mp hw' with rfl | hrest
      · exact Or.inl ⟨by rw [hf, h], w0, by simp, h, rfl⟩
      · refine Or.inr ⟨?_, by simp [hrest]⟩
        intro hid
        apply hnd'.1
        have hmem := List.mem_map_of_mem (fun w => w.id) hrest
        have he : w0.id = w'.id := by rw [h, hid]
        simpa [he] using hmem
    · rcases List.mem_cons.mp hw' with rfl | hrest
      · exact Or.inr ⟨h, by simp⟩
      · rcases ih hnd'.2 w' hrest with ⟨hid, w, hw, hwid, hfw⟩ | ⟨hid, hmem⟩
        · exact Or.inl ⟨hid, w, by simp [hw], hwid, hfw⟩
        · exact Or.inr ⟨hid, by simp [hmem]⟩

theorem modify_workspace_windows_mem (workspace_id : Int) (p : WindowPtr)
    (workspaces : List Workspace) :
    ∀ x ∈ workspace_windows (modify_workspace workspace_id
        (fun w => { w with windows := w.windows ++ [p] }) workspaces),
      x = p ∨ x ∈ workspace_windows workspaces := by
  induction workspaces with
  | nil => intro x hx; simp [modify_workspace, workspace_windows] at hx
  | cons w0 rest ih =>
    intro x hx
    simp only [modify_workspace] at hx
    split_ifs at hx with h
    · simp only [workspace_windows, List.map_cons, List.flatten_cons, List.mem_append,
        List.mem_singleton] at hx ⊢
      tauto
    · simp only [workspace_windows, List.map_cons, List.flatten_cons, List.mem_append] at hx ⊢
      rcases hx with hx | hx
      · exact Or.inr (Or.inl hx)
      · rcases ih x hx with h1 | h1
        · exact Or.inl h1
        · exact Or.inr (Or.inr h1)

theorem modify_workspace_windows_nodup (workspace_id : Int) (p : WindowPtr)
    (workspaces : List Workspace) (hnd : (workspace_windows workspaces).Nodup)
    (hp : p ∉ workspace_windows workspaces) :
    (workspace_windows (modify_workspace workspace_id
      (fun w => { w with windows := w.windows ++ [p] }) workspaces)).Nodup := by
  induction workspaces with
  | nil => simp [modify_workspace, workspace_windows]
  | cons w0 rest ih =>
    simp only [workspace_windows, List.map_cons, List.flatten_cons] at hnd hp
    have hnd' := List.nodup_append.mp hnd
    have hp' : p ∉ w0.windows ∧ p ∉ workspace_windows rest := by
      simpa [workspace_windows] using hp
    simp only [modify_workspace]
    split_ifs with h
    · simp only [workspace_windows, List.map_cons, List.flatten_cons]
      rw [List.nodup_append]
      refine ⟨?_, hnd'.2.1, ?_⟩
      · rw [List.nodup_append]
        refine ⟨hnd'.1, List.nodup_singleton p, ?_⟩
        intro a ha hb
        rw [List.mem_singleton] at hb
        exact hp'.1 (hb ▸ ha)
      · intro a ha hb
        rcases List.mem_append.mp ha with ha | ha
        · exact hnd'.2.2 ha hb
        · rw [List.mem_singleton] at ha
          exact hp'.2 (ha ▸ hb)
    · simp only [workspace_windows, List.map_cons, List.flatten_cons]
      rw [List.nodup_append]
      refine ⟨hnd'.1, ih hnd'.2.1 hp'.2, ?_⟩
      intro a ha hb
      rcases modify_workspace_windows_mem workspace_id p rest a hb with h1 | h1
      · exact hp'.1 (h1 ▸ ha)
      · exact hnd'.2.2 ha h1

theorem remove_from_first_workspace_map_id (p : WindowPtr) (workspaces : List Workspace) :
    (remove_from_first_workspace p workspaces).map (fun w => w.id)
      = workspaces.map fun w => w.id := by
  induction workspaces with
  | nil => rfl
  | cons w0 rest ih =>
    simp only [remove_from_first_workspace]
    split_ifs with h
    · simp
    · simp [ih]

theorem remove_from_first_workspace_mem (p : WindowPtr) (workspaces : List Workspace) :
    ∀ w' ∈ remove_from_first_workspace p workspaces,
      ∃ w ∈ workspaces, w'.id = w.id ∧ w'.visible = w.visible := by
  induction workspaces with
  | nil => intro w' hw'; simp [remove_from_first_workspace] at hw'
  | cons w0 rest ih =>
    intro w' hw'
    simp only [remove_from_first_workspace] at hw'
    split_ifs at hw' with h
    · rcases List.mem_cons.mp hw' with rfl | hrest
      · exact ⟨w0, by simp, rfl, rfl⟩
      · exact ⟨w', by simp [hrest], rfl, rfl⟩
    · rcases List.mem_cons.mp hw' with rfl | hrest
      · exact ⟨w', by simp, rfl, rfl⟩
      · obtain ⟨w, hw, h1, h2⟩ := ih w' hrest
        exact ⟨w, by simp [hw], h1, h2⟩

theorem remove_from_first_workspace_windows (p : WindowPtr) (workspaces : List Workspace) :
    workspace_windows (remove_from_first_workspace p workspaces)
      = (workspace_windows workspaces).erase p := by
  induction workspaces with
  | nil => rfl
  | cons w0 rest ih =>
    simp only [remove_from_first_workspace]
    split_ifs with h
    · simp only [workspace_windows, List.map_cons, List.flatten_cons]
      rw [List.erase_append_left _ h]
    · simp only [workspace_windows, List.map_cons, List.flatten_cons] at ih ⊢
      rw [List.erase_append_right _ h, ih]

theorem erase_workspace_sublist (workspace_id : Int) (workspaces : List Workspace) :
    (erase_workspace workspace_id workspaces).Sublist workspaces := by
  induction workspaces with
  | nil => exact List.Sublist.refl _
  | cons w0 rest ih =>
    simp only [erase_workspace]
    split_ifs with h
    · exact List.sublist_cons_self w0 rest
    · exact List.Sublist.cons₂ w0 ih

theorem workspace_windows_sublist {l1 l2 : List Workspace} (h : l1.Sublist l2) :
    (workspace_windows l1).Sublist (workspace_windows l2) := by
  induction h with
  | slnil => exact List.Sublist.refl _
  | cons a _ ih =>
    simp only [workspace_windows, List.map_cons, List.flatten_cons] at ih ⊢
    exact List.Sublist.trans ih (List.sublist_append_right _ _)
  | cons₂ a _ ih =>
    simp only [workspace_windows, List.map_cons, List.flatten_cons] at ih ⊢
    exact List.Sublist.append (List.Sublist.refl _) ih

theorem modify_workspace_shape (workspace_id : Int) (f : Workspace → Workspace)
    (hf : ∀ w, (f w).id = w.id ∧ (f w).visible = w.visible) (workspaces : List Workspace) :
    ∀ w' ∈ modify_workspace workspace_id f workspaces,
      ∃ w ∈ workspaces, w'.id = w.id ∧ w'.visible = w.visible := by
  induction workspaces with
  | nil => intro w' hw'; simp [modify_workspace] at hw'
  | cons w0 rest ih =>
    intro w' hw'
    simp only [modify_workspace] at hw'
    split_ifs at hw' with h
    · rcases List.mem_cons.mp hw' with rfl | hrest
      · exact ⟨w0, by simp, (hf w0).1, (hf w0).2⟩
      · exact ⟨w', by simp [hrest], rfl, rfl⟩
    · rcases List.mem_cons.mp hw' with rfl | hrest
      · exact ⟨w', by simp, rfl, rfl⟩
      · obtain ⟨w, hw, h1, h2⟩ := ih w' hrest
        exact ⟨w, by simp [hw], h1, h2⟩

theorem modify_workspace_windows_same (workspace_id : Int) (f : Workspace → Workspace)
    (hf : ∀ w, (f w).windows = w.windows) (workspaces : List Workspace) :
    workspace_windows (modify_workspace workspace_id f workspaces)
      = workspace_windows workspaces := by
  induction workspaces with
  | nil => rfl
  | cons w0 rest ih =>
    simp only [modify_workspace]
    split_ifs with h
    · simp [workspace_windows, hf]
    · simp only [workspace_windows, List.map_cons, List.flatten_cons] at ih ⊢
      rw [ih]

theorem mem_of_map_id_eq {l1 l2 : List Workspace}
    (h : l1.map (fun w => w.id) = l2.map fun w => w.id) :
    ∀ w' ∈ l1, ∃ w ∈ l2, w'.id = w.id := by
  intro w' hw'
  have hm : w'.id ∈ l2.map fun w => w.id := by
    rw [← h]
    exact List.mem_map_of_mem (fun w => w.id) hw'
  obtain ⟨w, hw, hid⟩ := List.mem_map.mp hm
  exact ⟨w, hw, hid.symm⟩

theorem WorkspacesInv.of_fields {wm wm' : SRDWindowManager} (h : WorkspacesInv wm)
    (h1 : wm'.workspaces_ = wm.workspaces_)
    (h2 : wm'.next_workspace_id_ = wm.next_workspace_id_)
    (h3 : wm'.current_workspace_ = wm.current_workspace_) : WorkspacesInv wm' := by
  unfold WorkspacesInv at h ⊢
  rw [h1, h2, h3]
  exact h

theorem WorkspacesInv.new : WorkspacesInv SRDWindowManager.new := by
  simp [WorkspacesInv, SRDWindowManager.new, workspace_windows]

theorem WorkspacesInv.move_window_to_workspace {wm : SRDWindowManager} (h : WorkspacesInv wm)
    (window : Option WindowPtr) (workspace_id : Int) :
    WorkspacesInv (wm.move_window_to_workspace window workspace_id) ∧
    (wm.move_window_to_workspace window workspace_id).current_workspace_
      = wm.current_workspace_ := by
  cases window with
  | none => exact ⟨h, rfl⟩
  | some p =>
    rw [SRDWindowManager.move_window_to_workspace]
    cases hg : wm.get_workspace workspace_id with
    | none => exact ⟨h, rfl⟩
    | some target =>
      refine ⟨?_, rfl⟩
      obtain ⟨ha, hb, hc, hd⟩ := h
      have hid : (modify_workspace workspace_id
          (fun w => { w with windows := w.windows ++ [p] })
          (remove_from_first_workspace p wm.workspaces_)).map (fun w => w.id)
          = wm.workspaces_.map fun w => w.id := by
        rw [modify_workspace_map_id workspace_id
          (fun w => { w with windows := w.windows ++ [p] }) (fun _ => rfl),
          remove_from_first_workspace_map_id]
      have hshape : ∀ w' ∈ modify_workspace workspace_id
          (fun w => { w with windows := w.windows ++ [p] })
          (remove_from_first_workspace p wm.workspaces_),
          ∃ w ∈ wm.workspaces_, w'.id = w.id ∧ w'.visible = w.visible := by
        intro w' hw'
        obtain ⟨w1, hw1, e1, e2⟩ := modify_workspace_shape workspace_id
          (fun w => { w with windows := w.windows ++ [p] }) (fun _ => ⟨rfl, rfl⟩) _ w' hw'
        obtain ⟨w2, hw2, e3, e4⟩ := remove_from_first_workspace_mem p _ w1 hw1
        exact ⟨w2, hw2, e1.trans e3, e2.trans e4⟩
      refine ⟨?_, ?_, ?_, ?_⟩
      · show (List.map (fun w => w.id) (modify_workspace workspace_id _ _)).Nodup
        rw [hid]
        exact ha
      · intro w' hw'
        obtain ⟨w, hw, e1, _⟩ := hshape w' hw'
        show w'.id < wm.next_workspace_id_
        rw [e1]
        exact hb w hw
      · intro w' hw' hv
        obtain ⟨w, hw, e1, e2⟩ := hshape w' hw'
        show w'.id = wm.current_workspace_
        rw [e1]
        exact hc w hw (e2 ▸ hv)
      · show (workspace_windows (modify_workspace workspace_id _ _)).Nodup
        apply modify_workspace_windows_nodup
        · rw [remove_from_first_workspace_windows]
          exact List.Nodup.erase p hd
        · rw [remove_from_first_workspace_windows]
          intro hmem
          exact ((List.Nodup.mem_erase_iff hd).mp hmem).1 rfl

theorem WorkspacesInv.add_workspace {wm : SRDWindowManager} (h : WorkspacesInv wm)
    (name : String) : WorkspacesInv (wm.add_workspace name) := by
  obtain ⟨ha, hb, hc, hd⟩ := h
  have hfresh : wm.next_workspace_id_ ∉ wm.workspaces_.map fun w => w.id := by
    intro hmem
    obtain ⟨w, hw, hid⟩ := List.mem_map.mp hmem
    have hlt := hb w hw
    have hid' : w.id = wm.next_workspace_id_ := hid
    omega
  have hA : ((wm.workspaces_ ++ [Workspace.new wm.next_workspace_id_ name]).map
      fun w => w.id).Nodup := by
    rw [List.map_append, List.nodup_append]
    refine ⟨ha, by simp, ?_⟩
    intro a ha1 ha2
    have : a = wm.next_workspace_id_ := by simpa [Workspace.new] using ha2
    exact hfresh (this ▸ ha1)
  have hB : ∀ w ∈ wm.workspaces_ ++ [Workspace.new wm.next_workspace_id_ name],
      w.id < wm.next_workspace_id_ + 1 := by
    intro w hw
    rcases List.mem_append.mp hw with hw | hw
    · have := hb w hw
      omega
    · rw [List.mem_singleton] at hw
      subst hw
      simp [Workspace.new]
  have hD : (workspace_windows
      (wm.workspaces_ ++ [Workspace.new wm.next_workspace_id_ name])).Nodup := by
    simpa [workspace_windows, Workspace.new] using hd
  rw [SRDWindowManager.add_workspace]
  dsimp only
  split_ifs with hlen
  · refine ⟨hA, hB, ?_, hD⟩
    intro w hw hv
    have hnil : wm.workspaces_ = [] := by
      cases hws : wm.workspaces_ with
      | nil => rfl
      | cons a l => rw [hws] at hlen; simp at hlen
    rw [hnil] at hw
    simp only [List.nil_append, List.mem_singleton] at hw
    subst hw
    simp [Workspace.new] at hv
  · refine ⟨hA, hB, ?_, hD⟩
    intro w hw hv
    rcases List.mem_append.mp hw with hw | hw
    · exact hc w hw hv
    · rw [List.mem_singleton] at hw
      subst hw
      simp [Workspace.new] at hv

theorem WorkspacesInv.moves {windows : List WindowPtr} :
    ∀ wm : SRDWindowManager, WorkspacesInv wm →
      WorkspacesInv (windows.foldl
        (fun m window => m.move_window_to_workspace (some window) m.current_workspace_) wm) := by
  induction windows with
  | nil => intro wm h; exact h
  | cons p rest ih =>
    intro wm h
    exact ih _ (h.move_window_to_workspace (some p) wm.current_workspace_).1

theorem WorkspacesInv.erase {wm : SRDWindowManager} (h : WorkspacesInv wm)
    (workspace_id : Int) :
    WorkspacesInv { wm with workspaces_ := erase_workspace workspace_id wm.workspaces_ } := by
  obtain ⟨ha, hb, hc, hd⟩ := h
  have hsub := erase_workspace_sublist workspace_id wm.workspaces_
  refine ⟨List.Nodup.sublist (hsub.map _) ha, ?_, ?_,
    List.Nodup.sublist (workspace_windows_sublist hsub) hd⟩
  · intro w hw
    exact hb w (hsub.subset hw)
  · intro w hw hv
    exact hc w (hsub.subset hw) hv

theorem WorkspacesInv.remove_workspace {wm : SRDWindowManager} (h : WorkspacesInv wm)
    (workspace_id : Int) : WorkspacesInv (wm.remove_workspace workspace_id) := by
  rw [SRDWindowManager.remove_workspace]
  cases hg : wm.get_workspace workspace_id with
  | none => exact h
  | some workspace =>
    dsimp only
    split_ifs with hcur
    · exact (WorkspacesInv.moves wm h).erase workspace_id
    · exact h.erase workspace_id

theorem SRDWindowManager.get_workspace_of_mem (wm : SRDWindowManager) (workspace_id : Int)
    (hex : ∃ w ∈ wm.workspaces_, w.id = workspace_id) :
    ∃ target, wm.get_workspace workspace_id = some target := by
  cases hg : wm.get_workspace workspace_id with
  | some target => exact ⟨target, rfl⟩
  | none =>
    exfalso
    obtain ⟨w, hw, hid⟩ := hex
    rw [SRDWindowManager.get_workspace, List.find?_eq_none] at hg
    exact hg w hw (by simp [hid])

theorem SRDWindowManager.get_workspace_of_not_mem (wm : SRDWindowManager) (workspace_id : Int)
    (hno : ∀ w ∈ wm.workspaces_, w.id ≠ workspace_id) :
    wm.get_workspace workspace_id = none := by
  rw [SRDWindowManager.get_workspace, List.find?_eq_none]
  intro w hw
  simp [hno w hw]

theorem switch_to_workspace_existing {wm : SRDWindowManager} (h : WorkspacesInv wm)
    (heap : Heap) (workspace_id : Int)
    (hex : ∃ w ∈ wm.workspaces_, w.id = workspace_id) :
    (wm.switch_to_workspace heap workspace_id).1.current_workspace_ = workspace_id ∧
    (∀ w ∈ (wm.switch_to_workspace heap workspace_id).1.workspaces_,
      (w.visible = true ↔ w.id = workspace_id)) ∧
    ((wm.switch_to_workspace heap workspace_id).1.workspaces_.map (fun w => w.id)
      = wm.workspaces_.map fun w => w.id) ∧
    WorkspacesInv (wm.switch_to_workspace heap workspace_id).1 := by
  obtain ⟨target, hg⟩ := wm.get_workspace_of_mem workspace_id hex
  obtain ⟨ha, hb, hc, hd⟩ := h
  have hid1 : (modify_workspace wm.current_workspace_ (fun w => { w with visible := false })
      wm.workspaces_).map (fun w => w.id) = wm.workspaces_.map fun w => w.id :=
    modify_workspace_map_id wm.current_workspace_ (fun w => { w with visible := false })
      (fun _ => rfl) wm.workspaces_
  have hid2 : (modify_workspace workspace_id (fun w => { w with visible := true })
      (modify_workspace wm.current_workspace_ (fun w => { w with visible := false })
        wm.workspaces_)).map (fun w => w.id) = wm.workspaces_.map fun w => w.id := by
    rw [modify_workspace_map_id workspace_id (fun w => { w with visible := true })
      (fun _ => rfl), hid1]
  have hhidden : ∀ w ∈ modify_workspace wm.current_workspace_
      (fun w => { w with visible := false }) wm.workspaces_, w.visible = false := by
    intro w hw
    rcases modify_workspace_mem wm.current_workspace_ (fun w => { w with visible := false })
      (fun _ => rfl) wm.workspaces_ ha w hw with ⟨_, w0, _, _, rfl⟩ | ⟨hne, hmem⟩
    · rfl
    · cases hv : w.visible with
      | false => rfl
      | true => exact absurd (hc w hmem hv) hne
  have hvis : ∀ w ∈ modify_workspace workspace_id (fun w => { w with visible := true })
      (modify_workspace wm.current_workspace_ (fun w => { w with visible := false })
        wm.workspaces_), (w.visible = true ↔ w.id = workspace_id) := by
    intro w hw
    rcases modify_workspace_mem workspace_id (fun w => { w with visible := true })
      (fun _ => rfl) _ (hid1 ▸ ha) w hw with ⟨hid, w0, _, _, rfl⟩ | ⟨hne, hmem⟩
    · exact ⟨fun _ => hid, fun _ => rfl⟩
    · constructor
      · intro hv
        rw [hhidden w hmem] at hv
        exact absurd hv (by decide)
      · intro hid
        exact absurd hid hne
  have hres : (wm.switch_to_workspace heap workspace_id).1 =
      { wm with
        workspaces_ := modify_workspace workspace_id (fun w => { w with visible := true })
          (modify_workspace wm.current_workspace_ (fun w => { w with visible := false })
            wm.workspaces_)
        current_workspace_ := workspace_id } := by
    rw [SRDWindowManager.switch_to_workspace, hg]
  rw [hres]
  refine ⟨rfl, hvis, hid2, ?_, ?_, ?_, ?_⟩
  · show (List.map (fun w => w.id) (modify_workspace workspace_id _ _)).Nodup
    rw [hid2]
    exact ha
  · intro w hw
    obtain ⟨w0, hw0, e⟩ := mem_of_map_id_eq hid2 w hw
    show w.id < wm.next_workspace_id_
    rw [e]
    exact hb w0 hw0
  · intro w hw hv
    exact (hvis w hw).mp hv
  · show (workspace_windows (modify_workspace workspace_id _ _)).Nodup
    rw [modify_workspace_windows_same workspace_id (fun w => { w with visible := true })
      (fun _ => rfl),
      modify_workspace_windows_same wm.current_workspace_
        (fun w => { w with visible := false }) (fun _ => rfl)]
    exact hd

theorem switch_to_workspace_missing (wm : SRDWindowManager) (heap : Heap)
    (workspace_id : Int) (hno : ∀ w ∈ wm.workspaces_, w.id ≠ workspace_id) :
    wm.switch_to_workspace heap workspace_id = (wm, heap) := by
  rw [SRDWindowManager.switch_to_workspace, wm.get_workspace_of_not_mem workspace_id hno]

theorem WorkspacesInv.switch_to_workspace {wm : SRDWindowManager} (h : WorkspacesInv wm)
    (heap : Heap) (workspace_id : Int) :
    WorkspacesInv (wm.switch_to_workspace heap workspace_id).1 := by
  by_cases hex : ∃ w ∈ wm.workspaces_, w.id = workspace_id
  · exact (switch_to_workspace_existing h heap workspace_id hex).2.2.2
  · rw [switch_to_workspace_missing wm heap workspace_id
      (fun w hw hid => hex ⟨w, hw, hid⟩)]
    exact h

theorem WorkspacesInv.workspace_op {state : SRDWindowManager × Heap}
    (h : WorkspacesInv state.1) (op : WorkspaceOp) : WorkspacesInv (op.apply state).1 := by
  cases op with
  | add name => exact h.add_workspace name
  | remove workspace_id => exact h.remove_workspace workspace_id
  | switch workspace_id => exact h.switch_to_workspace state.2 workspace_id
  | move window workspace_id => exact (h.move_window_to_workspace window workspace_id).1

theorem WorkspacesInv.manager_op {state : SRDWindowManager × Heap}
    (h : WorkspacesInv state.1) (op : ManagerOp) : WorkspacesInv (op.apply state).1 := by
  cases op with
  | workspace op => exact h.workspace_op op
  | add_window window =>
    cases window with
    | none => exact h
    | some p =>
      cases hle : state.1.layout_engine_ <;>
        (refine h.of_fields ?_ ?_ ?_ <;>
          simp [ManagerOp.apply, SRDWindowManager.add_window, state_at_end, hle])
  | remove_window window =>
    refine h.of_fields ?_ ?_ ?_ <;>
      (simp only [ManagerOp.apply, SRDWindowManager.remove_window]; repeat' split) <;> rfl
  | focus_window window => exact h.of_fields rfl rfl rfl
  | focus_next_window =>
    refine h.of_fields ?_ ?_ ?_ <;>
      (simp only [ManagerOp.apply, SRDWindowManager.focus_next_window]; repeat' split) <;> rfl
  | focus_previous_window =>
    refine h.of_fields ?_ ?_ ?_ <;>
      (simp only [ManagerOp.apply, SRDWindowManager.focus_previous_window]; repeat' split) <;>
      rfl
  | start_window_drag window x y =>
    refine h.of_fields ?_ ?_ ?_ <;>
      (simp only [ManagerOp.apply, SRDWindowManager.start_window_drag]; repeat' split) <;> rfl
  | start_window_resize window x y edge =>
    refine h.of_fields ?_ ?_ ?_ <;>
      (simp only [ManagerOp.apply, SRDWindowManager.start_window_resize]; repeat' split) <;> rfl
  | update_window_drag x y => exact h
  | update_window_resize x y => exact h
  | end_window_drag =>
    refine h.of_fields ?_ ?_ ?_ <;>
      (simp only [ManagerOp.apply, SRDWindowManager.end_window_drag]; repeat' split) <;> rfl
  | end_window_resize =>
    refine h.of_fields ?_ ?_ ?_ <;>
      (simp only [ManagerOp.apply, SRDWindowManager.end_window_resize]; repeat' split) <;> rfl
  | set_layout_engine engine => exact h.of_fields rfl rfl rfl
  | bind_key key_combination action => exact h.of_fields rfl rfl rfl
  | unbind_key key_combination =>
    refine h.of_fields ?_ ?_ ?_ <;>
      (simp only [ManagerOp.apply, SRDWindowManager.unbind_key]; repeat' split) <;> rfl
  | handle_key_press key_code modifiers => exact h.of_fields rfl rfl rfl

theorem WorkspacesInv.run_manager_ops (heap : Heap) (ops : List ManagerOp) :
    WorkspacesInv (run_manager_ops heap ops).1 := by
  unfold SRDWM.run_manager_ops
  exact foldl_invariant (fun state : SRDWindowManager × Heap => WorkspacesInv state.1)
    ManagerOp.apply (fun state op h => WorkspacesInv.manager_op h op) ops _ WorkspacesInv.new

theorem run_workspace_ops_eq (heap : Heap) (ops : List WorkspaceOp) :
    run_workspace_ops heap ops = run_manager_ops heap (ops.map ManagerOp.workspace) := by
  unfold run_workspace_ops run_manager_ops
  rw [List.foldl_map]
  rfl

theorem WorkspacesInv.run_workspace_ops (heap : Heap) (ops : List WorkspaceOp) :
    WorkspacesInv (run_workspace_ops heap ops).1 := by
  rw [run_workspace_ops_eq]
  exact WorkspacesInv.run_manager_ops heap _

/-- C12. In every state reached from a fresh manager by `add_workspace`,
`remove_workspace`, `switch_to_workspace` and `move_window_to_workspace` calls:
`switch_to_workspace(id)` with the id of an existing workspace ends with
`get_current_workspace() = id` and with `visible` true for exactly the workspaces
whose id is `id` (the ids of the workspaces are as before); with an id that no
workspace has, the call changes nothing. -/
theorem switch_to_workspace_visibility (heap : Heap) (ops : List WorkspaceOp)
    (workspace_id : Int) :
    ((∃ w ∈ (run_workspace_ops heap ops).1.get_workspaces, w.id = workspace_id) →
      ((run_workspace_ops heap ops).1.switch_to_workspace (run_workspace_ops heap ops).2
        workspace_id).1.get_current_workspace = workspace_id ∧
      (∀ w ∈ ((run_workspace_ops heap ops).1.switch_to_workspace (run_workspace_ops heap ops).2
        workspace_id).1.get_workspaces, (w.visible = true ↔ w.id = workspace_id)) ∧
      (((run_workspace_ops heap ops).1.switch_to_workspace (run_workspace_ops heap ops).2
        workspace_id).1.get_workspaces.map (fun w => w.id)
        = (run_workspace_ops heap ops).1.get_workspaces.map fun w => w.id)) ∧
    ((∀ w ∈ (run_workspace_ops heap ops).1.get_workspaces, w.id ≠ workspace_id) →
      (run_workspace_ops heap ops).1.switch_to_workspace (run_workspace_ops heap ops).2
        workspace_id = run_workspace_ops heap ops) := by
  have hinv := WorkspacesInv.run_workspace_ops heap ops
  constructor
  · intro hex
    have h := switch_to_workspace_existing hinv (run_workspace_ops heap ops).2 workspace_id hex
    exact ⟨h.1, h.2.1, h.2.2.1⟩
  · intro hno
    exact switch_to_workspace_missing _ _ workspace_id hno

/-- An instance of C12: after `add_workspace("A")`, `add_workspace("B")`,
`switch_to_workspace(2)`, the call `switch_to_workspace(1)` makes workspace 1
current and the only visible one. -/
theorem switch_to_workspace_visibility_witness :
    (∃ w ∈ (run_workspace_ops (fun _ => SRDWindow.new 0 "")
        [WorkspaceOp.add "A", WorkspaceOp.add "B", WorkspaceOp.switch 2]).1.get_workspaces,
      w.id = 1) ∧
    ((run_workspace_ops (fun _ => SRDWindow.new 0 "")
        [WorkspaceOp.add "A", WorkspaceOp.add "B", WorkspaceOp.switch 2]).1.switch_to_workspace
      (run_workspace_ops (fun _ => SRDWindow.new 0 "")
        [WorkspaceOp.add "A", WorkspaceOp.add "B", WorkspaceOp.switch 2]).2
      1).1.get_current_workspace = 1 ∧
    ((run_workspace_ops (fun _ => SRDWindow.new 0 "")
        [WorkspaceOp.add "A", WorkspaceOp.add "B", WorkspaceOp.switch 2]).1.switch_to_workspace
      (run_workspace_ops (fun _ => SRDWindow.new 0 "")
        [WorkspaceOp.add "A", WorkspaceOp.add "B", WorkspaceOp.switch 2]).2
      1).1.get_workspaces
      = [⟨1, "A", [], "tiling", true⟩, ⟨2, "B", [], "tiling", false⟩] :=
  ⟨⟨⟨1, "A", [], "tiling", false⟩, by decide, rfl⟩,
    ((switch_to_workspace_visibility (fun _ => SRDWindow.new 0 "")
      [WorkspaceOp.add "A", WorkspaceOp.add "B", WorkspaceOp.switch 2] 1).1
      ⟨⟨1, "A", [], "tiling", false⟩, by decide, rfl⟩).1,
    by decide⟩

theorem not_mem_windows_of_not_mem_workspace_windows {p : WindowPtr}
    {workspaces : List Workspace} (hp : p ∉ workspace_windows workspaces) :
    ∀ w ∈ workspaces, p ∉ w.windows := by
  intro w hw hmem
  apply hp
  simp only [workspace_windows, List.mem_flatten, List.mem_map]
  exact ⟨w.windows, ⟨w, hw, rfl⟩, hmem⟩

theorem move_window_to_workspace_existing {wm : SRDWindowManager} (h : WorkspacesInv wm)
    (p : WindowPtr) (workspace_id : Int)
    (hex : ∃ w ∈ wm.workspaces_, w.id = workspace_id) :
    (∃ target ∈ (wm.move_window_to_workspace (some p) workspace_id).workspaces_,
      target.id = workspace_id) ∧
    (∀ w ∈ (wm.move_window_to_workspace (some p) workspace_id).workspaces_,
      (w.id = workspace_id → w.windows.count p = 1) ∧
      (w.id ≠ workspace_id → p ∉ w.windows)) := by
  obtain ⟨target, hg⟩ := wm.get_workspace_of_mem workspace_id hex
  obtain ⟨ha, _, _, hd⟩ := h
  have hres : (wm.move_window_to_workspace (some p) workspace_id).workspaces_ =
      modify_workspace workspace_id (fun w => { w with windows := w.windows ++ [p] })
        (remove_from_first_workspace p wm.workspaces_) := by
    rw [SRDWindowManager.move_window_to_workspace, hg]
  have hid1 := remove_from_first_workspace_map_id p wm.workspaces_
  have hid2 : (modify_workspace workspace_id (fun w => { w with windows := w.windows ++ [p] })
      (remove_from_first_workspace p wm.workspaces_)).map (fun w => w.id)
      = wm.workspaces_.map fun w => w.id := by
    rw [modify_workspace_map_id workspace_id
      (fun w => { w with windows := w.windows ++ [p] }) (fun _ => rfl), hid1]
  have hp : p ∉ workspace_windows (remove_from_first_workspace p wm.workspaces_) := by
    rw [remove_from_first_workspace_windows]
    intro hmem
    exact ((List.Nodup.mem_erase_iff hd).mp hmem).1 rfl
  have hpw := not_mem_windows_of_not_mem_workspace_windows hp
  rw [hres]
  constructor
  · obtain ⟨w, hw, hid⟩ := hex
    have hm : workspace_id ∈ (modify_workspace workspace_id
        (fun w => { w with windows := w.windows ++ [p] })
        (remove_from_first_workspace p wm.workspaces_)).map fun w => w.id := by
      rw [hid2, ← hid]
      exact List.mem_map_of_mem (fun w => w.id) hw
    obtain ⟨t, ht, htid⟩ := List.mem_map.mp hm
    exact ⟨t, ht, htid⟩
  · intro w hw
    rcases modify_workspace_mem workspace_id (fun w => { w with windows := w.windows ++ [p] })
      (fun _ => rfl) _ (hid1 ▸ ha) w hw with ⟨hid, w0, hw0, _, rfl⟩ | ⟨hne, hmem⟩
    · constructor
      · intro _
        simp [List.count_eq_zero_of_not_mem (hpw w0 hw0)]
      · intro hne
        exact absurd hid hne
    · exact ⟨fun hid => absurd hid hne, fun _ => hpw w hmem⟩

theorem move_window_to_workspace_missing (wm : SRDWindowManager) (window : Option WindowPtr)
    (workspace_id : Int) (hno : ∀ w ∈ wm.workspaces_, w.id ≠ workspace_id) :
    wm.move_window_to_workspace window workspace_id = wm := by
  cases window with
  | none => rfl
  | some p =>
    rw [SRDWindowManager.move_window_to_workspace,
      wm.get_workspace_of_not_mem workspace_id hno]

/-- C13. In every state reached from a fresh manager through its operations:
after `move_window_to_workspace(w, id)` with `w` non-null and `id` the id of an
existing workspace, there is a workspace with that id, `w` occurs exactly once
in the window list of each workspace with that id and in the window list of no
other workspace; with an id that no workspace has, or with a null window, the
manager is unchanged. -/
theorem move_window_to_workspace_membership (heap : Heap) (ops : List ManagerOp)
    (w : WindowPtr) (window : Option WindowPtr) (workspace_id : Int) :
    ((∃ ws ∈ (run_manager_ops heap ops).1.get_workspaces, ws.id = workspace_id) →
      (∃ target ∈ ((run_manager_ops heap ops).1.move_window_to_workspace (some w)
          workspace_id).get_workspaces, target.id = workspace_id) ∧
      (∀ ws ∈ ((run_manager_ops heap ops).1.move_window_to_workspace (some w)
          workspace_id).get_workspaces,
        (ws.id = workspace_id → ws.windows.count w = 1) ∧
        (ws.id ≠ workspace_id → w ∉ ws.windows))) ∧
    ((∀ ws ∈ (run_manager_ops heap ops).1.get_workspaces, ws.id ≠ workspace_id) →
      (run_manager_ops heap ops).1.move_window_to_workspace window workspace_id
        = (run_manager_ops heap ops).1) ∧
    ((run_manager_ops heap ops).1.move_window_to_workspace none workspace_id
        = (run_manager_ops heap ops).1) := by
  have hinv := WorkspacesInv.run_manager_ops heap ops
  refine ⟨?_, ?_, rfl⟩
  · intro hex
    exact move_window_to_workspace_existing hinv w workspace_id hex
  · intro hno
    exact move_window_to_workspace_missing _ window workspace_id hno

/-- An instance of C13: workspaces 1 and 2, window 7 in workspace 1 and focused;
`move_window_to_workspace(7, 2)` leaves it in workspace 2 only. -/
theorem move_window_to_workspace_membership_witness :
    (∃ ws ∈ (run_manager_ops (fun _ => SRDWindow.new 0 "")
        [ManagerOp.workspace (WorkspaceOp.add "A"), ManagerOp.workspace (WorkspaceOp.add "B"),
          ManagerOp.focus_window (some 7),
          ManagerOp.workspace (WorkspaceOp.move (some 7) 1)]).1.get_workspaces, ws.id = 2) ∧
    ((run_manager_ops (fun _ => SRDWindow.new 0 "")
        [ManagerOp.workspace (WorkspaceOp.add "A"), ManagerOp.workspace (WorkspaceOp.add "B"),
          ManagerOp.focus_window (some 7),
          ManagerOp.workspace (WorkspaceOp.move (some 7) 1)]).1.move_window_to_workspace
      (some 7) 2).get_workspaces
      = [⟨1, "A", [], "tiling", false⟩, ⟨2, "B", [7], "tiling", false⟩] ∧
    (∀ ws ∈ ((run_manager_ops (fun _ => SRDWindow.new 0 "")
        [ManagerOp.workspace (WorkspaceOp.add "A"), ManagerOp.workspace (WorkspaceOp.add "B"),
          ManagerOp.focus_window (some 7),
          ManagerOp.workspace (WorkspaceOp.move (some 7) 1)]).1.move_window_to_workspace
      (some 7) 2).get_workspaces,
      (ws.id = 2 → ws.windows.count 7 = 1) ∧ (ws.id ≠ 2 → 7 ∉ ws.windows)) :=
  ⟨⟨⟨2, "B", [], "tiling", false⟩, by decide, rfl⟩, by decide,
    ((move_window_to_workspace_membership (fun _ => SRDWindow.new 0 "")
      [ManagerOp.workspace (WorkspaceOp.add "A"), ManagerOp.workspace (WorkspaceOp.add "B"),
        ManagerOp.focus_window (some 7),
        ManagerOp.workspace (WorkspaceOp.move (some 7) 1)] 7 none 2).1
      ⟨⟨2, "B", [], "tiling", false⟩, by decide, rfl⟩).2⟩

/-! ## Window manager: updates of drag and resize sessions -/

/-- C21. From a manager without a drag session, `start_window_drag(w, x, y)` on
a non-null window starts a session, and `end_window_drag()` right after it ends
the session: every window object (so the x, y, width and height of every window)
is as before the two calls, `is_dragging()` is false again, and `is_resizing()`
is as it was. -/
theorem start_end_drag_geometry_unchanged (wm : SRDWindowManager) (heap : Heap)
    (w : WindowPtr) (x y : Int) (hidle : wm.is_dragging = false) :
    ((ManagerOp.apply (wm, heap) (ManagerOp.start_window_drag (some w) x y)).1.is_dragging
        = true) ∧
    (ManagerOp.apply (ManagerOp.apply (wm, heap) (ManagerOp.start_window_drag (some w) x y))
        ManagerOp.end_window_drag).2 = heap ∧
    (ManagerOp.apply (ManagerOp.apply (wm, heap) (ManagerOp.start_window_drag (some w) x y))
        ManagerOp.end_window_drag).1.is_dragging = false ∧
    (ManagerOp.apply (ManagerOp.apply (wm, heap) (ManagerOp.start_window_drag (some w) x y))
        ManagerOp.end_window_drag).1.is_resizing = wm.is_resizing := by
  simp only [SRDWindowManager.is_dragging] at hidle
  simp [ManagerOp.apply, SRDWindowManager.start_window_drag, SRDWindowManager.end_window_drag,
    SRDWindowManager.is_dragging, SRDWindowManager.is_resizing, hidle]

theorem start_end_drag_geometry_unchanged_witness :
    SRDWindowManager.new.is_dragging = false ∧
    (ManagerOp.apply (ManagerOp.apply (SRDWindowManager.new, example_heap)
        (ManagerOp.start_window_drag (some 1) 150 110)) ManagerOp.end_window_drag).2
      = example_heap :=
  ⟨by decide,
    (start_end_drag_geometry_unchanged SRDWindowManager.new example_heap 1 150 110
      (by decide)).2.1⟩

/-- C25, as stated, fails for a window wider or taller than the placeholder
bound.  A window of width 2000 and height 1200 at `(0, 0)`, dragged from the
pointer position `(10, 10)`: after `update_window_drag(15, 15)` the window is at
`(0, 0)` with its size unchanged, and `x + width = 2000 > 1920`,
`y + height = 1200 > 1080`. -/
theorem update_window_drag_large_window_exceeds_bound :
    (SRDWindowManager.new.start_window_drag large_window_heap (some 1) 10 10).is_dragging
      = true ∧
    (((SRDWindowManager.new.start_window_drag large_window_heap (some 1) 10
        10).update_window_drag large_window_heap 15 15) 1)
      = ⟨1, "w", 0, 0, 2000, 1200, true⟩ ∧
    ¬ ((((SRDWindowManager.new.start_window_drag large_window_heap (some 1) 10
        10).update_window_drag large_window_heap 15 15) 1).getX +
      (((SRDWindowManager.new.start_window_drag large_window_heap (some 1) 10
        10).update_window_drag large_window_heap 15 15) 1).getWidth ≤ 1920) ∧
    ¬ ((((SRDWindowManager.new.start_window_drag large_window_heap (some 1) 10
        10).update_window_drag large_window_heap 15 15) 1).getY +
      (((SRDWindowManager.new.start_window_drag large_window_heap (some 1) 10
        10).update_window_drag large_window_heap 15 15) 1).getHeight ≤ 1080) := by
  decide

/-- C25, amended.  Without a drag session `update_window_drag` changes no window
object.  With a drag session on the window at `p`, `update_window_drag(x, y)`
changes only that window, and of it only the position: the new x is the
session-start x of the window plus the pointer delta, clamped first from above
to `1920 - width` and then from below to `0` (likewise y with `1080 - height`).
So `0 ≤ x` and `0 ≤ y` always hold afterwards, `x + width ≤ 1920` holds when the
width is at most 1920, and `y + height ≤ 1080` when the height is at most 1080. -/
theorem update_window_drag_clamped (wm : SRDWindowManager) (heap : Heap) (x y : Int) :
    (wm.is_dragging = false → wm.update_window_drag heap x y = heap) ∧
    (∀ p : WindowPtr, wm.dragging_window_ = some p →
      (∀ q : WindowPtr, q ≠ p → (wm.update_window_drag heap x y) q = heap q) ∧
      ((wm.update_window_drag heap x y) p) =
        { heap p with
          x_ := max 0 (min (wm.drag_start_window_x_ + (x - wm.drag_start_x_))
            (1920 - (heap p).getWidth))
          y_ := max 0 (min (wm.drag_start_window_y_ + (y - wm.drag_start_y_))
            (1080 - (heap p).getHeight)) } ∧
      ((wm.update_window_drag heap x y) p).getWidth = (heap p).getWidth ∧
      ((wm.update_window_drag heap x y) p).getHeight = (heap p).getHeight ∧
      0 ≤ ((wm.update_window_drag heap x y) p).getX ∧
      0 ≤ ((wm.update_window_drag heap x y) p).getY ∧
      ((heap p).getWidth ≤ 1920 →
        ((wm.update_window_drag heap x y) p).getX + ((wm.update_window_drag heap x y) p).getWidth
          ≤ 1920) ∧
      ((heap p).getHeight ≤ 1080 →
        ((wm.update_window_drag heap x y) p).getY +
          ((wm.update_window_drag heap x y) p).getHeight ≤ 1080)) := by
  constructor
  · intro h
    have h1 : wm.dragging_window_ = none := by
      simpa [SRDWindowManager.is_dragging] using h
    simp [SRDWindowManager.update_window_drag, h1]
  · intro p hp
    have e : wm.update_window_drag heap x y = heap.store p ((heap p).setPosition
        (max 0 (min (wm.drag_start_window_x_ + (x - wm.drag_start_x_))
          (1920 - (heap p).getWidth)))
        (max 0 (min (wm.drag_start_window_y_ + (y - wm.drag_start_y_))
          (1080 - (heap p).getHeight)))) := by
      simp [SRDWindowManager.update_window_drag, hp]
    rw [e]
    refine ⟨fun q hq => Heap.store_other _ _ _ _ hq, ?_⟩
    rw [Heap.store_same]
    simp only [SRDWindowManager.update_window_drag, SRDWindow.setPosition, SRDWindow.getX,
      SRDWindow.getY, SRDWindow.getWidth, SRDWindow.getHeight]
    refine ⟨trivial, trivial, trivial, le_max_left _ _, le_max_left _ _, ?_, ?_⟩
    · intro hw
      rcases max_cases (0 : Int) (min (wm.drag_start_window_x_ + (x - wm.drag_start_x_))
        (1920 - (heap p).width_)) with h | h
      · rw [h.1]; omega
      · rw [h.1]
        have := min_le_right (wm.drag_start_window_x_ + (x - wm.drag_start_x_))
          (1920 - (heap p).width_)
        omega
    · intro hh
      rcases max_cases (0 : Int) (min (wm.drag_start_window_y_ + (y - wm.drag_start_y_))
        (1080 - (heap p).height_)) with h | h
      · rw [h.1]; omega
      · rw [h.1]
        have := min_le_right (wm.drag_start_window_y_ + (y - wm.drag_start_y_))
          (1080 - (heap p).height_)
        omega

theorem update_window_drag_clamped_witness :
    (SRDWindowManager.new.start_window_drag example_heap (some 1) 150 110).dragging_window_
      = some 1 ∧
    (example_heap 1).getWidth ≤ 1920 ∧
    (((SRDWindowManager.new.start_window_drag example_heap (some 1) 150
        110).update_window_drag example_heap 2000 10) 1).getX +
      (((SRDWindowManager.new.start_window_drag example_heap (some 1) 150
        110).update_window_drag example_heap 2000 10) 1).getWidth ≤ 1920 ∧
    (((SRDWindowManager.new.start_window_drag example_heap (some 1) 150
        110).update_window_drag example_heap 2000 10) 1) = ⟨1, "w", 1520, 0, 400, 300, true⟩ :=
  ⟨by decide, by decide,
    ((update_window_drag_clamped
      (SRDWindowManager.new.start_window_drag example_heap (some 1) 150 110) example_heap 2000
      10).2 1 (by decide)).2.2.2.2.2.2.1 (by decide),
    by decide⟩

/-- C23. The left and top edge cases of `update_window_resize` take the pointer
position of the start of the session (`resize_start_x_`, `resize_start_y_`) for
the window's left and top edge.  Window `(100, 100, 400, 300)`, so
`x0 + w0 = 500` and `y0 + h0 = 400`.  A resize session with edge code 1 started
with the pointer at `(103, 200)`, then `update_window_resize(103, 200)` at the
pointer-down position: the window becomes `(103, 100, 400, 300)`, so
`x + width = 503`.  With edge code 3 started at `(250, 104)` and updated at
`(250, 104)`: the window becomes `(100, 104, 400, 300)`, so `y + height = 404`.
Neither the minimum of 100 nor the bound 1920 by 1080 applies in either case. -/
theorem update_window_resize_left_top_use_pointer_origin :
    ((SRDWindowManager.new.start_window_resize example_heap (some 1) 103 200
        1).update_window_resize example_heap 103 200) 1
      = ⟨1, "w", 103, 100, 400, 300, true⟩ ∧
    (((SRDWindowManager.new.start_window_resize example_heap (some 1) 103 200
        1).update_window_resize example_heap 103 200) 1).getX +
      (((SRDWindowManager.new.start_window_resize example_heap (some 1) 103 200
        1).update_window_resize example_heap 103 200) 1).getWidth
      ≠ (example_heap 1).getX + (example_heap 1).getWidth ∧
    ((SRDWindowManager.new.start_window_resize example_heap (some 1) 250 104
        3).update_window_resize example_heap 250 104) 1
      = ⟨1, "w", 100, 104, 400, 300, true⟩ ∧
    (((SRDWindowManager.new.start_window_resize example_heap (some 1) 250 104
        3).update_window_resize example_heap 250 104) 1).getY +
      (((SRDWindowManager.new.start_window_resize example_heap (some 1) 250 104
        3).update_window_resize example_heap 250 104) 1).getHeight
      ≠ (example_heap 1).getY + (example_heap 1).getHeight := by
  decide

/-! ## Layout engine: windows the engine does not hold -/

theorem LayoutEngine.mem_windows_of_mem_get_windows_on_monitor (e : LayoutEngine) (heap : Heap)
    (monitor_id : Int) (p : WindowPtr) (h : p ∈ e.get_windows_on_monitor heap monitor_id) :
    p ∈ e.windows_ := by
  unfold LayoutEngine.get_windows_on_monitor at h
  split at h
  · simp at h
  · exact (List.mem_filter.mp h).1

theorem TilingLayout.arrange_windows_untouched (windows : List WindowPtr) (monitor : Monitor)
    (heap : Heap) (p : WindowPtr) (hp : p ∉ windows) :
    TilingLayout.arrange_windows windows monitor heap p = heap p := by
  unfold TilingLayout.arrange_windows
  split
  · rfl
  · exact TilingLayout.loop_untouched _ _ _ _ _ _ hp

theorem LayoutEngine.arrange_on_monitor_untouched (e : LayoutEngine) (monitor : Monitor)
    (heap : Heap) (p : WindowPtr) (hp : p ∉ e.get_windows_on_monitor heap monitor.id) :
    e.arrange_on_monitor monitor heap p = heap p := by
  unfold LayoutEngine.arrange_on_monitor
  cases e.active_layouts_.find monitor.id with
  | none => rfl
  | some current_layout_type =>
    cases current_layout_type with
    | TILING => exact TilingLayout.arrange_windows_untouched _ _ _ _ hp
    | DYNAMIC => rfl
    | FLOATING => rfl

theorem LayoutEngine.arrange_all_monitors_untouched (e : LayoutEngine) (heap : Heap)
    (p : WindowPtr) (hp : p ∉ e.windows_) : e.arrange_all_monitors heap p = heap p := by
  unfold LayoutEngine.arrange_all_monitors
  refine foldl_invariant (fun h : Heap => h p = heap p)
    (fun h monitor => e.arrange_on_monitor monitor h) ?_ e.monitors_ heap rfl
  intro h monitor hh
  show e.arrange_on_monitor monitor h p = heap p
  rw [LayoutEngine.arrange_on_monitor_untouched e monitor h p
    (fun hm => hp (LayoutEngine.mem_windows_of_mem_get_windows_on_monitor e h monitor.id p hm))]
  exact hh

/-- C26. With a layout engine `e` connected, `add_window(w)` on a non-null
window appends the window to the manager's collection and calls
`LayoutEngine::add_window` with the null pointer that `release()` left behind,
which leaves the engine as it was; the call then stops at its log statement,
which dereferences that null pointer.  At that statement the collection holds
the window and the engine is `e`.  So a window that the engine does not hold is
not in its list, `get_windows_on_monitor` does not return it for any monitor and
any window geometry, and `arrange_all_monitors` does not change it.  With a null
argument `add_window` returns and changes nothing. -/
theorem manager_add_window_not_registered (wm : SRDWindowManager) (e : LayoutEngine)
    (w : WindowPtr) (hengine : wm.layout_engine_ = some e) (hnew : w ∉ e.windows_) :
    (wm.add_window (some w)).isOk = false ∧
    (state_at_end (wm.add_window (some w))).get_windows = wm.get_windows ++ [w] ∧
    (state_at_end (wm.add_window (some w))).layout_engine_ = some e ∧
    wm.add_window none = Except.ok wm ∧
    ∀ e1 : LayoutEngine, (state_at_end (wm.add_window (some w))).layout_engine_ = some e1 →
      e1.windows_ = e.windows_ ∧
      ∀ heap : Heap,
        (∀ monitor_id : Int, w ∉ e1.get_windows_on_monitor heap monitor_id) ∧
        e1.arrange_all_monitors heap w = heap w := by
  obtain ⟨h0, h1, h2⟩ := SRDWindowManager.add_window_non_null wm w
  rw [hengine] at h2
  refine ⟨h0, h1, h2, rfl, ?_⟩
  intro e1 he1
  rw [h2] at he1
  have he : e1 = e := (Option.some.inj he1).symm
  subst he
  refine ⟨rfl, fun heap => ⟨fun monitor_id hm => hnew
    (LayoutEngine.mem_windows_of_mem_get_windows_on_monitor e1 heap monitor_id w hm),
    LayoutEngine.arrange_all_monitors_untouched e1 heap w hnew⟩⟩

theorem manager_add_window_not_registered_witness :
    tiling_manager.layout_engine_ = some tiling_engine ∧
    (7 : WindowPtr) ∉ tiling_engine.windows_ ∧
    (tiling_manager.add_window (some 7)).isOk = false ∧
    (state_at_end (tiling_manager.add_window (some 7))).get_windows = [7] ∧
    (state_at_end (tiling_manager.add_window (some 7))).layout_engine_ = some tiling_engine ∧
    tiling_engine.get_windows_on_monitor example_heap 0 = [1, 2] :=
  ⟨rfl, by decide,
    (manager_add_window_not_registered tiling_manager tiling_engine 7 rfl (by decide)).1,
    (manager_add_window_not_registered tiling_manager tiling_engine 7 rfl (by decide)).2.1,
    (manager_add_window_not_registered tiling_manager tiling_engine 7 rfl (by decide)).2.2.1,
    by decide⟩

/-! ## Layout engine: arranging a Tiling monitor twice -/

theorem TilingLayout.loop_same_rest (monitor : Monitor) (ww : Int) (windows : List WindowPtr) :
    ∀ (cx : Int) (heap : Heap) (q : WindowPtr),
      (TilingLayout.arrange_windows_loop monitor ww windows cx heap q).setDimensions 0 0 0 0 =
        (heap q).setDimensions 0 0 0 0 := by
  induction windows with
  | nil => intro cx heap q; rfl
  | cons a rest ih =>
    intro cx heap q
    simp only [TilingLayout.arrange_windows_loop]
    rw [ih]
    by_cases hq : q = a
    · subst hq
      rw [Heap.store_same]
      rfl
    · rw [Heap.store_other _ _ _ _ hq]

theorem TilingLayout.loop_congr (monitor : Monitor) (ww : Int) (windows : List WindowPtr) :
    ∀ (cx : Int) (h1 h2 : Heap),
      (∀ q, (h1 q).setDimensions 0 0 0 0 = (h2 q).setDimensions 0 0 0 0) →
      ∀ p ∈ windows, TilingLayout.arrange_windows_loop monitor ww windows cx h1 p =
        TilingLayout.arrange_windows_loop monitor ww windows cx h2 p := by
  induction windows with
  | nil => intro cx h1 h2 _ p hp; simp at hp
  | cons a rest ih =>
    intro cx h1 h2 h12 p hp
    simp only [TilingLayout.arrange_windows_loop]
    have ha : ((h1 a).setPosition cx monitor.y).setDimensions cx monitor.y ww monitor.height =
        ((h2 a).setPosition cx monitor.y).setDimensions cx monitor.y ww monitor.height := by
      have := h12 a
      simp only [SRDWindow.setDimensions, SRDWindow.setPosition, SRDWindow.mk.injEq] at this ⊢
      simp [this.1, this.2.1, this.2.2.2.2.2.2]
    by_cases hr : p ∈ rest
    · apply ih _ _ _ _ p hr
      intro q
      by_cases hq : q = a
      · subst hq
        rw [Heap.store_same, Heap.store_same, ha]
      · rw [Heap.store_other _ _ _ _ hq, Heap.store_other _ _ _ _ hq]
        exact h12 q
    · have hpa : p = a := by
        rcases List.mem_cons.mp hp with h | h
        · exact h
        · exact absurd h hr
      subst hpa
      rw [TilingLayout.loop_untouched _ _ _ _ _ _ hr, TilingLayout.loop_untouched _ _ _ _ _ _ hr,
        Heap.store_same, Heap.store_same, ha]

theorem TilingLayout.loop_idempotent (monitor : Monitor) (ww : Int) (windows : List WindowPtr)
    (cx : Int) (heap : Heap) :
    TilingLayout.arrange_windows_loop monitor ww windows cx
        (TilingLayout.arrange_windows_loop monitor ww windows cx heap) =
      TilingLayout.arrange_windows_loop monitor ww windows cx heap := by
  funext p
  by_cases hp : p ∈ windows
  · exact TilingLayout.loop_congr monitor ww windows cx _ _
      (fun q => TilingLayout.loop_same_rest monitor ww windows cx heap q) p hp
  · rw [TilingLayout.loop_untouched _ _ _ _ _ _ hp]

theorem TilingLayout.loop_geometry (monitor : Monitor) (ww : Int) (windows : List WindowPtr) :
    ∀ (cx : Int) (heap : Heap), ∀ p ∈ windows, ∃ i : Nat, i < windows.length ∧
      (TilingLayout.arrange_windows_loop monitor ww windows cx heap p).getX = cx + (i : Int) * ww ∧
      (TilingLayout.arrange_windows_loop monitor ww windows cx heap p).getY = monitor.y ∧
      (TilingLayout.arrange_windows_loop monitor ww windows cx heap p).getWidth = ww ∧
      (TilingLayout.arrange_windows_loop monitor ww windows cx heap p).getHeight
        = monitor.height := by
  induction windows with
  | nil => intro cx heap p hp; simp at hp
  | cons a rest ih =>
    intro cx heap p hp
    simp only [TilingLayout.arrange_windows_loop]
    by_cases hr : p ∈ rest
    · obtain ⟨i, hi, hx, hy, hw, hh⟩ := ih (cx + ww) (heap.store a
        (((heap a).setPosition cx monitor.y).setDimensions cx monitor.y ww monitor.height)) p hr
      refine ⟨i + 1, by simp; omega, ?_, hy, hw, hh⟩
      rw [hx]
      push_cast
      ring
    · have hpa : p = a := by
        rcases List.mem_cons.mp hp with h | h
        · exact h
        · exact absurd h hr
      subst hpa
      rw [TilingLayout.loop_untouched _ _ _ _ _ _ hr, Heap.store_same]
      exact ⟨0, by simp, by simp [SRDWindow.setDimensions, SRDWindow.getX], rfl, rfl, rfl⟩

theorem TilingLayout.arrange_windows_on_monitor (windows : List WindowPtr) (monitor : Monitor)
    (heap : Heap) (hW : 0 < monitor.width) (hW2 : monitor.width < 2 ^ 31)
    (hH : 0 < monitor.height) (p : WindowPtr) (hp : p ∈ windows) :
    LayoutEngine.is_window_on_monitor (TilingLayout.arrange_windows windows monitor heap)
      (some p) monitor = true := by
  have hne : windows.isEmpty = false := by
    cases windows with
    | nil => simp at hp
    | cons a rest => rfl
  have hlen : 0 < windows.length := List.length_pos_of_mem hp
  have hn : (0 : Int) < (windows.length : Int) := by exact_mod_cast hlen
  have hq0 : 0 ≤ monitor.width / (windows.length : Int) :=
    Int.ediv_nonneg (le_of_lt hW) (le_of_lt hn)
  have hqle : monitor.width / (windows.length : Int) ≤ monitor.width :=
    Int.ediv_le_self _ (le_of_lt hW)
  have hmul : monitor.width / (windows.length : Int) * (windows.length : Int) ≤ monitor.width :=
    Int.ediv_mul_le _ (ne_of_gt hn)
  have hww : toInt32 (toSizeT monitor.width / (windows.length : Int))
      = monitor.width / (windows.length : Int) := by
    rw [toSizeT_of_nonneg _ (le_of_lt hW) hW2]
    exact toInt32_of_range _ (by omega) (by omega)
  unfold TilingLayout.arrange_windows
  rw [hne]
  simp only [Bool.false_eq_true, if_false]
  rw [hww]
  obtain ⟨i, hi, hx, hy, hw, hh⟩ := TilingLayout.loop_geometry monitor
    (monitor.width / (windows.length : Int)) windows monitor.x heap p hp
  simp only [LayoutEngine.is_window_on_monitor]
  rw [hx, hy, hw, hh]
  generalize monitor.width / (windows.length : Int) = ww at hq0 hqle hmul
  have hi1 : (i : Int) + 1 ≤ (windows.length : Int) := by exact_mod_cast hi
  have hi0 : (0 : Int) ≤ (i : Int) := Int.ofNat_nonneg i
  have hiw : 0 ≤ (i : Int) * ww := mul_nonneg hi0 hq0
  have hiw2 : ((i : Int) + 1) * ww ≤ (windows.length : Int) * ww :=
    mul_le_mul_of_nonneg_right hi1 hq0
  have ht : Int.tdiv ww 2 = ww / 2 := Int.tdiv_eq_ediv hq0 (by decide)
  have ht2 : Int.tdiv monitor.height 2 = monitor.height / 2 := Int.tdiv_eq_ediv (le_of_lt hH) (by decide)
  rw [ht, ht2]
  have e1 : ((i : Int) + 1) * ww = (i : Int) * ww + ww := by ring
  have e2 : (windows.length : Int) * ww = ww * (windows.length : Int) := by ring
  simp only [ge_iff_le, Bool.and_eq_true, decide_eq_true_eq]
  rcases eq_or_lt_of_le hq0 with h0 | hpos
  · have he0 : (i : Int) * ww = 0 := by rw [← h0]; ring
    refine ⟨⟨⟨?_, ?_⟩, ?_⟩, ?_⟩ <;> omega
  · refine ⟨⟨⟨?_, ?_⟩, ?_⟩, ?_⟩ <;> omega

theorem LayoutEngine.get_windows_on_monitor_eq (e : LayoutEngine) (monitor : Monitor)
    (heap : Heap)
    (hreg : e.monitors_.find? (fun k => decide (k.id = monitor.id)) = some monitor) :
    e.get_windows_on_monitor heap monitor.id =
      e.windows_.filter fun window => LayoutEngine.is_window_on_monitor heap (some window)
        monitor := by
  unfold LayoutEngine.get_windows_on_monitor
  rw [hreg]

/-- C30. For a monitor `m` of the engine (the one that the lookup by `m.id`
finds) with `0 < width < 2^31` and `0 < height` whose active layout is Tiling:
every window whose centre point is inside the bounds of `m` before
`arrange_on_monitor(m)` has its centre point inside them afterwards; every
window that is not among the engine's windows on `m` is left as it was; the
engine's windows on `m` are the same list afterwards; and a second
`arrange_on_monitor(m)` changes no window object. -/
theorem arrange_on_monitor_tiling_idempotent (e : LayoutEngine) (m : Monitor) (heap : Heap)
    (hlayout : e.active_layouts_.find m.id = some LayoutType.TILING)
    (hreg : e.monitors_.find? (fun k => decide (k.id = m.id)) = some m)
    (hW : 0 < m.width) (hW2 : m.width < 2 ^ 31) (hH : 0 < m.height) :
    (∀ p : WindowPtr, LayoutEngine.is_window_on_monitor heap (some p) m = true →
      LayoutEngine.is_window_on_monitor (e.arrange_on_monitor m heap) (some p) m = true) ∧
    (∀ p : WindowPtr, p ∉ e.get_windows_on_monitor heap m.id →
      e.arrange_on_monitor m heap p = heap p) ∧
    e.get_windows_on_monitor (e.arrange_on_monitor m heap) m.id
      = e.get_windows_on_monitor heap m.id ∧
    e.arrange_on_monitor m (e.arrange_on_monitor m heap) = e.arrange_on_monitor m heap := by
  have harr : ∀ h : Heap, e.arrange_on_monitor m h =
      TilingLayout.arrange_windows (e.get_windows_on_monitor h m.id) m h := by
    intro h
    unfold LayoutEngine.arrange_on_monitor
    rw [hlayout]
  have hun : ∀ p : WindowPtr, p ∉ e.get_windows_on_monitor heap m.id →
      e.arrange_on_monitor m heap p = heap p :=
    fun p hp => LayoutEngine.arrange_on_monitor_untouched e m heap p hp
  have hon : ∀ p : WindowPtr, p ∈ e.get_windows_on_monitor heap m.id →
      LayoutEngine.is_window_on_monitor (e.arrange_on_monitor m heap) (some p) m = true := by
    intro p hp
    rw [harr]
    exact TilingLayout.arrange_windows_on_monitor _ m heap hW hW2 hH p hp
  have hsame : ∀ p : WindowPtr, p ∉ e.get_windows_on_monitor heap m.id →
      LayoutEngine.is_window_on_monitor (e.arrange_on_monitor m heap) (some p) m =
        LayoutEngine.is_window_on_monitor heap (some p) m := by
    intro p hp
    simp only [LayoutEngine.is_window_on_monitor]
    rw [hun p hp]
  have hlist : e.get_windows_on_monitor (e.arrange_on_monitor m heap) m.id
      = e.get_windows_on_monitor heap m.id := by
    rw [LayoutEngine.get_windows_on_monitor_eq e m _ hreg,
      LayoutEngine.get_windows_on_monitor_eq e m heap hreg]
    apply List.filter_congr
    intro p hp
    by_cases hm : LayoutEngine.is_window_on_monitor heap (some p) m = true
    · have hmem : p ∈ e.get_windows_on_monitor heap m.id := by
        rw [LayoutEngine.get_windows_on_monitor_eq e m heap hreg]
        exact List.mem_filter.mpr ⟨hp, hm⟩
      rw [hon p hmem, hm]
    · have hmem : p ∉ e.get_windows_on_monitor heap m.id := by
        rw [LayoutEngine.get_windows_on_monitor_eq e m heap hreg]
        exact fun h => hm (List.mem_filter.mp h).2
      exact hsame p hmem
  refine ⟨?_, hun, hlist, ?_⟩
  · intro p hp
    by_cases hmem : p ∈ e.get_windows_on_monitor heap m.id
    · exact hon p hmem
    · rw [hsame p hmem]
      exact hp
  · rw [harr (e.arrange_on_monitor m heap), hlist, harr heap]
    unfold TilingLayout.arrange_windows
    split
    · rfl
    · exact TilingLayout.loop_idempotent _ _ _ _ _

theorem arrange_on_monitor_tiling_idempotent_witness :
    tiling_engine.active_layouts_.find 0 = some LayoutType.TILING ∧
    tiling_engine.get_windows_on_monitor example_heap 0 = [1, 2] ∧
    tiling_engine.arrange_on_monitor ⟨0, 0, 0, 1920, 1080, "", 60⟩
        (tiling_engine.arrange_on_monitor ⟨0, 0, 0, 1920, 1080, "", 60⟩ example_heap) =
      tiling_engine.arrange_on_monitor ⟨0, 0, 0, 1920, 1080, "", 60⟩ example_heap :=
  ⟨by decide, by decide,
    (arrange_on_monitor_tiling_idempotent tiling_engine ⟨0, 0, 0, 1920, 1080, "", 60⟩
      example_heap (by decide) (by decide) (by decide) (by decide) (by decide)).2.2.2⟩

/-! ## Smart placement: the grid cell counter -/

theorem tdiv_two_of_nonneg (c : Int) (h : 0 ≤ c) : c.tdiv 2 = c / 2 ∧ c.tmod 2 = c % 2 :=
  ⟨Int.tdiv_eq_ediv h (by decide), Int.tmod_eq_emod h (by decide)⟩

theorem tdiv_two_of_neg (c : Int) (h : c < 0) :
    c.tdiv 2 = -((-c) / 2) ∧ c.tmod 2 = -((-c) % 2) := by
  have h1 : c.tdiv 2 = -((-c) / 2) := by
    have e := Int.neg_tdiv (-c) 2
    rw [neg_neg] at e
    rw [e, Int.tdiv_eq_ediv (by omega) (by decide)]
  have h2 := Int.tdiv_add_tmod c 2
  refine ⟨h1, ?_⟩
  rw [h1] at h2
  omega

theorem SmartPlacement.grid_size_range (monitor : Monitor) (window_count : Int) :
    1 ≤ SmartPlacement.calculate_optimal_grid_size monitor window_count ∧
    SmartPlacement.calculate_optimal_grid_size monitor window_count ≤ 4 := by
  unfold SmartPlacement.calculate_optimal_grid_size
  split_ifs
  · decide
  · exact ⟨le_max_left _ _, max_le (by decide) (min_le_right _ _)⟩

theorem SmartPlacement.place_in_grid_eq (window : SRDWindow) (monitor : Monitor)
    (existing_windows : List SRDWindow) (window_counter g : Int)
    (hg : g = SmartPlacement.calculate_optimal_grid_size monitor
      (toInt32 (toSizeT ((existing_windows.length : Int) + 1)))) :
    (SmartPlacement.place_in_grid window monitor existing_windows window_counter).2
      = window_counter + 1 ∧
    ((SmartPlacement.place_in_grid window monitor existing_windows window_counter).1.success
        = true ↔
      SmartPlacement.is_position_valid
        (monitor.x + 10 + Int.tmod window_counter 2 *
          (max (Int.tdiv (monitor.width - (g + 1) * 10) g) 200 + 10))
        (monitor.y + 10 + Int.tdiv window_counter 2 *
          (max (Int.tdiv (monitor.height - (g + 1) * 10) g) 150 + 10))
        (max (Int.tdiv (monitor.width - (g + 1) * 10) g) 200)
        (max (Int.tdiv (monitor.height - (g + 1) * 10) g) 150) monitor = true) := by
  have hg1 := (SmartPlacement.grid_size_range monitor
    (toInt32 (toSizeT ((existing_windows.length : Int) + 1)))).1
  rw [← hg] at hg1
  have hng : ¬ g ≤ 0 := by omega
  rw [SmartPlacement.place_in_grid]
  simp only [← hg, hng, if_false, SmartPlacement.calculate_grid_position,
    SmartPlacement.GRID_MARGIN, SmartPlacement.MIN_WINDOW_WIDTH,
    SmartPlacement.MIN_WINDOW_HEIGHT]
  split_ifs with hv
  · exact ⟨rfl, fun _ => hv, fun _ => rfl⟩
  · refine ⟨rfl, fun h => ?_, fun h => absurd h hv⟩
    simp at h

theorem place_in_grid_calls_get (monitor : Monitor) :
    ∀ (calls : List (SRDWindow × List SRDWindow)) (c : Int) (i : Nat)
      (r : SmartPlacement.PlacementResult),
      (place_in_grid_calls monitor calls c)[i]? = some r →
      ∃ call ∈ calls, r = (SmartPlacement.place_in_grid call.1 monitor call.2 (c + (i : Int))).1 := by
  intro calls
  induction calls with
  | nil => intro c i r h; simp [place_in_grid_calls] at h
  | cons call rest ih =>
    intro c i r h
    cases i with
    | zero =>
      simp only [place_in_grid_calls, List.getElem?_cons_zero, Option.some.injEq] at h
      exact ⟨call, by simp, by rw [← h]; simp⟩
    | succ j =>
      simp only [place_in_grid_calls, List.getElem?_cons_succ] at h
      rw [(SmartPlacement.place_in_grid_eq call.1 monitor call.2 c _ rfl).1] at h
      obtain ⟨call1, hmem, hr⟩ := ih (c + 1) j r h
      refine ⟨call1, by simp [hmem], ?_⟩
      rw [hr]
      congr 2
      push_cast
      ring

theorem SmartPlacement.place_in_grid_fails_late (window : SRDWindow) (monitor : Monitor)
    (existing_windows : List SRDWindow) (c : Int)
    (hc : 2 * (monitor.height.toNat : Int) ≤ c) :
    (SmartPlacement.place_in_grid window monitor existing_windows c).1.success = false := by
  by_contra hs
  have hs1 : (SmartPlacement.place_in_grid window monitor existing_windows c).1.success
      = true := by simpa using hs
  have key := (SmartPlacement.place_in_grid_eq window monitor existing_windows c _ rfl).2.mp hs1
  rw [SmartPlacement.is_position_valid_iff] at key
  have hc0 : 0 ≤ c := by omega
  rw [(tdiv_two_of_nonneg c hc0).1] at key
  generalize max (Int.tdiv (monitor.height - (SmartPlacement.calculate_optimal_grid_size monitor
    (toInt32 (toSizeT ((existing_windows.length : Int) + 1))) + 1) * 10)
    (SmartPlacement.calculate_optimal_grid_size monitor
      (toInt32 (toSizeT ((existing_windows.length : Int) + 1))))) 150 = ch at key
  have hch : 150 ≤ ch := key.2.2.2.2.2
  have hgy : (monitor.height.toNat : Int) ≤ c / 2 := by omega
  have hH : monitor.height ≤ (monitor.height.toNat : Int) := Int.self_le_toNat _
  have hgy0 : 0 ≤ c / 2 := by omega
  have hmul : c / 2 * 1 ≤ c / 2 * (ch + 10) := mul_le_mul_of_nonneg_left (by omega) hgy0
  have hy := key.2.2.2.1
  omega

/-- C28. Every call of `place_in_grid` increments the cell counter by one.  For
every monitor there is a bound `K` (twice the height of the monitor will do) such
that `place_in_grid` returns `success = false` whenever the counter is at least
`K`, for every window and every list of existing windows; so in every sequence
of calls that starts with the counter at `0`, every call after the first `K`
fails.  For a monitor with origin `(0, 0)`, width 1920 and height 1080: every
call with counter at least 8 fails; with five existing windows the call succeeds
exactly for the counters `0` to `5`; with no existing window it succeeds exactly
for the counter `0`. -/
theorem place_in_grid_fails_after_finitely_many_calls :
    (∀ (window : SRDWindow) (monitor : Monitor) (existing_windows : List SRDWindow) (c : Int),
      (SmartPlacement.place_in_grid window monitor existing_windows c).2 = c + 1) ∧
    (∀ monitor : Monitor, ∃ K : Nat,
      (∀ (window : SRDWindow) (existing_windows : List SRDWindow) (c : Int), (K : Int) ≤ c →
        (SmartPlacement.place_in_grid window monitor existing_windows c).1.success = false) ∧
      (∀ (calls : List (SRDWindow × List SRDWindow)) (i : Nat)
        (r : SmartPlacement.PlacementResult), K ≤ i →
        (place_in_grid_calls monitor calls 0)[i]? = some r → r.success = false)) ∧
    (∀ (window : SRDWindow) (monitor : Monitor) (existing_windows : List SRDWindow) (c : Int),
      monitor.x = 0 → monitor.y = 0 → monitor.width = 1920 → monitor.height = 1080 →
      (8 ≤ c →
        (SmartPlacement.place_in_grid window monitor existing_windows c).1.success = false) ∧
      (existing_windows.length = 5 →
        ((SmartPlacement.place_in_grid window monitor existing_windows c).1.success = true ↔
          0 ≤ c ∧ c ≤ 5)) ∧
      (existing_windows = [] →
        ((SmartPlacement.place_in_grid window monitor existing_windows c).1.success = true ↔
          c = 0))) := by
  refine ⟨fun window monitor existing_windows c =>
    (SmartPlacement.place_in_grid_eq window monitor existing_windows c _ rfl).1, ?_, ?_⟩
  · intro monitor
    refine ⟨2 * monitor.height.toNat, ?_, ?_⟩
    · intro window existing_windows c hc
      exact SmartPlacement.place_in_grid_fails_late window monitor existing_windows c
        (by push_cast at hc; exact hc)
    · intro calls i r hi h
      obtain ⟨call, _, hr⟩ := place_in_grid_calls_get monitor calls 0 i r h
      rw [hr]
      apply SmartPlacement.place_in_grid_fails_late
      have : ((2 * monitor.height.toNat : Nat) : Int) ≤ (i : Int) := by exact_mod_cast hi
      push_cast at this
      omega
  · intro window monitor existing_windows c hx hy hw hh
    have hiff := (SmartPlacement.place_in_grid_eq window monitor existing_windows c _ rfl).2
    rw [SmartPlacement.is_position_valid_iff, hx, hy, hw, hh] at hiff
    have hmod := Int.tdiv_add_tmod c 2
    refine ⟨?_, ?_, ?_⟩
    · intro hc
      obtain ⟨hr1, hr4⟩ := SmartPlacement.grid_size_range monitor
        (toInt32 (toSizeT ((existing_windows.length : Int) + 1)))
      generalize SmartPlacement.calculate_optimal_grid_size monitor
        (toInt32 (toSizeT ((existing_windows.length : Int) + 1))) = g at hr1 hr4 hiff
      by_contra hs
      have hs1 : (SmartPlacement.place_in_grid window monitor existing_windows c).1.success
          = true := by simpa using hs
      have key := hiff.mp hs1
      obtain ⟨hd, hm⟩ := tdiv_two_of_nonneg c (by omega)
      rw [hd] at key
      have hy1 := key.2.2.2.1
      have hg : g = 1 ∨ g = 2 ∨ g = 3 ∨ g = 4 := by omega
      have e1 : Int.tdiv (1080 - (1 + 1) * 10) 1 = 1060 := by decide
      have e2 : Int.tdiv (1080 - (2 + 1) * 10) 2 = 525 := by decide
      have e3 : Int.tdiv (1080 - (3 + 1) * 10) 3 = 346 := by decide
      have e4 : Int.tdiv (1080 - (4 + 1) * 10) 4 = 257 := by decide
      rcases hg with rfl | rfl | rfl | rfl
      · rw [e1] at hy1; norm_num at hy1; omega
      · rw [e2] at hy1; norm_num at hy1; omega
      · rw [e3] at hy1; norm_num at hy1; omega
      · rw [e4] at hy1; norm_num at hy1; omega
    · intro hfive
      have hcnt : toInt32 (toSizeT ((existing_windows.length : Int) + 1)) = 6 := by
        rw [hfive, toSizeT_of_nonneg _ (by norm_num) (by norm_num),
          toInt32_of_range _ (by norm_num) (by norm_num)]
        norm_num
      rw [hcnt, SmartPlacement.grid_size_six] at hiff
      have e1 : Int.tdiv (1920 - (3 + 1) * 10) 3 = 626 := by decide
      have e3 : Int.tdiv (1080 - (3 + 1) * 10) 3 = 346 := by decide
      rw [e1, e3] at hiff
      norm_num at hiff
      rw [hiff]
      rcases lt_or_le c 0 with hneg | hpos
      · obtain ⟨hd, hm⟩ := tdiv_two_of_neg c hneg
        rw [hd, hm]
        omega
      · obtain ⟨hd, hm⟩ := tdiv_two_of_nonneg c hpos
        rw [hd, hm]
        omega
    · intro hnil
      have hcnt : toInt32 (toSizeT ((existing_windows.length : Int) + 1)) = 1 := by
        rw [hnil, List.length_nil, toSizeT_of_nonneg _ (by norm_num) (by norm_num),
          toInt32_of_range _ (by norm_num) (by norm_num)]
        norm_num
      have hg1 : SmartPlacement.calculate_optimal_grid_size monitor 1 = 1 := by
        simp [SmartPlacement.calculate_optimal_grid_size, SmartPlacement.ceil_sqrt,
          SmartPlacement.ceil_sqrt_from]
      rw [hcnt, hg1] at hiff
      have e1 : Int.tdiv (1920 - (1 + 1) * 10) 1 = 1900 := by decide
      have e3 : Int.tdiv (1080 - (1 + 1) * 10) 1 = 1060 := by decide
      rw [e1, e3] at hiff
      norm_num at hiff
      rw [hiff]
      rcases lt_or_le c 0 with hneg | hpos
      · obtain ⟨hd, hm⟩ := tdiv_two_of_neg c hneg
        rw [hd, hm]
        omega
      · obtain ⟨hd, hm⟩ := tdiv_two_of_nonneg c hpos
        rw [hd, hm]
        omega

theorem place_in_grid_fails_after_finitely_many_calls_witness :
    test_windows.length = 5 ∧
    (SmartPlacement.place_in_grid ⟨6, "New Window", 0, 0, 400, 300, true⟩
      ⟨1, 0, 0, 1920, 1080, "", 60⟩ test_windows 5).1.success = true ∧
    (SmartPlacement.place_in_grid ⟨6, "New Window", 0, 0, 400, 300, true⟩
      ⟨1, 0, 0, 1920, 1080, "", 60⟩ test_windows 6).1.success = false :=
  ⟨rfl,
    ((place_in_grid_fails_after_finitely_many_calls.2.2 ⟨6, "New Window", 0, 0, 400, 300, true⟩
      ⟨1, 0, 0, 1920, 1080, "", 60⟩ test_windows 5 rfl rfl rfl rfl).2.1 rfl).mpr
      ⟨by decide, by decide⟩,
    by
      have h := ((place_in_grid_fails_after_finitely_many_calls.2.2
        ⟨6, "New Window", 0, 0, 400, 300, true⟩ ⟨1, 0, 0, 1920, 1080, "", 60⟩ test_windows 6
        rfl rfl rfl rfl).2.1 rfl)
      cases hs : (SmartPlacement.place_in_grid ⟨6, "New Window", 0, 0, 400, 300, true⟩
        ⟨1, 0, 0, 1920, 1080, "", 60⟩ test_windows 6).1.success with
      | false => rfl
      | true => exact absurd (h.mp hs).2 (by decide)⟩

/-! ## Smart placement: the scans of `find_free_spaces` and `smart_tile` -/

theorem foldl_nested {α β γ : Type} (f : γ → α → β → γ) (ys : List β) :
    ∀ (xs : List α) (init : γ),
      xs.foldl (fun acc x => ys.foldl (fun acc y => f acc x y) acc) init =
        ((xs.map fun x => ys.map fun y => (x, y)).flatten).foldl
          (fun acc p => f acc p.1 p.2) init := by
  intro xs
  induction xs with
  | nil => intro init; rfl
  | cons x rest ih =>
    intro init
    simp only [List.foldl_cons, List.map_cons, List.flatten_cons, List.foldl_append,
      List.foldl_map]
    exact ih _

theorem foldl_append_filter {α : Type} (P : α → Bool) (g : α → α)
    (hg : ∀ a, g a = a) : ∀ (l init : List α),
      l.foldl (fun acc p => if P p then acc ++ [g p] else acc) init = init ++ l.filter P := by
  intro l
  induction l with
  | nil => intro init; simp
  | cons a rest ih =>
    intro init
    simp only [List.foldl_cons]
    rw [ih]
    by_cases h : P a = true
    · simp [h, hg, List.filter_cons]
    · simp [h, List.filter_cons]

theorem head_filter_eq_find {α : Type} (P : α → Bool) :
    ∀ l : List α, (l.filter P).head? = l.find? P := by
  intro l
  induction l with
  | nil => rfl
  | cons a rest ih =>
    by_cases h : P a = true
    · simp [List.filter_cons, List.find?_cons, h]
    · simp [List.filter_cons, List.find?_cons, h, ih]

theorem SmartPlacement.find_free_spaces_eq (monitor : Monitor)
    (existing_windows : List SRDWindow) :
    SmartPlacement.find_free_spaces monitor existing_windows =
      (scan_origins monitor 100).filter fun p =>
        SmartPlacement.is_free existing_windows p.1 p.2 := by
  unfold SmartPlacement.find_free_spaces scan_origins
  rw [foldl_nested (fun (acc : List (Int × Int)) (x y : Int) =>
    if SmartPlacement.is_free existing_windows x y then acc ++ [(x, y)] else acc)]
  rw [foldl_append_filter (fun p : Int × Int => SmartPlacement.is_free existing_windows p.1 p.2)
    (fun p => (p.1, p.2)) (fun _ => rfl)]
  simp

theorem SmartPlacement.cascade_place_of_first (window : SRDWindow) (monitor : Monitor)
    (existing_windows : List SRDWindow) (p : Int × Int)
    (hfirst : (scan_origins monitor 100).find?
      (fun q => SmartPlacement.is_free existing_windows q.1 q.2) = some p) :
    SmartPlacement.cascade_place window monitor existing_windows =
      if SmartPlacement.is_position_valid p.1 p.2 (min 800 (monitor.width - p.1 - 30))
          (min 600 (monitor.height - p.2 - 30)) monitor then
        ⟨p.1, p.2, min 800 (monitor.width - p.1 - 30), min 600 (monitor.height - p.2 - 30), true,
          "Cascade placement in free space"⟩
      else ⟨0, 0, 0, 0, false, "Cascade placement failed"⟩ := by
  have hhead : (SmartPlacement.find_free_spaces monitor existing_windows).head? = some p := by
    rw [SmartPlacement.find_free_spaces_eq, head_filter_eq_find]
    exact hfirst
  rw [SmartPlacement.cascade_place]
  dsimp only
  split
  · rename_i heq
    rw [heq] at hhead
    simp at hhead
  · rename_i x y rest heq
    rw [heq] at hhead
    simp only [List.head?_cons, Option.some.injEq] at hhead
    subst hhead
    simp only [SmartPlacement.CASCADE_OFFSET]

/-- C24, as stated, fails: `cascade_place` looks at the first free origin only.
Monitor `{0, 0, 1920, 1070}` with one existing window `(0, 0, 100, 900)`: the
first free origin of the scan is `(0, 900)`, where the rectangle is 800 by
`min(600, 1070 - 900 - 30) = 140`, lower than the minimum height 150, so
`cascade_place` returns `success = false`, although the origin `(100, 0)` is
free too and the rectangle there, 800 by 600, is valid. -/
theorem cascade_place_first_free_origin_too_low :
    (scan_origins ⟨1, 0, 0, 1920, 1070, "", 60⟩ 100).find?
        (fun q => SmartPlacement.is_free [⟨1, "", 0, 0, 100, 900, true⟩] q.1 q.2)
      = some (0, 900) ∧
    (SmartPlacement.cascade_place ⟨2, "", 0, 0, 400, 300, true⟩ ⟨1, 0, 0, 1920, 1070, "", 60⟩
      [⟨1, "", 0, 0, 100, 900, true⟩]).success = false ∧
    (100, 0) ∈ scan_origins ⟨1, 0, 0, 1920, 1070, "", 60⟩ 100 ∧
    SmartPlacement.is_free [⟨1, "", 0, 0, 100, 900, true⟩] 100 0 = true ∧
    SmartPlacement.is_position_valid 100 0 (min 800 (1920 - 100 - 30)) (min 600 (1070 - 0 - 30))
      ⟨1, 0, 0, 1920, 1070, "", 60⟩ = true :=
  ⟨by decide!, by decide!, by decide!, by decide!, by decide!⟩

/-- C24, amended.  When some probe origin of the 100-unit scan is free (its 200
by 150 footprint meets no existing window), `cascade_place` takes the first such
origin `(x, y)` in scan order and no other: the result has `success = true`
exactly when the rectangle at `(x, y)` of size `min(800, width - x - 30)` by
`min(600, height - y - 30)` is valid for the monitor, and then the result is
that rectangle; otherwise the result has `success = false`. -/
theorem cascade_place_first_free_origin (window : SRDWindow) (monitor : Monitor)
    (existing_windows : List SRDWindow) (p : Int × Int)
    (hfirst : (scan_origins monitor 100).find?
      (fun q => SmartPlacement.is_free existing_windows q.1 q.2) = some p) :
    ((SmartPlacement.cascade_place window monitor existing_windows).success = true ↔
      SmartPlacement.is_position_valid p.1 p.2 (min 800 (monitor.width - p.1 - 30))
        (min 600 (monitor.height - p.2 - 30)) monitor = true) ∧
    ((SmartPlacement.cascade_place window monitor existing_windows).success = true →
      SmartPlacement.cascade_place window monitor existing_windows =
        ⟨p.1, p.2, min 800 (monitor.width - p.1 - 30), min 600 (monitor.height - p.2 - 30), true,
          "Cascade placement in free space"⟩) := by
  rw [SmartPlacement.cascade_place_of_first window monitor existing_windows p hfirst]
  split_ifs with hv
  · exact ⟨⟨fun _ => hv, fun _ => rfl⟩, fun _ => rfl⟩
  · refine ⟨⟨fun h => ?_, fun h => absurd h hv⟩, fun h => ?_⟩ <;> simp at h

theorem cascade_place_first_free_origin_witness :
    (scan_origins test_monitor 100).find?
        (fun q => SmartPlacement.is_free test_windows q.1 q.2) = some (0, 500) ∧
    SmartPlacement.cascade_place ⟨101, "Cascade Test Window", 0, 0, 400, 300, true⟩ test_monitor
        test_windows = ⟨0, 500, 800, 550, true, "Cascade placement in free space"⟩ :=
  ⟨by decide!,
    (cascade_place_first_free_origin ⟨101, "Cascade Test Window", 0, 0, 400, 300, true⟩
      test_monitor test_windows (0, 500) (by decide!)).2
      (((cascade_place_first_free_origin ⟨101, "Cascade Test Window", 0, 0, 400, 300, true⟩
        test_monitor test_windows (0, 500) (by decide!)).1).mpr (by decide!))⟩

theorem SmartPlacement.smart_tile_scan_eq (window : SRDWindow) (monitor : Monitor)
    (existing_windows : List SRDWindow) (best : SmartPlacement.Best) :
    SmartPlacement.smart_tile_scan window monitor existing_windows best =
      (scan_origins monitor 50).foldl
        (fun b p => SmartPlacement.smart_tile_body window monitor existing_windows b p.1 p.2)
        best := by
  unfold SmartPlacement.smart_tile_scan scan_origins
  exact foldl_nested (fun (b : SmartPlacement.Best) (x y : Int) =>
    SmartPlacement.smart_tile_body window monitor existing_windows b x y) _ _ _

theorem SmartPlacement.smart_tile_body_eq (window : SRDWindow) (monitor : Monitor)
    (existing_windows : List SRDWindow) (best : SmartPlacement.Best) (p : Int × Int) :
    SmartPlacement.smart_tile_body window monitor existing_windows best p.1 p.2 =
      if SmartPlacement.candidate_valid monitor p = true ∧
          SmartPlacement.calculate_overlap_score window monitor existing_windows
            > best.best_score then
        ⟨SmartPlacement.calculate_overlap_score window monitor existing_windows, p.1, p.2,
          min 800 (monitor.width - p.1), min 600 (monitor.height - p.2)⟩
      else best := by
  unfold SmartPlacement.smart_tile_body SmartPlacement.candidate_valid
  dsimp only
  by_cases hv : SmartPlacement.is_position_valid p.1 p.2 (min 800 (monitor.width - p.1))
      (min 600 (monitor.height - p.2)) monitor = true
  · by_cases hs : SmartPlacement.calculate_overlap_score window monitor existing_windows
        > best.best_score
    · simp [hv, hs]
    · simp [hv, hs]
  · simp [hv]

theorem SmartPlacement.scan_fold_keep (window : SRDWindow) (monitor : Monitor)
    (existing_windows : List SRDWindow) :
    ∀ (l : List (Int × Int)) (best : SmartPlacement.Best),
      SmartPlacement.calculate_overlap_score window monitor existing_windows
        ≤ best.best_score →
      l.foldl (fun b p => SmartPlacement.smart_tile_body window monitor existing_windows b
        p.1 p.2) best = best := by
  intro l
  induction l with
  | nil => intro best _; rfl
  | cons p rest ih =>
    intro best hle
    simp only [List.foldl_cons]
    rw [SmartPlacement.smart_tile_body_eq, if_neg (fun h => absurd h.2 (not_lt.mpr hle))]
    exact ih best hle

theorem SmartPlacement.scan_fold_first (window : SRDWindow) (monitor : Monitor)
    (existing_windows : List SRDWindow) :
    ∀ (l : List (Int × Int)) (best : SmartPlacement.Best),
      best.best_score
        < SmartPlacement.calculate_overlap_score window monitor existing_windows →
      l.foldl (fun b p => SmartPlacement.smart_tile_body window monitor existing_windows b
        p.1 p.2) best =
        match l.find? (SmartPlacement.candidate_valid monitor) with
        | some p => ⟨SmartPlacement.calculate_overlap_score window monitor existing_windows,
            p.1, p.2, min 800 (monitor.width - p.1), min 600 (monitor.height - p.2)⟩
        | none => best := by
  intro l
  induction l with
  | nil => intro best _; rfl
  | cons p rest ih =>
    intro best hlt
    simp only [List.foldl_cons]
    rw [SmartPlacement.smart_tile_body_eq]
    by_cases hv : SmartPlacement.candidate_valid monitor p = true
    · rw [if_pos ⟨hv, hlt⟩, List.find?_cons_of_pos _ hv]
      exact SmartPlacement.scan_fold_keep window monitor existing_windows rest _ (le_refl _)
    · rw [if_neg (fun h => hv h.1), List.find?_cons_of_neg _ hv]
      exact ih best hlt

theorem SmartPlacement.smart_tile_eq (window : SRDWindow) (monitor : Monitor)
    (existing_windows : List SRDWindow) :
    SmartPlacement.smart_tile window monitor existing_windows =
      if 0 ≤ SmartPlacement.calculate_overlap_score window monitor existing_windows then
        match (scan_origins monitor 50).find? (SmartPlacement.candidate_valid monitor) with
        | some p => ⟨p.1, p.2, min 800 (monitor.width - p.1), min 600 (monitor.height - p.2),
            true, "Smart tile placement successful"⟩
        | none => ⟨0, 0, 0, 0, false, "Smart tile placement failed"⟩
      else ⟨0, 0, 0, 0, false, "Smart tile placement failed"⟩ := by
  rw [SmartPlacement.smart_tile]
  try dsimp only
  rw [SmartPlacement.smart_tile_scan_eq]
  by_cases hs : 0 ≤ SmartPlacement.calculate_overlap_score window monitor existing_windows
  · rw [if_pos hs, SmartPlacement.scan_fold_first window monitor existing_windows _ _
      (by show (-1 : Int) < _; omega)]
    cases (scan_origins monitor 50).find? (SmartPlacement.candidate_valid monitor) with
    | none => simp
    | some p => simp [ge_iff_le, hs]
  · rw [if_neg hs, SmartPlacement.scan_fold_keep window monitor existing_windows _ _
      (by show _ ≤ (-1 : Int); omega)]
    simp

theorem forRange_head (start stop step : Int) (h : start < stop) :
    ∃ rest : List Int, forRange start stop step = start :: rest := by
  unfold forRange
  obtain ⟨n, hn⟩ : ∃ n : Nat, (stop - start).toNat = n + 1 :=
    ⟨(stop - start).toNat - 1, by omega⟩
  rw [hn]
  exact ⟨forRangeAux n (start + step) stop step, by simp [forRangeAux, h]⟩

theorem scan_origins_head (monitor : Monitor) (step : Int)
    (hw : 200 < monitor.width) (hh : 150 < monitor.height) :
    ∃ rest : List (Int × Int), scan_origins monitor step = (monitor.x, monitor.y) :: rest := by
  obtain ⟨xs, hxs⟩ := forRange_head monitor.x
    (monitor.x + monitor.width - SmartPlacement.MIN_WINDOW_WIDTH) step
    (by simp only [SmartPlacement.MIN_WINDOW_WIDTH]; omega)
  obtain ⟨ys, hys⟩ := forRange_head monitor.y
    (monitor.y + monitor.height - SmartPlacement.MIN_WINDOW_HEIGHT) step
    (by simp only [SmartPlacement.MIN_WINDOW_HEIGHT]; omega)
  unfold scan_origins
  rw [hxs, hys]
  simp only [List.map_cons, List.flatten_cons, List.cons_append]
  exact ⟨_, rfl⟩

theorem SmartPlacement.candidate_valid_origin (monitor : Monitor)
    (hx : monitor.x = 0) (hy : monitor.y = 0) (hw : 200 < monitor.width)
    (hh : 150 < monitor.height) :
    SmartPlacement.candidate_valid monitor (monitor.x, monitor.y) = true := by
  unfold SmartPlacement.candidate_valid
  rw [SmartPlacement.is_position_valid_iff]
  dsimp only
  have m1 := min_le_right (800 : Int) (monitor.width - monitor.x)
  have m2 := min_le_right (600 : Int) (monitor.height - monitor.y)
  have m3 : 200 ≤ min (800 : Int) (monitor.width - monitor.x) := le_min (by omega) (by omega)
  have m4 : 150 ≤ min (600 : Int) (monitor.height - monitor.y) := le_min (by omega) (by omega)
  refine ⟨le_refl _, le_refl _, ?_, ?_, m3, m4⟩ <;> omega

theorem SmartPlacement.smart_tile_origin (window : SRDWindow) (monitor : Monitor)
    (existing_windows : List SRDWindow)
    (hx : monitor.x = 0) (hy : monitor.y = 0) (hw : 200 < monitor.width)
    (hh : 150 < monitor.height)
    (hs : 0 ≤ SmartPlacement.calculate_overlap_score window monitor existing_windows) :
    SmartPlacement.smart_tile window monitor existing_windows =
      ⟨0, 0, min 800 monitor.width, min 600 monitor.height, true,
        "Smart tile placement successful"⟩ := by
  obtain ⟨rest, hrest⟩ := scan_origins_head monitor 50 hw hh
  rw [SmartPlacement.smart_tile_eq, if_pos hs, hrest,
    List.find?_cons_of_pos _ (SmartPlacement.candidate_valid_origin monitor hx hy hw hh)]
  simp [hx, hy]

theorem SmartPlacement.smart_tile_score_of_success (window : SRDWindow) (monitor : Monitor)
    (existing_windows : List SRDWindow)
    (h : (SmartPlacement.smart_tile window monitor existing_windows).success = true) :
    0 ≤ SmartPlacement.calculate_overlap_score window monitor existing_windows := by
  by_contra hs
  rw [SmartPlacement.smart_tile_eq, if_neg hs] at h
  simp at h

/-- C27. The score that `smart_tile` gives a candidate is
`calculate_overlap_score(window, monitor, existing_windows)`, which does not
depend on the candidate.  So whenever two calls on the same monitor succeed, for
any two new windows and any two lists of existing windows, the two results are
equal: both are the first valid candidate `(x, y)` of the 50-unit scan, with size
`min(800, width - x)` by `min(600, height - y)`.  For a monitor with origin
`(0, 0)`, width above 200 and height above 150 that candidate is `(0, 0)` with
size `min(800, width)` by `min(600, height)`. -/
theorem smart_tile_result_independent_of_existing (window1 window2 : SRDWindow)
    (monitor : Monitor) (existing1 existing2 : List SRDWindow)
    (h1 : (SmartPlacement.smart_tile window1 monitor existing1).success = true)
    (h2 : (SmartPlacement.smart_tile window2 monitor existing2).success = true) :
    SmartPlacement.smart_tile window1 monitor existing1 =
      SmartPlacement.smart_tile window2 monitor existing2 ∧
    (∃ p : Int × Int,
      (scan_origins monitor 50).find? (SmartPlacement.candidate_valid monitor) = some p ∧
      SmartPlacement.smart_tile window1 monitor existing1 =
        ⟨p.1, p.2, min 800 (monitor.width - p.1), min 600 (monitor.height - p.2), true,
          "Smart tile placement successful"⟩) ∧
    (monitor.x = 0 → monitor.y = 0 → 200 < monitor.width → 150 < monitor.height →
      SmartPlacement.smart_tile window1 monitor existing1 =
        ⟨0, 0, min 800 monitor.width, min 600 monitor.height, true,
          "Smart tile placement successful"⟩) := by
  have key : ∀ (window : SRDWindow) (existing : List SRDWindow),
      (SmartPlacement.smart_tile window monitor existing).success = true →
      ∃ p : Int × Int,
        (scan_origins monitor 50).find? (SmartPlacement.candidate_valid monitor) = some p ∧
        SmartPlacement.smart_tile window monitor existing =
          ⟨p.1, p.2, min 800 (monitor.width - p.1), min 600 (monitor.height - p.2), true,
            "Smart tile placement successful"⟩ := by
    intro window existing hs
    rw [SmartPlacement.smart_tile_eq] at hs ⊢
    split_ifs at hs ⊢ with hsc
    · cases hf : (scan_origins monitor 50).find? (SmartPlacement.candidate_valid monitor) with
      | none => rw [hf] at hs; simp at hs
      | some p => exact ⟨p, rfl, rfl⟩
  obtain ⟨p1, hp1, e1⟩ := key window1 existing1 h1
  obtain ⟨p2, hp2, e2⟩ := key window2 existing2 h2
  have hp : p1 = p2 := Option.some.inj (hp1.symm.trans hp2)
  refine ⟨by rw [e1, e2, hp], ⟨p1, hp1, e1⟩, ?_⟩
  intro hx hy hw hh
  exact SmartPlacement.smart_tile_origin window1 monitor existing1 hx hy hw hh
    (SmartPlacement.smart_tile_score_of_success window1 monitor existing1 h1)

theorem smart_tile_result_independent_of_existing_witness :
    (SmartPlacement.smart_tile (SRDWindow.new 3 "") test_monitor []).success = true ∧
    (SmartPlacement.smart_tile (SRDWindow.new 3 "") test_monitor
      [⟨1, "", 100, 100, 400, 300, true⟩, ⟨2, "", 150, 150, 400, 300, true⟩]).success = true ∧
    SmartPlacement.smart_tile (SRDWindow.new 3 "") test_monitor [] =
      SmartPlacement.smart_tile (SRDWindow.new 3 "") test_monitor
        [⟨1, "", 100, 100, 400, 300, true⟩, ⟨2, "", 150, 150, 400, 300, true⟩] := by
  have h1 : (SmartPlacement.smart_tile (SRDWindow.new 3 "") test_monitor []).success = true := by
    rw [SmartPlacement.smart_tile_origin _ test_monitor _ rfl rfl (by decide) (by decide)
      (by decide)]
  have h2 : (SmartPlacement.smart_tile (SRDWindow.new 3 "") test_monitor
      [⟨1, "", 100, 100, 400, 300, true⟩, ⟨2, "", 150, 150, 400, 300, true⟩]).success
      = true := by
    rw [SmartPlacement.smart_tile_origin _ test_monitor _ rfl rfl (by decide) (by decide)
      (by decide)]
  exact ⟨h1, h2,
    (smart_tile_result_independent_of_existing (SRDWindow.new 3 "") (SRDWindow.new 3 "")
      test_monitor [] [⟨1, "", 100, 100, 400, 300, true⟩, ⟨2, "", 150, 150, 400, 300, true⟩]
      h1 h2).1⟩

/-- C22. `smart_tile` gives every candidate the same score,
`calculate_overlap_score(window, monitor, existing_windows)`, computed from the
geometry the new window has at the call, and starts from `best_score = -1`: it
succeeds exactly when that score is at least `0` and the scan has a valid
candidate.  On the fixture of the test `SmartTile` (monitor `{0, 0, 1920, 1080}`,
five existing 400 by 300 windows at `(100 + 50 i, 100 + 50 i)`, new 400 by 300
window at `(0, 0)`) the first candidate `(0, 0)` of the scan is valid, the score
is `-39` (four overlaps and one window apart), and the result has
`success = false`. -/
theorem smart_tile_test_fixture_fails :
    (∀ (window : SRDWindow) (monitor : Monitor) (existing_windows : List SRDWindow),
      ((SmartPlacement.smart_tile window monitor existing_windows).success = true ↔
        0 ≤ SmartPlacement.calculate_overlap_score window monitor existing_windows ∧
        ∃ p ∈ scan_origins monitor 50, SmartPlacement.candidate_valid monitor p = true)) ∧
    (scan_origins test_monitor 50).head? = some (0, 0) ∧
    SmartPlacement.candidate_valid test_monitor (0, 0) = true ∧
    SmartPlacement.calculate_overlap_score ⟨103, "Smart Tile Test Window", 0, 0, 400, 300, true⟩
      test_monitor test_windows = -39 ∧
    SmartPlacement.smart_tile ⟨103, "Smart Tile Test Window", 0, 0, 400, 300, true⟩ test_monitor
      test_windows = ⟨0, 0, 0, 0, false, "Smart tile placement failed"⟩ := by
  refine ⟨?_, by decide!, by decide!, by decide!, ?_⟩
  · intro window monitor existing_windows
    rw [SmartPlacement.smart_tile_eq]
    split_ifs with hsc
    · cases hf : (scan_origins monitor 50).find? (SmartPlacement.candidate_valid monitor) with
      | none =>
        simp only [hsc, true_and]
        refine ⟨fun h => by simp at h, fun h => ?_⟩
        obtain ⟨p, hp, hv⟩ := h
        have := List.find?_eq_none.mp hf p hp
        exact absurd hv this
      | some p =>
        simp only [hsc, true_and, true_iff]
        exact ⟨p, List.mem_of_find?_eq_some hf, List.find?_some hf⟩
    · exact ⟨fun h => by simp at h, fun h => absurd h.1 hsc⟩
  · rw [SmartPlacement.smart_tile_eq]
    have hs : SmartPlacement.calculate_overlap_score
        ⟨103, "Smart Tile Test Window", 0, 0, 400, 300, true⟩ test_monitor test_windows
        = -39 := by decide!
    rw [hs]
    rfl

/-! ## Event system: the queue is never filled -/

theorem EventSystem.process_events_idle (n : Nat) (es : EventSystem)
    (hq : es.event_queue = []) (hp : es.processing_events = false) :
    EventSystem.exec (n + 2) Call.process_events es = some ⟨Completion.normal, es, []⟩ := by
  rw [EventSystem.process_events_step (n + 1) es hp]
  have hd : EventSystem.exec (n + 1) Call.drain { es with processing_events := true } =
      some ⟨Completion.normal, { es with processing_events := true }, []⟩ := by
    simp only [EventSystem.exec, hq]
  rw [hd]
  cases es with
  | mk handlers event_queue processing_events =>
    simp only at hp
    subst hp
    simp

theorem EventSystem.process_events_idle_of_some (fuel : Nat) (es : EventSystem) (r : Outcome)
    (hq : es.event_queue = []) (hp : es.processing_events = false)
    (h : EventSystem.exec fuel Call.process_events es = some r) :
    r = ⟨Completion.normal, es, []⟩ := by
  cases fuel with
  | zero => simp [EventSystem.exec] at h
  | succ m =>
    cases m with
    | zero =>
      rw [EventSystem.process_events_step 0 es hp] at h
      simp [EventSystem.exec] at h
    | succ n =>
      rw [EventSystem.process_events_idle n es hq hp] at h
      exact (Option.some.inj h).symm

theorem EventSystem.exec_state_unchanged (fuel : Nat) :
    ∀ (call : Call) (es : EventSystem) (r : Outcome),
      es.event_queue = [] → es.processing_events = false → call ≠ Call.drain →
      EventSystem.exec fuel call es = some r → r.es = es := by
  induction fuel with
  | zero => intro call es r _ _ _ h; simp [EventSystem.exec] at h
  | succ n ih =>
    intro call es r hq hp hcall h
    cases call with
    | emit_event e =>
      rw [EventSystem.emit_event_step n es e hp] at h
      cases hf : es.handlers.find e.type with
      | none =>
        simp only [hf] at h
        cases h
        rfl
      | some hs =>
        simp only [hf] at h
        exact ih _ _ _ hq hp (by simp) h
    | dispatch hs e =>
      cases hs with
      | nil =>
        simp only [EventSystem.exec] at h
        cases h
        rfl
      | cons hd tl =>
        rw [EventSystem.dispatch_cons_step] at h
        cases h1 : EventSystem.exec n (Call.handler_body (hd.body e)) es with
        | none => simp [h1] at h
        | some r1 =>
          have e1 : r1.es = es := ih _ _ _ hq hp (by simp) h1
          simp only [h1] at h
          split_ifs at h with hc
          · cases h
            exact e1
          · cases h2 : EventSystem.exec n (Call.dispatch tl e) r1.es with
            | none => simp [h2] at h
            | some r2 =>
              rw [e1] at h2
              have e2 : r2.es = es := ih _ _ _ hq hp (by simp) h2
              rw [e1] at h
              simp only [h2] at h
              cases h
              exact e2
    | handler_body steps =>
      cases steps with
      | nil =>
        simp only [EventSystem.exec] at h
        cases h
        rfl
      | cons step rest =>
        cases step with
        | throw_std =>
          simp only [EventSystem.exec] at h
          cases h
          rfl
        | throw_other =>
          simp only [EventSystem.exec] at h
          cases h
          rfl
        | emit e =>
          rw [EventSystem.body_emit_step] at h
          cases h1 : EventSystem.exec n (Call.emit_event e) es with
          | none => simp [h1] at h
          | some r1 =>
            have e1 : r1.es = es := ih _ _ _ hq hp (by simp) h1
            simp only [h1] at h
            split_ifs at h with hc
            · cases h2 : EventSystem.exec n (Call.handler_body rest) r1.es with
              | none => simp [h2] at h
              | some r2 =>
                rw [e1] at h2
                have e2 : r2.es = es := ih _ _ _ hq hp (by simp) h2
                rw [e1] at h
                simp only [h2] at h
                cases h
                exact e2
            · cases h
              exact e1
        | process =>
          rw [EventSystem.body_process_step] at h
          cases h1 : EventSystem.exec n Call.process_events es with
          | none => simp [h1] at h
          | some r1 =>
            have e1 : r1.es = es := ih _ _ _ hq hp (by simp) h1
            simp only [h1] at h
            split_ifs at h with hc
            · cases h2 : EventSystem.exec n (Call.handler_body rest) r1.es with
              | none => simp [h2] at h
              | some r2 =>
                rw [e1] at h2
                have e2 : r2.es = es := ih _ _ _ hq hp (by simp) h2
                rw [e1] at h
                simp only [h2] at h
                cases h
                exact e2
            · cases h
              exact e1
    | process_events =>
      rw [EventSystem.process_events_idle_of_some (n + 1) es r hq hp h]
    | drain => exact absurd rfl hcall

theorem run_event_ops_idle (fuel : Nat) :
    ∀ (ops : List EventOp) (es es1 : EventSystem),
      es.event_queue = [] → es.processing_events = false →
      run_event_ops fuel es ops = some es1 →
      es1.event_queue = [] ∧ es1.processing_events = false := by
  intro ops
  induction ops with
  | nil =>
    intro es es1 hq hp h
    simp only [run_event_ops, Option.some.injEq] at h
    subst h
    exact ⟨hq, hp⟩
  | cons op rest ih =>
    intro es es1 hq hp h
    simp only [run_event_ops] at h
    cases hop : op.apply fuel es with
    | none => simp [hop] at h
    | some es2 =>
      simp only [hop] at h
      have hes2 : es2.event_queue = [] ∧ es2.processing_events = false := by
        cases op with
        | register_handler type handler =>
          simp only [EventOp.apply, Option.some.injEq] at hop
          subst hop
          exact ⟨hq, hp⟩
        | emit_event e =>
          simp only [EventOp.apply, EventSystem.emit_event, Option.map_eq_some'] at hop
          obtain ⟨r, hr, hre⟩ := hop
          have := EventSystem.exec_state_unchanged fuel _ es r hq hp (by simp) hr
          rw [← hre, this]
          exact ⟨hq, hp⟩
        | process_events =>
          simp only [EventOp.apply, EventSystem.process_events, Option.map_eq_some'] at hop
          obtain ⟨r, hr, hre⟩ := hop
          have := EventSystem.exec_state_unchanged fuel _ es r hq hp (by simp) hr
          rw [← hre, this]
          exact ⟨hq, hp⟩
      exact ih es2 es1 hes2.1 hes2.2 h

/-- C29. After every sequence of `register_handler`, `emit_event` and
`process_events` calls on a fresh event system, with handlers that themselves
call `emit_event` and `process_events`, the event queue is empty and the
processing flag is false.  In every such state: `process_events` returns without
calling a handler and leaves the state as it is; every call that returns
(`emit_event`, its dispatch loop, a handler body, `process_events`, nested or
not) leaves the state as it is, so every nested call starts in such a state too;
and `emit_event` goes straight to the dispatch loop over the handlers of the
type of the event. -/
theorem event_queue_is_dead_state :
    (∀ (fuel : Nat) (ops : List EventOp) (es : EventSystem),
      run_event_ops fuel EventSystem.new ops = some es →
      es.event_queue = [] ∧ es.processing_events = false) ∧
    (∀ es : EventSystem, es.event_queue = [] → es.processing_events = false →
      (∀ n : Nat, EventSystem.process_events (n + 2) es = some ⟨Completion.normal, es, []⟩) ∧
      (∀ (fuel : Nat) (call : Call) (r : Outcome), call ≠ Call.drain →
        EventSystem.exec fuel call es = some r → r.es = es) ∧
      (∀ (n : Nat) (e : Event), EventSystem.emit_event (n + 1) es e =
        match es.handlers.find e.type with
        | none => some ⟨Completion.normal, es, []⟩
        | some hs => EventSystem.exec n (Call.dispatch hs e) es)) := by
  refine ⟨fun fuel ops es h => run_event_ops_idle fuel ops EventSystem.new es rfl rfl h, ?_⟩
  intro es hq hp
  exact ⟨fun n => EventSystem.process_events_idle n es hq hp,
    fun fuel call r hcall h => EventSystem.exec_state_unchanged fuel call es r hq hp hcall h,
    fun n e => EventSystem.emit_event_step n es e hp⟩

theorem event_queue_is_dead_state_witness :
    (run_event_ops 10 EventSystem.new example_event_ops).isSome = true ∧
    ((run_event_ops 10 EventSystem.new example_event_ops).map fun es => es.event_queue)
      = some [] ∧
    ((EventSystem.emit_event 10 ((EventSystem.new.register_handler EventType.KEY_PRESSED
        ⟨1, fun _ => [HandlerStep.emit ⟨EventType.MOUSE_MOVED⟩,
          HandlerStep.process]⟩).register_handler EventType.MOUSE_MOVED
        ⟨2, fun _ => [HandlerStep.throw_std]⟩) ⟨EventType.KEY_PRESSED⟩).map
      fun r => direct_calls r.trace) = some [(1, ⟨EventType.KEY_PRESSED⟩)] := by
  have hsome : (run_event_ops 10 EventSystem.new example_event_ops).isSome = true := by decide
  refine ⟨hsome, ?_, by decide⟩
  cases h : run_event_ops 10 EventSystem.new example_event_ops with
  | none =>
    rw [h] at hsome
    simp at hsome
  | some es => simp [(event_queue_is_dead_state.1 10 example_event_ops es h).1]

/-! ## Event system: `process_events` in the states that occur -/

end SRDWM
